import Mathlib

/-! Cilok: AI-assisted location resolution.

A shallow embedding of the parts of `src/services/ai-service.js`,
`src/cilok-agent.js` and `src/services/location-service.js` that decide the
resolution loop, the candidate extraction, the travel-query classifier and
the provider adapter.

JavaScript strings are modelled as Lean strings (sequences of Unicode scalar
values).  The regular expressions of the source are written as values of a
small regex syntax `Re` and run by a backtracking matcher that follows the
ECMAScript matching order (greedy quantifiers, leftmost alternative first).
-/

namespace Cilok

/-! ## Characters and string primitives -/

/-- The length of a string as `String.prototype.length` reports it: the number
of UTF-16 code units (two for a code point above the basic plane). -/
def jsLength (s : String) : Nat :=
  (s.data.map (fun c => if c.toNat < 65536 then 1 else 2)).sum

/-- The class `\s`: ECMAScript white space and line terminators. -/
def isSpace (c : Char) : Bool :=
  let n := c.toNat
  (9 ≤ n && n ≤ 13) || n == 32 || n == 160 || n == 5760 || (8192 ≤ n && n ≤ 8202) ||
    n == 8232 || n == 8233 || n == 8239 || n == 8287 || n == 12288 || n == 65279

/-- The class `[A-Z]`. -/
def isUpperAZ (c : Char) : Bool := 65 ≤ c.toNat && c.toNat ≤ 90

/-- The class `[a-z]`. -/
def isLowerAZ (c : Char) : Bool := 97 ≤ c.toNat && c.toNat ≤ 122

/-- The class `\d`. -/
def isDigit09 (c : Char) : Bool := 48 ≤ c.toNat && c.toNat ≤ 57

/-- The class `\w`: `[A-Za-z0-9_]`. -/
def isWordChar (c : Char) : Bool := isUpperAZ c || isLowerAZ c || isDigit09 c || c.toNat == 95

/-- The class `.` (without the `s` flag): anything but a line terminator. -/
def isDot (c : Char) : Bool :=
  !(c.toNat == 10 || c.toNat == 13 || c.toNat == 8232 || c.toNat == 8233)

/-- Case folding of a regex with the `i` flag and without the `u` flag, on the
characters that can meet an ASCII pattern character: an ASCII lower-case letter
folds to its upper-case letter.  A character outside ASCII never folds to an
ASCII character in that mode, so it is left as it is. -/
def canonicalize (c : Char) : Char :=
  if isLowerAZ c then Char.ofNat (c.toNat - 32) else c

/-- `String.prototype.trim` on a character list. -/
def trimChars (s : List Char) : List Char :=
  ((s.dropWhile isSpace).reverse.dropWhile isSpace).reverse

/-- `String.prototype.trim`. -/
def jsTrim (s : String) : String := ⟨trimChars s.data⟩

/-- `String.prototype.includes` on character lists: does `sub` occur in the
text, at any position. -/
def includesChars (sub : List Char) : List Char → Bool
  | [] => sub.isEmpty
  | c :: cs => sub.isPrefixOf (c :: cs) || includesChars sub cs

/-! ## Regular expressions -/

/-- The regex syntax used by the source's patterns. -/
inductive Re where
  /-- one character of a class -/
  | cls (p : Char → Bool)
  /-- concatenation -/
  | seq (a b : Re)
  /-- alternation `a|b` -/
  | alt (a b : Re)
  /-- capturing group number `n` -/
  | group (n : Nat) (a : Re)
  /-- greedy `(?:a)*` -/
  | star (a : Re)
  /-- the assertion `\b` -/
  | wordB
  /-- the assertion `^` -/
  | bol
  /-- the assertion `$` -/
  | eol
  /-- the empty pattern -/
  | eps

/-- The matcher's position: the character before it (none at the start of the
input), the input still to read, and the captures made so far (latest first). -/
structure MState where
  prev : Option Char
  rest : List Char
  caps : List (Nat × List Char)

/-- Is the position at a word boundary. -/
def atWordBoundary (st : MState) : Bool :=
  let a := match st.prev with
    | some c => isWordChar c
    | none => false
  let b := match st.rest with
    | c :: _ => isWordChar c
    | [] => false
  a != b

/-- Greedy repetition of a matcher `m`: one more round of `m` first and, when
that road fails, the continuation from here.  A round that reads nothing is
rejected as in ECMAScript.  The counter starts at the length of the remaining
input, which bounds the number of rounds. -/
def iterStar (m : MState → (MState → Option MState) → Option MState) :
    Nat → MState → (MState → Option MState) → Option MState
  | 0, st, k => k st
  | n + 1, st, k =>
    match m st (fun st' =>
        if st'.rest.length < st.rest.length then iterStar m n st' k else none) with
    | some r => some r
    | none => k st

/-- The backtracking matcher in continuation-passing style: `matchRe r st k`
matches `r` at `st` and hands each end position to `k`, in priority order,
until `k` accepts one. -/
def matchRe : Re → MState → (MState → Option MState) → Option MState
  | .cls p, st, k =>
    match st.rest with
    | c :: cs => if p c then k { st with prev := some c, rest := cs } else none
    | [] => none
  | .seq a b, st, k => matchRe a st (fun st' => matchRe b st' k)
  | .alt a b, st, k =>
    match matchRe a st k with
    | some r => some r
    | none => matchRe b st k
  | .group n a, st, k =>
    matchRe a st (fun st' =>
      k { st' with caps := (n, st.rest.take (st.rest.length - st'.rest.length)) :: st'.caps })
  | .star a, st, k => iterStar (matchRe a) st.rest.length st k
  | .wordB, st, k => if atWordBoundary st then k st else none
  | .bol, st, k => if st.prev.isNone then k st else none
  | .eol, st, k => if st.rest.isEmpty then k st else none
  | .eps, st, k => k st

namespace Re

/-- A literal character; `ci` is the `i` flag. -/
def chr (ci : Bool) (c : Char) : Re :=
  .cls (fun x => if ci then canonicalize x == canonicalize c else x == c)

/-- The class of the characters listed in `cs`. -/
def oneOf (ci : Bool) (cs : List Char) : Re :=
  .cls (fun x => if ci then cs.any (fun c => canonicalize x == canonicalize c) else cs.contains x)

/-- The negated class `[^...]` of the characters listed in `cs`. -/
def noneOf (ci : Bool) (cs : List Char) : Re :=
  .cls (fun x => !(if ci then cs.any (fun c => canonicalize x == canonicalize c) else cs.contains x))

/-- Greedy `a+`. -/
def plus (a : Re) : Re := .seq a (.star a)

/-- A literal word, character by character. -/
def word (ci : Bool) : List Char → Re
  | [] => .eps
  | c :: cs => .seq (chr ci c) (word ci cs)

/-- The concatenation of a list of patterns. -/
def cat : List Re → Re
  | [] => .eps
  | r :: rs => .seq r (cat rs)

end Re

/-- What `RegExp.prototype.exec` reports for a match: where it starts, the
matched text, the captures and the input after the match. -/
structure MatchResult where
  index : Nat
  matched : List Char
  caps : List (Nat × List Char)
  after : List Char

/-- The value of capture group `n`, if it took part in the match. -/
def MatchResult.cap (m : MatchResult) (n : Nat) : Option (List Char) :=
  (m.caps.find? (fun p => p.1 == n)).map (fun p => p.2)

/-- One match attempt at a fixed position. -/
def matchAt (re : Re) (prev : Option Char) (s : List Char) : Option MState :=
  matchRe re { prev := prev, rest := s, caps := [] } some

/-- The first match at or after the current position (`exec` without the `g`
flag, and `String.prototype.match` with such a regex). -/
def execFrom (re : Re) : Nat → Option Char → List Char → Option MatchResult
  | i, prev, [] =>
    match matchAt re prev [] with
    | some st => some { index := i, matched := [], caps := st.caps, after := [] }
    | none => none
  | i, prev, c :: cs =>
    match matchAt re prev (c :: cs) with
    | some st =>
      some { index := i, matched := (c :: cs).take ((c :: cs).length - st.rest.length),
             caps := st.caps, after := st.rest }
    | none => execFrom re (i + 1) (some c) cs

/-- The array built by `String.prototype.match` with a `g` regex: each matched text in
turn.  `skip` counts the positions before `lastIndex`, where no match is tried. -/
def matchAllFrom (re : Re) : Nat → Option Char → List Char → List (List Char)
  | 0, prev, [] =>
    match matchAt re prev [] with
    | some _ => [[]]
    | none => []
  | _ + 1, _, [] => []
  | 0, prev, c :: cs =>
    match matchAt re prev (c :: cs) with
    | some st =>
      let n := (c :: cs).length - st.rest.length
      (c :: cs).take n :: matchAllFrom re (n - 1) (some c) cs
    | none => matchAllFrom re 0 (some c) cs
  | skip + 1, _, c :: cs => matchAllFrom re skip (some c) cs

/-- The result of `str.match(re)` for a `g` regex: the matched texts, or null when there is
none. -/
def matchAll (re : Re) (s : List Char) : Option (List (List Char)) :=
  match matchAllFrom re 0 none s with
  | [] => none
  | ms => some ms

/-- The result of `str.replace(re, '')` for a `g` regex: every match is cut out. -/
def removeAllFrom (re : Re) : Nat → Option Char → List Char → List Char
  | _, _, [] => []
  | 0, prev, c :: cs =>
    match matchAt re prev (c :: cs) with
    | some st =>
      let n := (c :: cs).length - st.rest.length
      if n = 0 then c :: removeAllFrom re 0 (some c) cs
      else removeAllFrom re (n - 1) (some c) cs
    | none => c :: removeAllFrom re 0 (some c) cs
  | skip + 1, _, c :: cs => removeAllFrom re skip (some c) cs

/-- The result of `str.replace(re, '')` for a regex without the `g` flag: the first match is cut
out. -/
def removeFirst (re : Re) (s : List Char) : List Char :=
  match execFrom re 0 none s with
  | some m => s.take m.index ++ m.after
  | none => s

/-! ## Candidate extraction (`AIService.extractLocationNames`) -/

/-- The pattern `/"([^"]+)"/g`. -/
def quotedRe : Re :=
  Re.cat [Re.chr false '"', .group 1 (Re.plus (Re.noneOf false ['"'])), Re.chr false '"']

/-- The pattern `/"/g`. -/
def quoteRe : Re := Re.chr false '"'

/-- The pattern `/<trigger>\s+([^.,:]+)/gi` for a trigger word. -/
def triggerRe (trigger : String) : Re :=
  Re.cat [Re.word true trigger.data, Re.plus (.cls isSpace),
    .group 1 (Re.plus (Re.noneOf true ['.', ',', ':']))]

/-- The pattern `/\b([A-Z][a-z]+(?:\s+[A-Z][a-z]+)*)\b/g`. -/
def capitalizedRe : Re :=
  Re.cat [.wordB,
    .group 1 (Re.cat [.cls isUpperAZ, Re.plus (.cls isLowerAZ),
      .star (Re.cat [Re.plus (.cls isSpace), .cls isUpperAZ, Re.plus (.cls isLowerAZ)])]),
    .wordB]

/-- The list `locationPatterns`, in the order of the source. -/
def locationPatterns : List Re :=
  [triggerRe "mencari", triggerRe "lokasi", triggerRe "tempat", capitalizedRe]

/-- The pattern `/^(mencari|lokasi|tempat)\s+/i`. -/
def triggerPrefixRe : Re :=
  Re.cat [.bol,
    .group 1 (.alt (Re.word true "mencari".data)
      (.alt (Re.word true "lokasi".data) (Re.word true "tempat".data))),
    Re.plus (.cls isSpace)]

/-- The body of the inner `matches.forEach`: clean the match and push it when it is longer than
two code units and not yet among the suggestions. -/
def pushCleaned (suggestions : List String) (m : List Char) : List String :=
  let cleaned : String := ⟨trimChars (removeFirst triggerPrefixRe m)⟩
  if 2 < jsLength cleaned ∧ cleaned ∉ suggestions then suggestions ++ [cleaned] else suggestions

/-- The body of `locationPatterns.forEach`. -/
def applyPattern (aiResponse : String) (suggestions : List String) (pattern : Re) : List String :=
  match matchAll pattern aiResponse.data with
  | some ms => ms.foldl pushCleaned suggestions
  | none => suggestions

/-- The array `[...new Set(xs)]`: the elements of `xs` in the order of their first occurrence. -/
def newSet (xs : List String) : List String :=
  xs.foldl (fun acc s => if s ∈ acc then acc else acc ++ [s]) []

/-- The suggestions gathered before the final clean-up: the original query, the quoted phrases
with their quotes removed, then what the location patterns contribute. -/
def rawSuggestions (aiResponse originalQuery : String) : List String :=
  let quoted : List String :=
    match matchAll quotedRe aiResponse.data with
    | some ms => ms.map (fun m => ⟨removeAllFrom quoteRe 0 none m⟩)
    | none => []
  locationPatterns.foldl (applyPattern aiResponse) ([originalQuery] ++ quoted)

/-- The method `extractLocationNames(aiResponse, originalQuery)`. -/
def extractLocationNames (aiResponse originalQuery : String) : List String :=
  ((newSet (rawSuggestions aiResponse originalQuery)).filter (fun s => 2 < jsLength s)).take 5

/-! ## The AI completion client (`AIService.processLocationQuery`) -/

/-- The system prompt of the first attempt (`retryCount === 0`), line by line. -/
def firstPromptLines : List String :=
  [
    "\n",
    "You are Cilok, an AI location assistant. Respond naturally in Indonesian with helpful location information.\n",
    "\n",
    "When user asks about locations, provide detailed, conversational responses about:\n",
    "- Location details and coordinates\n",
    "- Travel time and distance (estimate if needed)\n",
    "- Nearby places and recommendations\n",
    "- Practical information\n",
    "\n",
    "Always be conversational and helpful. Don\x27t return JSON - just natural Indonesian text responses.\n",
    "\n",
    "Examples:\n",
    "User: \"detail lokasi Transcosmos Indonesia\"\n",
    "Response: \"Saya akan mencari informasi detail lokasi Transcosmos Indonesia untuk Anda...\"\n",
    "\n",
    "User: \"dari Johor Bahru ke Kuala Lumpur berapa jam?\"\n",
    "Response: \"Perjalanan dari Johor Bahru ke Kuala Lumpur biasanya memakan waktu sekitar 4-5 jam dengan berkendara, tergantung kondisi lalu lintas. Jarak tempuhnya sekitar 350 km melalui jalur utama North-South Expressway.\"\n",
    "      "]

/-- The retry prompt up to the retry count. -/
def retryPromptHead : List String :=
  [
    "\n",
    "You are Cilok, an AI location assistant on retry attempt "]

/-- The retry prompt between the retry count and the context. -/
def retryPromptMiddle : List String :=
  [
    "/3.\n",
    "\n",
    "Previous search context: "]

/-- The retry prompt after the context. -/
def retryPromptTail : List String :=
  [
    "\n",
    "\n",
    "You need to be MORE CREATIVE and THOROUGH in finding locations:\n",
    "1. Try alternative names, abbreviations, or common variations\n",
    "2. Search for similar businesses or locations in the area\n",
    "3. Consider nearby landmarks or areas\n",
    "4. Provide multiple suggestions or alternatives\n",
    "\n",
    "If still not found, provide helpful alternatives or suggestions for similar places.\n",
    "\n",
    "Respond naturally in Indonesian, be conversational and helpful.\n",
    "      "]

/-- The method `getSystemPrompt(retryCount, context)`.  In the retry prompt a context that is
null or empty is replaced by `Location not found`. -/
def getSystemPrompt (retryCount : Nat) (context : Option String) : String :=
  if retryCount = 0 then String.join firstPromptLines
  else
    let shown : String :=
      match context with
      | some c => if c = "" then "Location not found" else c
      | none => "Location not found"
    String.join retryPromptHead ++ Nat.repr retryCount ++ String.join retryPromptMiddle ++ shown ++
      String.join retryPromptTail

/-- One failed candidate as the loop records it: `{ query, error }`. -/
structure SearchAttempt where
  query : String
  error : String
deriving DecidableEq, Repr

/-- What `locationService.searchLocation(text)` can do: return a place, return a value that
is not truthy, or throw an error with a message. -/
inductive SearchReply (π : Type) where
  | found (place : π)
  | nothing
  | failed (message : String)
deriving DecidableEq, Repr

/-- What `processLocationQuery` can do: return the completion text or throw. -/
inductive AiReply where
  | ok (content : String)
  | failed (message : String)
deriving DecidableEq, Repr

/-- The calls the loop makes to the outside, with what came back: a call of
`processLocationQuery(query, context, retryCount)` or a call of `searchLocation(text)`. -/
inductive Event (π : Type) where
  | ai (query : String) (context : Option String) (retryCount : Nat) (reply : AiReply)
  | search (text : String) (reply : SearchReply π)
deriving DecidableEq, Repr

/-- The outside world of the loop.  Each answer may depend on everything that was called
before (the log of the earlier calls and their answers) and on the arguments of the call:
`post` is the HTTP request of the completion client, given the system prompt and the user
message, and answers with the completion text or with the message of the error raised;
`searchLocation` is the forward search of the adapter. -/
structure Env (π : Type) where
  post : List (Event π) → String → String → Except String String
  searchLocation : List (Event π) → String → SearchReply π

/-- The method `processLocationQuery(query, context, retryCount)`: an error of the request is
thrown again with the prefix `AI Service Error: `. -/
def processLocationQuery {π : Type} (env : Env π) (log : List (Event π)) (query : String)
    (context : Option String) (retryCount : Nat) : AiReply :=
  match env.post log (getSystemPrompt retryCount context) query with
  | .ok content => .ok content
  | .error message => .failed ("AI Service Error: " ++ message)

/-! ## `JSON.stringify` of the search history -/

/-- A hexadecimal digit, lower case. -/
def hexDigit (n : Nat) : Char :=
  if n < 10 then Char.ofNat (48 + n) else Char.ofNat (87 + n)

/-- The JSON escape of one character inside a string literal. -/
def jsonEscapeChar (c : Char) : List Char :=
  if c.toNat = 34 then ['\\', '"']
  else if c.toNat = 92 then ['\\', '\\']
  else if c.toNat = 8 then ['\\', 'b']
  else if c.toNat = 12 then ['\\', 'f']
  else if c.toNat = 10 then ['\\', 'n']
  else if c.toNat = 13 then ['\\', 'r']
  else if c.toNat = 9 then ['\\', 't']
  else if c.toNat < 32 then ['\\', 'u', '0', '0', hexDigit (c.toNat / 16), hexDigit (c.toNat % 16)]
  else [c]

/-- The JSON text of a string. -/
def jsonQuote (s : String) : String :=
  ⟨['"'] ++ (s.data.map jsonEscapeChar).flatten ++ ['"']⟩

/-- The JSON text of one history entry. -/
def jsonAttempt (a : SearchAttempt) : String :=
  "\x7b\"query\":" ++ jsonQuote a.query ++ ",\"error\":" ++ jsonQuote a.error ++ "\x7d"

/-- The value of `JSON.stringify(searchResults)`. -/
def jsonStringify (results : List SearchAttempt) : String :=
  "[" ++ ",".intercalate (results.map jsonAttempt) ++ "]"

/-! ## The resolution loop (`AIService.intelligentLocationSearch`) -/

/-- The field `maxRetries` set by the constructor. -/
def maxRetries : Nat := 3

/-- The variables of the loop, with the log of the calls made so far. -/
structure LoopState (π : Type) where
  log : List (Event π)
  lastError : Option String
  searchResults : List SearchAttempt

/-- The value the method returns: the object with `success: true` or the one with
`success: false`. -/
inductive Outcome (π : Type) where
  | found (result : π) (aiResponse : String) (attempt : Nat) (searchQuery : String)
  | notFound (aiResponse : String) (attempts : Nat) (searchHistory : List SearchAttempt)
deriving DecidableEq, Repr

/-- A whole call: what it returned, or the message of the error it threw, and the log of the
calls it made. -/
structure Run (π : Type) where
  outcome : Except String (Outcome π)
  log : List (Event π)

/-- The inner loop `for (const suggestion of locationSuggestions)`: stop at the first truthy
result; record a thrown error in the history and go on. -/
def trySuggestions {π : Type} (env : Env π) :
    List String → List (Event π) → List SearchAttempt →
      Option (π × String) × List (Event π) × List SearchAttempt
  | [], log, results => (none, log, results)
  | s :: rest, log, results =>
    match env.searchLocation log s with
    | .found place => (some (place, s), log ++ [.search s (.found place)], results)
    | .nothing => trySuggestions env rest (log ++ [.search s .nothing]) results
    | .failed m =>
      trySuggestions env rest (log ++ [.search s (.failed m)]) (results ++ [⟨s, m⟩])

/-- The context of an iteration:
`lastError ? "Previous error: ... Results so far: ..." : null`. -/
def loopContext (lastError : Option String) (results : List SearchAttempt) : Option String :=
  match lastError with
  | some e =>
    if e = "" then none
    else some ("Previous error: " ++ e ++ ". Results so far: " ++ jsonStringify results)
  | none => none

/-- The summary error set when every suggestion of an iteration failed. -/
def noResultsMessage (suggestions : List String) : String :=
  "No results found for suggestions: " ++ ", ".intercalate suggestions

/-- The loop `for (let attempt = 1; attempt <= this.maxRetries; attempt++)`, with `n` the
number of iterations still to run.  The first component is the value returned from inside the
loop, if any. -/
def attemptLoop {π : Type} (env : Env π) (query : String) :
    Nat → Nat → LoopState π → Option (Outcome π) × LoopState π
  | 0, _, st => (none, st)
  | n + 1, attempt, st =>
    let context := loopContext st.lastError st.searchResults
    match processLocationQuery env st.log query context (attempt - 1) with
    | .failed m =>
      attemptLoop env query n (attempt + 1)
        { log := st.log ++ [.ai query context (attempt - 1) (.failed m)],
          lastError := some m,
          searchResults := st.searchResults }
    | .ok aiResponse =>
      let suggestions := extractLocationNames aiResponse query
      match trySuggestions env suggestions
          (st.log ++ [.ai query context (attempt - 1) (.ok aiResponse)]) st.searchResults with
      | (some (place, s), log, results) =>
        (some (.found place aiResponse attempt s),
          { log := log, lastError := st.lastError, searchResults := results })
      | (none, log, results) =>
        attemptLoop env query n (attempt + 1)
          { log := log,
            lastError := some (noResultsMessage suggestions),
            searchResults := results }

/-- The query of the final call. -/
def finalQuery (query : String) : String :=
  query ++ " - Tidak ditemukan setelah " ++ Nat.repr maxRetries ++
    " percobaan. Berikan saran alternatif atau lokasi serupa."

/-- The context of the final call. -/
def finalContext (results : List SearchAttempt) : String :=
  "Search attempts: " ++ jsonStringify results

/-- The method `intelligentLocationSearch(query, locationService)`. -/
def intelligentLocationSearch {π : Type} (env : Env π) (query : String) : Run π :=
  match attemptLoop env query maxRetries 1 { log := [], lastError := none, searchResults := [] } with
  | (some o, st) => { outcome := .ok o, log := st.log }
  | (none, st) =>
    let context := some (finalContext st.searchResults)
    match processLocationQuery env st.log (finalQuery query) context maxRetries with
    | .ok finalResponse =>
      { outcome := .ok (.notFound finalResponse maxRetries st.searchResults),
        log := st.log ++ [.ai (finalQuery query) context maxRetries (.ok finalResponse)] }
    | .failed m =>
      { outcome := .error m,
        log := st.log ++ [.ai (finalQuery query) context maxRetries (.failed m)] }

/-! ## The travel-query classifier (`CilokAgent`) -/

/-- The lower-case form of one character, as far as it matters for a search of ASCII
keywords: an ASCII capital becomes its small letter; the Kelvin sign becomes `k`; the capital
I with a dot becomes `i` and a combining dot.  Every other character outside ASCII has a
lower-case form outside ASCII and is left as it is. -/
def lowerChar (c : Char) : List Char :=
  if isUpperAZ c then [Char.ofNat (c.toNat + 32)]
  else if c.toNat = 8490 then ['k']
  else if c.toNat = 304 then ['i', Char.ofNat 775]
  else [c]

/-- `String.prototype.toLowerCase`. -/
def toLowerCase (s : String) : String := ⟨(s.data.map lowerChar).flatten⟩

/-- `String.prototype.includes`. -/
def jsIncludes (s sub : String) : Bool := includesChars sub.data s.data

/-- The list `travelKeywords`. -/
def travelKeywords : List String :=
  ["berapa jam", "berapa lama", "jarak", "waktu tempuh", "dari", "ke"]

/-- The method `isTravelTimeQuery(query)`. -/
def isTravelTimeQuery (query : String) : Bool :=
  travelKeywords.any (fun keyword => jsIncludes (toLowerCase query) keyword)

/-- The class `[a-zA-Z\s]`. -/
def isLetterOrSpace (c : Char) : Bool := isLowerAZ c || isUpperAZ c || isSpace c

/-- The pattern `/dari\s+([^ke]+)\s+ke\s+(.+)/i`. -/
def travelPattern1 : Re :=
  Re.cat [Re.word true "dari".data, Re.plus (.cls isSpace),
    .group 1 (Re.plus (Re.noneOf true ['k', 'e'])), Re.plus (.cls isSpace),
    Re.word true "ke".data, Re.plus (.cls isSpace), .group 2 (Re.plus (.cls isDot))]

/-- The pattern `/\b([a-zA-Z\s]+)\s+ke\s+([a-zA-Z\s]+)/i`. -/
def travelPattern2 : Re :=
  Re.cat [.wordB, .group 1 (Re.plus (.cls isLetterOrSpace)), Re.plus (.cls isSpace),
    Re.word true "ke".data, Re.plus (.cls isSpace), .group 2 (Re.plus (.cls isLetterOrSpace))]

/-- The pattern `/\?.*$/`. -/
def questionTailRe : Re := Re.cat [Re.chr false '?', .star (.cls isDot), .eol]

/-- The pattern `/berapa.*$/`. -/
def berapaTailRe : Re := Re.cat [Re.word false "berapa".data, .star (.cls isDot), .eol]

deriving instance DecidableEq for Except

/-- The object `{ origin, destination }`; `none` is null. -/
structure TravelLocations where
  origin : Option String
  destination : Option String
deriving DecidableEq, Repr

/-- The body of the loop over the patterns of `extractTravelLocations`: the first pattern
that matches decides.  Reading a capture group that did not take part in the match would raise
a type error. -/
def extractWith : List Re → List Char → Except String TravelLocations
  | [], _ => .ok { origin := none, destination := none }
  | pattern :: more, query =>
    match execFrom pattern 0 none query with
    | some m =>
      match m.cap 1, m.cap 2 with
      | some g1, some g2 =>
        .ok { origin := some ⟨trimChars g1⟩,
              destination := some ⟨trimChars
                (removeFirst berapaTailRe (removeFirst questionTailRe (trimChars g2)))⟩ }
      | _, _ => .error "TypeError"
    | none => extractWith more query

/-- The method `extractTravelLocations(query)`. -/
def extractTravelLocations (query : String) : Except String TravelLocations :=
  extractWith [travelPattern1, travelPattern2] query.data

/-! ## Reading the log of a run -/

/-- Is the event a call of the completion client. -/
def Event.isAi {π : Type} : Event π → Bool
  | .ai _ _ _ _ => true
  | .search _ _ => false

/-- Is the event a forward search that returned a place. -/
def Event.isFound {π : Type} : Event π → Bool
  | .search _ (.found _) => true
  | _ => false

/-- The number of calls of the completion client in a log. -/
def aiCount {π : Type} (log : List (Event π)) : Nat := log.countP Event.isAi

/-- The history entries a log gives rise to: one for each forward search that threw, in the
order of the calls. -/
def thrownEntries {π : Type} (log : List (Event π)) : List SearchAttempt :=
  log.filterMap (fun e =>
    match e with
    | .search s (.failed m) => some ⟨s, m⟩
    | _ => none)

/-- The texts of the forward searches of a log, in the order of the calls. -/
def searchTexts {π : Type} (log : List (Event π)) : List String :=
  log.filterMap (fun e =>
    match e with
    | .search s _ => some s
    | _ => none)

/-- The answer of the latest call of the completion client. -/
def lastAi {π : Type} (log : List (Event π)) : Option AiReply :=
  log.foldl (fun r e =>
    match e with
    | .ai _ _ _ reply => some reply
    | .search _ _ => r) none

/-- The texts searched since the latest call of the completion client. -/
def blockTexts {π : Type} (log : List (Event π)) : List String :=
  log.foldl (fun b e =>
    match e with
    | .ai _ _ _ _ => []
    | .search s _ => b ++ [s]) []

/-- The value of `lastError` at the start of an iteration, read off the log: null before the
first call; the message of the error when the latest completion call threw; the summary of the
failed suggestions otherwise. -/
def lastErrorOf {π : Type} (query : String) (log : List (Event π)) : Option String :=
  match lastAi log with
  | none => none
  | some (.ok a) => some (noResultsMessage (extractLocationNames a query))
  | some (.failed m) => some m

/-- No forward search of the log returned a place. -/
def NoFound {π : Type} (log : List (Event π)) : Prop := ∀ e ∈ log, e.isFound = false

/-- What the method owes for its next call, given the log `pre` of the calls made so far.

A call of the completion client comes only while no search has succeeded and after every
suggestion of the previous narrative was tried; its retry count is the number of earlier
completion calls; in the loop (retry count below `maxRetries`) it carries the original query
and the loop context, after the loop the final query and the final context.

A forward search comes only while no search has succeeded, after a narrative was obtained,
and its text is the next suggestion of that narrative.  In both cases the recorded answer is
the one the outside world gives at that point. -/
def Expected {π : Type} (env : Env π) (query : String) (pre : List (Event π)) : Event π → Prop
  | .ai q c rc reply =>
    NoFound pre ∧ rc = aiCount pre ∧ reply = processLocationQuery env pre q c rc ∧
    (∀ a, lastAi pre = some (.ok a) → blockTexts pre = extractLocationNames a query) ∧
    ((rc < maxRetries ∧ q = query ∧
        c = loopContext (lastErrorOf query pre) (thrownEntries pre)) ∨
      (rc = maxRetries ∧ q = finalQuery query ∧
        c = some (finalContext (thrownEntries pre))))
  | .search s reply =>
    NoFound pre ∧ reply = env.searchLocation pre s ∧ aiCount pre ≤ maxRetries ∧
    ∃ a, lastAi pre = some (.ok a) ∧ blockTexts pre ++ [s] <+: extractLocationNames a query

/-- Every call of the log is the one owed at its place. -/
def Generated {π : Type} (env : Env π) (query : String) (log : List (Event π)) : Prop :=
  ∀ pre ev post, log = pre ++ ev :: post → Expected env query pre ev

/-- The result owed at the end of a log: after a search that returned a place, the success
object; after the final completion call, the failure object or the error of that call. -/
def outcomeOf {π : Type} (log : List (Event π)) : Option (Except String (Outcome π)) :=
  match log.getLast? with
  | some (.search s (.found place)) =>
    match lastAi log with
    | some (.ok a) => some (.ok (.found place a (aiCount log) s))
    | _ => none
  | some (.ai _ _ rc (.ok finalResponse)) =>
    if rc = maxRetries then some (.ok (.notFound finalResponse maxRetries (thrownEntries log)))
    else none
  | some (.ai _ _ rc (.failed m)) => if rc = maxRetries then some (.error m) else none
  | _ => none

/-! ## Stubs of the outside world -/

/-- A stub in which the completion client always answers with a narrative that quotes
`Monas Jakarta`, and the forward search finds that text only. -/
def stubSecondCandidate : Env Nat where
  post := fun _ _ _ => .ok "coba \"Monas Jakarta\" saja"
  searchLocation := fun _ s =>
    if s = "Monas Jakarta" then .found 7 else .failed ("Location \"" ++ s ++ "\" not found")

/-- A stub in which the completion client answers with a narrative that suggests nothing and
every forward search throws. -/
def stubNothingFound : Env Nat where
  post := fun _ _ _ => .ok "maaf"
  searchLocation := fun _ _ => .failed "not found"

/-- A stub in which every request of the completion client fails. -/
def stubAiDown : Env Nat where
  post := fun _ _ _ => .error "boom"
  searchLocation := fun _ _ => .failed "not found"

/-! ## Narratives with quoted phrases -/

/-- A text made of blocks, each a stretch `b.1` followed by the phrase `b.2` between double
quotes. -/
def quotedText (blocks : List (List Char × List Char)) : List Char :=
  (blocks.map (fun b => b.1 ++ '"' :: b.2 ++ ['"'])).flatten

/-! ## The dispatcher (`CilokAgent.processQuery`) -/

/-- The list `nearbyKeywords`. -/
def nearbyKeywords : List String :=
  ["hotel", "restoran", "rumah sakit", "bank", "terdekat", "di daerah"]

/-- The method `isNearbyQuery(query)`. -/
def isNearbyQuery (query : String) : Bool :=
  nearbyKeywords.any (fun keyword => jsIncludes (toLowerCase query) keyword)

/-- The branch `processQuery` takes.  The first four print and return without a call to any
service; the last three hand the query to a handler. -/
inductive Route where
  /-- `exit` or `quit`: says goodbye and clears `isRunning` -/
  | goodbye
  /-- `help`: `showHelp()` -/
  | help
  /-- `clear`: `console.clear()` and `showWelcome()` -/
  | clear
  /-- `status`: `showServiceStatus()` -/
  | status
  /-- `handleTravelTimeQuery(query)` -/
  | travelTime
  /-- `handleNearbyQuery(query)`, which runs `intelligentLocationSearch` -/
  | nearby
  /-- the general conversation, which starts with `processLocationQuery(query)` -/
  | general
deriving DecidableEq, Repr

/-- Does the branch reach a call of `aiService` or of `intelligentLocationSearch`.  The four
control branches only print (`console.log`, `showHelp`, `showWelcome`, `showServiceStatus`)
and return; each of the three handlers calls a service. -/
def Route.callsServices : Route → Bool
  | .goodbye => false
  | .help => false
  | .clear => false
  | .status => false
  | .travelTime => true
  | .nearby => true
  | .general => true

/-- The method `processQuery(query)`, as the branch it takes. -/
def processQuery (query : String) : Route :=
  let lowerQuery := toLowerCase query
  if lowerQuery = "exit" ∨ lowerQuery = "quit" then .goodbye
  else if lowerQuery = "help" then .help
  else if lowerQuery = "clear" then .clear
  else if lowerQuery = "status" then .status
  else if isTravelTimeQuery query then .travelTime
  else if isNearbyQuery query then .nearby
  else .general

/-- One turn of `startInteractiveSession`: an input that is empty after trimming is skipped,
any other is trimmed and handed to `processQuery`. -/
def sessionTurn (input : String) : Option Route :=
  if jsTrim input = "" then none else some (processQuery (jsTrim input))

/-- Is there, somewhere in the text, a `k` and an `e` (either case) in a row with a white
space character right before and right after. -/
def spacedKeAt : List Char → Bool
  | a :: k :: e :: b :: _ =>
    isSpace a && (k == 'k' || k == 'K') && (e == 'e' || e == 'E') && isSpace b
  | _ => false

/-- Does the text hold ` ke ` in the sense of `spacedKeAt`, at any position. -/
def hasSpacedKe : List Char → Bool
  | [] => false
  | c :: cs => spacedKeAt (c :: cs) || hasSpacedKe cs

/-! ## Numbers

A JavaScript number that is neither `NaN` nor infinite is a rational number; it is modelled
by that rational, and `NaN` by `none`.  Sums, products and quotients are taken exactly.
The methods whose result can depend on the rounding of doubles are given again, computed in
doubles, in the section "Doubles" (`Ieee.parseFloat`, `Ieee.estimateTravelTime`,
`Ieee.calculateDistance`). -/

/-- `Math.round`: the nearest integer, halves upwards. -/
def mathRound (x : ℚ) : ℤ := Rat.floor (x + 1 / 2)

/-- The text of a number in a template literal, for an integer (printed in full) and for
`NaN`. -/
def numberText : Option ℤ → String
  | some n => toString n
  | none => "NaN"

/-- The value of a run of decimal digits. -/
def digitsValue (ds : List Char) : Nat :=
  ds.foldl (fun n c => 10 * n + (c.toNat - 48)) 0

/-- The exponent part of a decimal literal at the head of the text, if there is one: the
letter `e`, an optional sign and at least one digit. -/
def exponentPart (s : List Char) : ℤ :=
  match s with
  | e :: rest =>
    if e = 'e' ∨ e = 'E' then
      match rest with
      | '-' :: ds =>
        if ds.takeWhile isDigit09 = [] then 0 else -(digitsValue (ds.takeWhile isDigit09) : ℤ)
      | '+' :: ds => (digitsValue (ds.takeWhile isDigit09) : ℤ)
      | ds => (digitsValue (ds.takeWhile isDigit09) : ℤ)
    else 0
  | [] => 0

/-- The longest decimal literal at the head of the text, without sign: digits, an optional
point with digits, an optional exponent.  None when there is no digit. -/
def parseUnsigned (s : List Char) : Option ℚ :=
  let intPart := s.takeWhile isDigit09
  let rest := s.dropWhile isDigit09
  let fracPart : List Char :=
    match rest with
    | '.' :: r => r.takeWhile isDigit09
    | _ => []
  let rest2 : List Char :=
    match rest with
    | '.' :: r => r.dropWhile isDigit09
    | _ => rest
  if intPart = [] ∧ fracPart = [] then none
  else
    some ((digitsValue (intPart ++ fracPart) : ℚ) / (10 : ℚ) ^ fracPart.length *
      (10 : ℚ) ^ exponentPart rest2)

/-- The function `parseFloat` on a text: leading white space is skipped, a sign is read, then
the longest decimal literal; `none` is `NaN`.  (The literal `Infinity` is not covered; no
text of this program holds it.) -/
def parseFloat (s : List Char) : Option ℚ :=
  match s.dropWhile isSpace with
  | '-' :: rest => (parseUnsigned rest).map (fun q => -q)
  | '+' :: rest => parseUnsigned rest
  | rest => parseUnsigned rest

/-- `x.toFixed(1)` for a number that is not negative: the nearest multiple of a tenth, the
larger one of two, written with one digit after the point. -/
def toFixed1 (x : ℚ) : String :=
  let n := (mathRound (x * 10)).toNat
  toString (n / 10) ++ "." ++ toString (n % 10)

/-- `String.prototype.replace(pattern, replacement)` with a text pattern: the first
occurrence is replaced. -/
def replaceFirstText (pattern replacement : List Char) : List Char → List Char
  | [] => if pattern.isEmpty then replacement else []
  | c :: cs =>
    if pattern.isPrefixOf (c :: cs) then replacement ++ (c :: cs).drop pattern.length
    else c :: replaceFirstText pattern replacement cs

/-! ## Distance and travel time -/

/-- The last lines of `LocationService.calculateDistance`: the label of a distance `d` in
kilometres (`none` is `NaN`). -/
def formatDistance : Option ℚ → String
  | some d =>
    if d < 1 then numberText (some (mathRound (d * 1000))) ++ "m"
    else toFixed1 d ++ "km"
  | none => "NaN" ++ "km"

/-- The method `LocationService.calculateDistance(lat1, lon1, lat2, lon2)`.  Its first lines
compute the great-circle distance `d` in floating point with `Math.sin`, `Math.cos`,
`Math.atan2` and `Math.sqrt`; that computation is the parameter `haversine`. -/
def calculateDistance (haversine : ℚ → ℚ → ℚ → ℚ → Option ℚ) (lat1 lon1 lat2 lon2 : ℚ) :
    String :=
  formatDistance (haversine lat1 lon1 lat2 lon2)

/-- The pattern `/[^\d.]/g`. -/
def notDigitOrDotRe : Re := .cls (fun c => !(isDigit09 c || c == '.'))

/-- The number `estimateTravelTime` reads off its argument:
`parseFloat(distanceStr.replace(/[^\d.]/g, ''))`. -/
def parsedMagnitude (distanceStr : String) : Option ℚ :=
  parseFloat (removeAllFrom notDigitOrDotRe 0 none distanceStr.data)

/-- The method `estimateTravelTime(distanceStr)`.  A comparison with `NaN` is false, so `NaN`
falls through to the last branch. -/
def estimateTravelTime (distanceStr : String) : String :=
  match parsedMagnitude distanceStr with
  | some distance =>
    if distance < 50 then
      numberText (some (mathRound (distance / 25 * 60))) ++ " menit - 1.5 jam"
    else if distance < 200 then
      numberText (some (mathRound (distance / 60))) ++ " - " ++
        numberText (some (mathRound (distance / 50))) ++ " jam"
    else
      numberText (some (mathRound (distance / 70))) ++ " - " ++
        numberText (some (mathRound (distance / 50))) ++ " jam"
  | none => numberText none ++ " - " ++ numberText none ++ " jam"

/-! ## The travel-time handler (`CilokAgent.handleTravelTimeQuery`) -/

/-- The object `getCoordinates` returns, as far as the handler reads it. -/
structure Coordinates where
  lat : ℚ
  lng : ℚ
deriving DecidableEq, Repr

/-- The services the handler calls: `locationService.getCoordinates(address)` returns
coordinates or throws an error with a message; `aiService.processLocationQuery(query)`
returns a text or throws, and its answer may depend on the number of earlier calls. -/
structure AgentEnv where
  getCoordinates : String → Except String Coordinates
  ask : Nat → String → AiReply

/-- The property `calculateDistance` of a `CilokAgent`: the class declares no method of that
name (the method belongs to `LocationService`), so the property is undefined. -/
def agentCalculateDistance : Option (ℚ → ℚ → ℚ → ℚ → String) := none

/-- What the handler shows: the travel block with distance and estimated time; or `Lokasi asal
atau tujuan tidak terdeteksi` with the answer of the completion client; or `Gagal menghitung
rute` with the message of the error caught and the outcome of the fallback call of the
completion client. -/
inductive TravelOutcome where
  | route (origin destination distance estimatedTime : String)
  | undetected (response : String)
  | failed (message : String) (fallback : AiReply)
deriving DecidableEq, Repr

/-- The `try` block of `handleTravelTimeQuery`: the outcome it reaches or the message of the
error it throws, with the number of calls of the completion client it made.  Calling a
property that is undefined throws a type error. -/
def tryTravelTime (env : AgentEnv) (query : String) : Except String TravelOutcome × Nat :=
  match extractTravelLocations query with
  | .error m => (.error m, 0)
  | .ok locations =>
    match locations.origin, locations.destination with
    | some origin, some destination =>
      if origin ≠ "" ∧ destination ≠ "" then
        match env.getCoordinates origin with
        | .error m => (.error m, 0)
        | .ok originCoords =>
          match env.getCoordinates destination with
          | .error m => (.error m, 0)
          | .ok destCoords =>
            match agentCalculateDistance with
            | none => (.error "this.calculateDistance is not a function", 0)
            | some calculate =>
              let distance :=
                calculate originCoords.lat originCoords.lng destCoords.lat destCoords.lng
              (.ok (.route origin destination distance (estimateTravelTime distance)), 0)
      else
        match env.ask 0 query with
        | .ok response => (.ok (.undetected response), 1)
        | .failed m => (.error m, 1)
    | _, _ =>
      match env.ask 0 query with
      | .ok response => (.ok (.undetected response), 1)
      | .failed m => (.error m, 1)

/-- The method `handleTravelTimeQuery(query)`: an error of the `try` block is caught, its
message shown, and the completion client is asked instead. -/
def handleTravelTimeQuery (env : AgentEnv) (query : String) : TravelOutcome :=
  match tryTravelTime env query with
  | (.ok outcome, _) => outcome
  | (.error m, calls) => .failed m (env.ask calls query)

/-! ## Nearby places of the free backend (`LocationService.getNearbyPlacesOverpass`) -/

/-- The tags of an element that the method reads. -/
structure Tags where
  name : Option String
  amenity : Option String
  cuisine : Option String
  street : Option String
  city : Option String
  state : Option String
deriving DecidableEq, Repr

/-- The object `element.center`. -/
structure Center where
  lat : Option ℚ
  lon : Option ℚ
deriving DecidableEq, Repr

/-- An element of the answer of the map-data service; a field that is absent is `none`. -/
structure Element where
  id : Nat
  type : String
  lat : Option ℚ
  lon : Option ℚ
  center : Option Center
  tags : Option Tags
deriving DecidableEq, Repr

/-- A place as the method returns it; `distance` is the label or null. -/
structure NearbyPlace where
  name : String
  types : List String
  address : String
  distance : Option String
  osm_id : Nat
  osm_type : String
deriving DecidableEq, Repr

/-- Is a text that may be absent truthy: present and not empty. -/
def truthyText : Option String → Bool
  | some s => s != ""
  | none => false

/-- Is a number that may be absent truthy: present and not zero. -/
def truthyNumber : Option ℚ → Bool
  | some q => q != 0
  | none => false

/-- The value of `a || b` for numbers that may be absent. -/
def orElseNumber (a b : Option ℚ) : Option ℚ := if truthyNumber a then a else b

/-- The method `buildAddressFromTags(tags)`. -/
def buildAddressFromTags (tags : Tags) : String :=
  ", ".intercalate ([tags.street, tags.city, tags.state].filterMap
    (fun t => if truthyText t then t else none))

/-- The body of the `map` of `getNearbyPlacesOverpass`, for an element that has tags. -/
def elementToPlace (haversine : ℚ → ℚ → ℚ → ℚ → Option ℚ) (lat lng : ℚ) (element : Element)
    (tags : Tags) : NearbyPlace :=
  let elementLat := orElseNumber element.lat (element.center.bind (fun c => c.lat))
  let elementLng := orElseNumber element.lon (element.center.bind (fun c => c.lon))
  { name := tags.name.getD "",
    types := [tags.amenity, tags.cuisine].filterMap (fun t => if truthyText t then t else none),
    address := buildAddressFromTags tags,
    distance :=
      match elementLat, elementLng with
      | some la, some lo =>
        if la ≠ 0 ∧ lo ≠ 0 then some (calculateDistance haversine lat lng la lo) else none
      | _, _ => none,
    osm_id := element.id,
    osm_type := element.type }

/-- The key the comparator of the `sort` reads off a label:
`parseFloat(distance.replace('m', '').replace('km', '000'))`. -/
def sortKey (distance : String) : Option ℚ :=
  parseFloat (replaceFirstText "km".data "000".data
    (replaceFirstText "m".data [] distance.data))

/-- The comparator of the `sort`, as the relation "`a` need not come after `b`": the
difference of the keys is not positive.  A difference that is `NaN` counts as zero. -/
def distanceLe (a b : NearbyPlace) : Prop :=
  match sortKey (a.distance.getD ""), sortKey (b.distance.getD "") with
  | some x, some y => x ≤ y
  | _, _ => True

instance : DecidableRel distanceLe := fun a b => by
  unfold distanceLe
  split <;> infer_instance

/-- The chain `filter`, `map`, `filter`, `sort` of `getNearbyPlacesOverpass`, applied to the
elements of the answer.  The sort is stable. -/
def placesFromElements (haversine : ℚ → ℚ → ℚ → ℚ → Option ℚ) (lat lng : ℚ)
    (elements : List Element) : List NearbyPlace :=
  let named : List (Element × Tags) := elements.filterMap (fun element =>
    match element.tags with
    | some tags => if truthyText tags.name then some (element, tags) else none
    | none => none)
  let places := named.map (fun et => elementToPlace haversine lat lng et.1 et.2)
  (places.filter (fun place => truthyText place.distance)).insertionSort distanceLe

/-- The method `getNearbyPlacesOverpass(lat, lng, type)`, given the outcome of the request to
the map-data service: its elements (`none` when the answer has no `elements`), or an error, in
which case the method returns the empty list. -/
def getNearbyPlacesOverpass (haversine : ℚ → ℚ → ℚ → ℚ → Option ℚ) (lat lng : ℚ)
    (response : Except String (Option (List Element))) : List NearbyPlace :=
  match response with
  | .ok elements => placesFromElements haversine lat lng (elements.getD [])
  | .error _ => []

/-- The great-circle distances, in kilometres to four places, of two points east of
(-6.2, 106.8): the values the floating-point computation gives for them. -/
def stubHaversine : ℚ → ℚ → ℚ → ℚ → Option ℚ :=
  fun _ _ _ lon2 => if lon2 = 1068077 / 10000 then some (8512 / 10000) else some (12049 / 10000)

/-- A named node 851 m east of the centre (-6.2, 106.8). -/
def nearElement : Element :=
  { id := 1, type := "node", lat := some (-62 / 10), lon := some (1068077 / 10000),
    center := none,
    tags := some { name := some "Warung Dekat", amenity := some "restaurant", cuisine := none,
                   street := none, city := none, state := none } }

/-- A named node 1.2 km east of the same centre. -/
def farElement : Element :=
  { id := 2, type := "node", lat := some (-62 / 10), lon := some (1068109 / 10000),
    center := none,
    tags := some { name := some "Warung Jauh", amenity := some "restaurant", cuisine := none,
                   street := none, city := none, state := none } }

/-- A named node on the equator, at latitude 0. -/
def equatorElement : Element :=
  { id := 3, type := "node", lat := some 0, lon := some (10933 / 100),
    center := none,
    tags := some { name := some "Tugu Khatulistiwa", amenity := none, cuisine := none,
                   street := none, city := none, state := none } }

/-- A stub of the services of the handler: both places are found, the completion client
answers. -/
def stubAgentEnv : AgentEnv where
  getCoordinates := fun address =>
    if address = "Solo" then .ok { lat := -757 / 100, lng := 11082 / 100 }
    else .ok { lat := -69 / 10, lng := 1076 / 10 }
  ask := fun _ _ => .ok "sekitar 8 jam"

/-- The position `st'` lies at or behind `st` in the same input, and holds every capture
`st` holds. -/
def MState.Reaches (st st' : MState) : Prop :=
  (∃ consumed, st.rest = consumed ++ st'.rest) ∧
    ∀ n, n ∈ st.caps.map Prod.fst → n ∈ st'.caps.map Prod.fst

/-! ## The provider adapter (`LocationService`)

The adapter talks to two backends.  Every request it issues is recorded in a log; what a
provider answers may depend on the requests made before.  In the adapter a number that a
provider or a caller hands in is an `Option ℚ`: `none` stands for a value that is not a
finite number (`NaN`, or an infinity). -/

/-- The two backends: the commercial one (Google Maps) and the free one (Nominatim and
Overpass). -/
inductive Backend where
  | commercial
  | free
deriving DecidableEq, Repr

/-- The fields the constructor sets from the environment. -/
structure LocationService where
  googleMapsKey : Option String
  mapboxKey : Option String
  useFreeMaps : Bool
deriving DecidableEq, Repr

/-- The constructor, given the values of `GOOGLE_MAPS_API_KEY` and `MAPBOX_API_KEY`. -/
def LocationService.construct (googleMapsApiKey mapboxApiKey : Option String) :
    LocationService :=
  { googleMapsKey := googleMapsApiKey,
    mapboxKey := mapboxApiKey,
    useFreeMaps := !truthyText googleMapsApiKey && !truthyText mapboxApiKey }

/-- The table `typeMapping` of `convertTypeToOSM`. -/
def typeMapping : List (String × String) :=
  [("restaurant", "restaurant|cafe|fast_food|food_court"),
   ("food", "restaurant|cafe|fast_food|food_court"),
   ("hospital", "hospital|clinic|pharmacy"),
   ("school", "school|university|college"),
   ("bank", "bank|atm"),
   ("gas_station", "fuel"),
   ("shopping", "marketplace|mall|shop")]

/-- The names of the properties an object literal inherits from `Object.prototype`.  The
lookup `typeMapping[type]` finds them too; the value of each is a function or an object, so it
is truthy. -/
def objectPrototypeKeys : List String :=
  ["constructor", "__defineGetter__", "__defineSetter__", "hasOwnProperty",
   "__lookupGetter__", "__lookupSetter__", "isPrototypeOf", "propertyIsEnumerable",
   "toString", "valueOf", "__proto__", "toLocaleString"]

/-- The default of `convertTypeToOSM`. -/
def defaultOsmTypes : String := "restaurant|cafe|fast_food|bank|hospital|school|fuel"

/-- The value `convertTypeToOSM` returns: a text of amenity tags, or the inherited property
of that name (not a text). -/
inductive OsmType where
  | tags (pattern : String)
  | inherited (property : String)
deriving DecidableEq, Repr

/-- The method `convertTypeToOSM(type)`: `typeMapping[type] || default`.  The argument `none`
is null, which is looked up under the key `null`. -/
def convertTypeToOSM (type : Option String) : OsmType :=
  let key := type.getD "null"
  match typeMapping.lookup key with
  | some pattern => if pattern ≠ "" then .tags pattern else .tags defaultOsmTypes
  | none => if key ∈ objectPrototypeKeys then .inherited key else .tags defaultOsmTypes

/-- The requests of the adapter, each with the parameters that vary. -/
inductive Request where
  /-- GET `maps.googleapis.com/maps/api/place/textsearch/json` -/
  | textSearch (query : String) (key : Option String)
  /-- GET `maps.googleapis.com/maps/api/place/details/json` -/
  | placeDetails (placeId : String) (key : Option String)
  /-- GET `maps.googleapis.com/maps/api/place/nearbysearch/json` -/
  | nearbySearch (lat lng : Option ℚ) (radius : Nat) (type : Option String)
      (key : Option String)
  /-- GET `maps.googleapis.com/maps/api/geocode/json` with `address` -/
  | geocode (address : String) (key : Option String)
  /-- GET `maps.googleapis.com/maps/api/geocode/json` with `latlng` -/
  | geocodeLatLng (lat lng : Option ℚ) (key : Option String)
  /-- GET `nominatim.openstreetmap.org/search` -/
  | nominatimSearch (q : String) (limit : Nat) (countrycodes : Option String)
  /-- GET `nominatim.openstreetmap.org/reverse` -/
  | nominatimReverse (lat lng : Option ℚ)
  /-- POST `overpass-api.de/api/interpreter` -/
  | overpass (osmType : OsmType) (lat lng : Option ℚ)
deriving DecidableEq, Repr

/-- The backend a request goes to. -/
def Request.backend : Request → Backend
  | .textSearch _ _ => .commercial
  | .placeDetails _ _ => .commercial
  | .nearbySearch _ _ _ _ _ => .commercial
  | .geocode _ _ => .commercial
  | .geocodeLatLng _ _ _ => .commercial
  | .nominatimSearch _ _ _ => .free
  | .nominatimReverse _ _ => .free
  | .overpass _ _ _ => .free

/-- A result of the text search or of the geocoding of the commercial backend, as far as the
adapter reads it. -/
structure GoogleResult where
  place_id : String
  name : String
  formatted_address : String
  lat : Option ℚ
  lng : Option ℚ
  types : List String
  rating : Option ℚ
  location_type : Option String
  long_name : Option String
deriving DecidableEq, Repr

/-- A result of the nearby search of the commercial backend. -/
structure GoogleNearbyResult where
  name : String
  types : List String
  rating : Option ℚ
  vicinity : Option String
  lat : Option ℚ
  lng : Option ℚ
deriving DecidableEq, Repr

/-- The object `response.data.result` of the place-details request. -/
structure PlaceDetails where
  name : Option String
  formatted_address : Option String
  formatted_phone_number : Option String
  website : Option String
  rating : Option ℚ
deriving DecidableEq, Repr

/-- A value that may be null or undefined. -/
inductive Nullable (α : Type) where
  | value (a : α)
  | null
  | undefined
deriving DecidableEq, Repr

/-- A result of the free geocoding service, as far as the adapter reads it. -/
structure NominatimResult where
  display_name : String
  name : Option String
  lat : String
  lon : String
  type : Option String
  placeClass : Option String
  osm_id : Option Nat
  osm_type : Option String
  importance : Option ℚ
  error : Option String
deriving DecidableEq, Repr

/-- The answers of the providers.  Each takes the log of the requests made before and the
parameters of the request, and gives the data of the response or the message of the error
the request raises. -/
structure World where
  textSearch : List Request → String → Except String (List GoogleResult)
  placeDetails : List Request → String → Except String (Option PlaceDetails)
  nearbySearch : List Request → Option ℚ → Option ℚ → Nat → Option String →
    Except String (List GoogleNearbyResult)
  geocode : List Request → String → Except String (List GoogleResult)
  geocodeLatLng : List Request → Option ℚ → Option ℚ → Except String (List GoogleResult)
  nominatimSearch : List Request → String → Nat → Option String →
    Except String (List NominatimResult)
  nominatimReverse : List Request → Option ℚ → Option ℚ →
    Except String (Option NominatimResult)
  overpass : List Request → OsmType → Option ℚ → Option ℚ →
    Except String (Option (List Element))
  haversine : ℚ → ℚ → ℚ → ℚ → Option ℚ

/-- The method `calculateDistance` on numbers that may fail to be finite: the distance is then
`NaN`. -/
def distanceLabel (w : World) (lat1 lon1 lat2 lon2 : Option ℚ) : String :=
  match lat1, lon1, lat2, lon2 with
  | some a, some b, some c, some d => calculateDistance w.haversine a b c d
  | _, _, _, _ => formatDistance none

/-- A place of the nearby search of the commercial backend, as `getNearbyPlaces` shapes it. -/
structure GoogleNearbyPlace where
  name : String
  types : List String
  rating : Option ℚ
  address : Option String
  distance : String
deriving DecidableEq, Repr

/-- The list `nearby` of a place: from the commercial or from the free backend. -/
inductive NearbyList where
  | google (places : List GoogleNearbyPlace)
  | overpass (places : List NearbyPlace)
deriving DecidableEq, Repr

/-- The slice `nearby.slice(0, 5)`. -/
def NearbyList.slice5 : NearbyList → NearbyList
  | .google places => .google (places.take 5)
  | .overpass places => .overpass (places.take 5)

/-- The object `{ lat, lng }`. -/
structure LatLng where
  lat : Option ℚ
  lng : Option ℚ
deriving DecidableEq, Repr

/-- The object a forward search or a reverse geocoding returns.  A field the backend does not
set is `none` (`undefined` for `details`). -/
structure Place where
  name : String
  formatted_address : String
  coordinates : LatLng
  types : List String
  rating : Option ℚ
  details : Nullable PlaceDetails
  osm_id : Option Nat
  osm_type : Option String
  importance : Option ℚ
  nearby : NearbyList
deriving DecidableEq, Repr

/-- The field `accuracy` of what `getCoordinates` returns. -/
inductive Accuracy where
  | locationType (value : Option String)
  | importance (value : Option ℚ)
deriving DecidableEq, Repr

/-- The object `getCoordinates` returns. -/
structure GeocodedAddress where
  lat : Option ℚ
  lng : Option ℚ
  formatted_address : String
  accuracy : Accuracy
deriving DecidableEq, Repr

/-- A call of a method of the service: the value it returned or the message of the error it
threw, the fields of the service after the call, and the log of the requests after it. -/
structure Ret (α : Type) where
  value : Except String α
  service : LocationService
  log : List Request

/-- The method `getPlaceDetails(placeId)`: an error of the request is caught and null is
returned. -/
def getPlaceDetails (w : World) (svc : LocationService) (log : List Request)
    (placeId : String) : Nullable PlaceDetails × List Request :=
  (match w.placeDetails log placeId with
    | .ok (some result) => .value result
    | .ok none => .undefined
    | .error _ => .null,
   log ++ [.placeDetails placeId svc.googleMapsKey])

/-- The method `getNearbyPlaces(lat, lng, radius, type)`: an error is caught and the empty
list returned. -/
def getNearbyPlaces (w : World) (svc : LocationService) (log : List Request)
    (lat lng : Option ℚ) (radius : Nat) (type : Option String) :
    List GoogleNearbyPlace × List Request :=
  let sent : Option String := if truthyText type then type else none
  (match w.nearbySearch log lat lng radius sent with
    | .ok results =>
      results.map (fun place =>
        { name := place.name, types := place.types, rating := place.rating,
          address := place.vicinity,
          distance := distanceLabel w lat lng place.lat place.lng })
    | .error _ => [],
   log ++ [.nearbySearch lat lng radius sent svc.googleMapsKey])

/-- The method `getNearbyPlacesOverpass(lat, lng, type)` with its request.  With a centre that
is not finite every distance is `NaN`. -/
def fetchNearbyPlacesOverpass (w : World) (log : List Request) (lat lng : Option ℚ)
    (type : Option String) : List NearbyPlace × List Request :=
  let osmType := convertTypeToOSM type
  let response := w.overpass log osmType lat lng
  (match lat, lng with
    | some la, some lo => getNearbyPlacesOverpass w.haversine la lo response
    | _, _ => getNearbyPlacesOverpass (fun _ _ _ _ => none) 0 0 response,
   log ++ [.overpass osmType lat lng])

/-- The method `searchLocationGoogle(locationName)`. -/
def searchLocationGoogle (w : World) (svc : LocationService) (log : List Request)
    (locationName : String) : Ret Place :=
  let log1 := log ++ [.textSearch locationName svc.googleMapsKey]
  match w.textSearch log locationName with
  | .error m => ⟨.error ("Location search failed: " ++ m), svc, log1⟩
  | .ok [] => ⟨.error ("Location search failed: " ++ "Location not found"), svc, log1⟩
  | .ok (place :: _) =>
    let details := getPlaceDetails w svc log1 place.place_id
    let nearby := getNearbyPlaces w svc details.2 place.lat place.lng 500 none
    ⟨.ok { name := place.name,
           formatted_address := place.formatted_address,
           coordinates := { lat := place.lat, lng := place.lng },
           types := place.types,
           rating := place.rating,
           details := details.1,
           osm_id := none, osm_type := none, importance := none,
           nearby := (NearbyList.google nearby.1).slice5 },
      svc, nearby.2⟩

/-- The text before the first comma: `text.split(',')[0]`. -/
def beforeComma (text : String) : String := ⟨text.data.takeWhile (fun c => c != ',')⟩

/-- The lines of `searchLocationNominatim` after the two stages: the place is shaped from the
first result of `response.data`. -/
def shapeNominatim (w : World) (svc : LocationService) (log : List Request)
    (place : NominatimResult) : Ret Place :=
  let lat := parseFloat place.lat.data
  let lng := parseFloat place.lon.data
  let nearby := fetchNearbyPlacesOverpass w log lat lng none
  ⟨.ok { name := beforeComma place.display_name,
         formatted_address := place.display_name,
         coordinates := { lat := lat, lng := lng },
         types := [place.type, place.placeClass].filterMap
           (fun t => if truthyText t then t else none),
         rating := none,
         details := .undefined,
         osm_id := place.osm_id,
         osm_type := place.osm_type,
         importance := place.importance,
         nearby := (NearbyList.overpass nearby.1).slice5 },
    svc, nearby.2⟩

/-- The message of the error thrown when both stages return nothing. -/
def notFoundMessage (locationName : String) : String :=
  "Location \"" ++ locationName ++ "\" not found"

/-- The method `searchLocationNominatim(locationName)`. -/
def searchLocationNominatim (w : World) (svc : LocationService) (log : List Request)
    (locationName : String) : Ret Place :=
  let log1 := log ++ [.nominatimSearch locationName 5 (some "id")]
  match w.nominatimSearch log locationName 5 (some "id") with
  | .error m => ⟨.error ("Location search failed: " ++ m), svc, log1⟩
  | .ok (place :: _) => shapeNominatim w svc log1 place
  | .ok [] =>
    let log2 := log1 ++ [.nominatimSearch locationName 5 none]
    match w.nominatimSearch log1 locationName 5 none with
    | .error m => ⟨.error ("Location search failed: " ++ m), svc, log2⟩
    | .ok [] =>
      ⟨.error ("Location search failed: " ++ notFoundMessage locationName), svc, log2⟩
    | .ok (place :: _) => shapeNominatim w svc log2 place

/-- The method `searchLocation(locationName)`. -/
def searchLocation (w : World) (svc : LocationService) (log : List Request)
    (locationName : String) : Ret Place :=
  if truthyText svc.googleMapsKey then searchLocationGoogle w svc log locationName
  else searchLocationNominatim w svc log locationName

/-- The method `getCoordinatesGoogle(address)`. -/
def getCoordinatesGoogle (w : World) (svc : LocationService) (log : List Request)
    (address : String) : Ret GeocodedAddress :=
  let log1 := log ++ [.geocode address svc.googleMapsKey]
  match w.geocode log address with
  | .error m => ⟨.error ("Geocoding failed: " ++ m), svc, log1⟩
  | .ok [] => ⟨.error ("Geocoding failed: " ++ "Address not found"), svc, log1⟩
  | .ok (result :: _) =>
    ⟨.ok { lat := result.lat, lng := result.lng,
           formatted_address := result.formatted_address,
           accuracy := .locationType result.location_type },
      svc, log1⟩

/-- The method `getCoordinatesNominatim(address)`. -/
def getCoordinatesNominatim (w : World) (svc : LocationService) (log : List Request)
    (address : String) : Ret GeocodedAddress :=
  let log1 := log ++ [.nominatimSearch address 1 (some "id")]
  match w.nominatimSearch log address 1 (some "id") with
  | .error m => ⟨.error ("Geocoding failed: " ++ m), svc, log1⟩
  | .ok [] => ⟨.error ("Geocoding failed: " ++ "Address not found"), svc, log1⟩
  | .ok (result :: _) =>
    ⟨.ok { lat := parseFloat result.lat.data, lng := parseFloat result.lon.data,
           formatted_address := result.display_name,
           accuracy := .importance result.importance },
      svc, log1⟩

/-- The method `getCoordinates(address)`. -/
def getCoordinates (w : World) (svc : LocationService) (log : List Request)
    (address : String) : Ret GeocodedAddress :=
  if truthyText svc.googleMapsKey then getCoordinatesGoogle w svc log address
  else getCoordinatesNominatim w svc log address

/-- The method `reverseGeocodeGoogle(lat, lng)`. -/
def reverseGeocodeGoogle (w : World) (svc : LocationService) (log : List Request)
    (lat lng : Option ℚ) : Ret Place :=
  let log1 := log ++ [.geocodeLatLng lat lng svc.googleMapsKey]
  match w.geocodeLatLng log lat lng with
  | .error m => ⟨.error ("Reverse geocoding failed: " ++ m), svc, log1⟩
  | .ok [] =>
    ⟨.error ("Reverse geocoding failed: " ++ "No location found for these coordinates"),
      svc, log1⟩
  | .ok (result :: _) =>
    let nearby := getNearbyPlaces w svc log1 lat lng 500 none
    ⟨.ok { name := if truthyText result.long_name then result.long_name.getD ""
                   else "Unknown Location",
           formatted_address := result.formatted_address,
           coordinates := { lat := lat, lng := lng },
           types := result.types,
           rating := none, details := .undefined,
           osm_id := none, osm_type := none, importance := none,
           nearby := (NearbyList.google nearby.1).slice5 },
      svc, nearby.2⟩

/-- The method `reverseGeocodeNominatim(lat, lng)`. -/
def reverseGeocodeNominatim (w : World) (svc : LocationService) (log : List Request)
    (lat lng : Option ℚ) : Ret Place :=
  let log1 := log ++ [.nominatimReverse lat lng]
  let noLocation : Ret Place :=
    ⟨.error ("Reverse geocoding failed: " ++ "No location found for these coordinates"),
      svc, log1⟩
  match w.nominatimReverse log lat lng with
  | .error m => ⟨.error ("Reverse geocoding failed: " ++ m), svc, log1⟩
  | .ok none => noLocation
  | .ok (some result) =>
    if truthyText result.error then noLocation
    else
      let nearby := fetchNearbyPlacesOverpass w log1 lat lng none
      ⟨.ok { name := if truthyText result.name then result.name.getD ""
                     else beforeComma result.display_name,
             formatted_address := result.display_name,
             coordinates := { lat := lat, lng := lng },
             types := [result.type, result.placeClass].filterMap
               (fun t => if truthyText t then t else none),
             rating := none, details := .undefined,
             osm_id := none, osm_type := none, importance := none,
             nearby := (NearbyList.overpass nearby.1).slice5 },
        svc, nearby.2⟩

/-- The method `reverseGeocode(lat, lng)`. -/
def reverseGeocode (w : World) (svc : LocationService) (log : List Request)
    (lat lng : Option ℚ) : Ret Place :=
  if truthyText svc.googleMapsKey then reverseGeocodeGoogle w svc log lat lng
  else reverseGeocodeNominatim w svc log lat lng

/-- The method `searchNearby(location, type)`; the caller's default `restaurant` is in
`type`. -/
def searchNearby (w : World) (svc : LocationService) (log : List Request)
    (location : String) (type : Option String) : Ret NearbyList :=
  let coords := getCoordinates w svc log location
  match coords.value with
  | .error m => ⟨.error m, coords.service, coords.log⟩
  | .ok c =>
    if truthyText coords.service.googleMapsKey then
      let nearby := getNearbyPlaces w coords.service coords.log c.lat c.lng 1000 type
      ⟨.ok (.google nearby.1), coords.service, nearby.2⟩
    else
      let nearby := fetchNearbyPlacesOverpass w coords.log c.lat c.lng type
      ⟨.ok (.overpass nearby.1), coords.service, nearby.2⟩

/-- Are the coordinates finite and in range: `-90 ≤ lat ≤ 90` and `-180 ≤ lng ≤ 180`. -/
def LatLng.inRange (c : LatLng) : Prop :=
  match c.lat, c.lng with
  | some lat, some lng => -90 ≤ lat ∧ lat ≤ 90 ∧ -180 ≤ lng ∧ lng ≤ 180
  | _, _ => False

/-- A result of the free geocoding service for the national monument. -/
def monasResult : NominatimResult :=
  { display_name := "Monumen Nasional, Gambir, Jakarta Pusat",
    name := some "Monumen Nasional",
    lat := "-6.1754", lon := "106.8272",
    type := some "monument", placeClass := some "historic",
    osm_id := some 1, osm_type := some "way", importance := some (1 / 2), error := none }

/-- A result of the commercial backend for the same place. -/
def monasGoogle : GoogleResult :=
  { place_id := "p1", name := "Monumen Nasional", formatted_address := "Gambir, Jakarta",
    lat := some (-61754 / 10000), lng := some (1068272 / 10000),
    types := ["tourist_attraction"], rating := some (46 / 10),
    location_type := some "ROOFTOP", long_name := some "Monumen Nasional" }

/-- A world in which every request for a list of results is answered with the same single
result, whatever is asked, the place-details request fails, and the map-data service has
nothing. -/
def stubWorld : World where
  textSearch := fun _ _ => .ok [monasGoogle]
  placeDetails := fun _ _ => .error "timeout"
  nearbySearch := fun _ _ _ _ _ => .ok []
  geocode := fun _ _ => .ok [monasGoogle]
  geocodeLatLng := fun _ _ _ => .ok [monasGoogle]
  nominatimSearch := fun _ _ _ _ => .ok [monasResult]
  nominatimReverse := fun _ _ _ => .ok (some monasResult)
  overpass := fun _ _ _ _ => .ok (some [])
  haversine := stubHaversine

/-- A world like `stubWorld` in which the free geocoding service finds nothing inside the
country and one result without the restriction. -/
def stubWorldAbroad : World :=
  { stubWorld with
    nominatimSearch := fun _ _ _ countrycodes =>
      match countrycodes with
      | some _ => .ok []
      | none => .ok [monasResult] }

/-- A service without credentials: the free backend. -/
def freeService : LocationService := LocationService.construct none none

/-- A service with the credential of the commercial backend. -/
def googleService : LocationService := LocationService.construct (some "AIza-key") none

instance (c : LatLng) : Decidable c.inRange := by
  unfold LatLng.inRange
  split <;> infer_instance

/-- The backend a service routes to: the test `if (this.googleMapsKey)` of its public
methods. -/
def LocationService.backend (svc : LocationService) : Backend :=
  if truthyText svc.googleMapsKey then .commercial else .free

/-- A call that started from the service `svc` and the log `log` left the service as it was
and issued at least one request, all of them to the backend of `svc`. -/
def Routed {α : Type} (svc : LocationService) (log : List Request) (r : Ret α) : Prop :=
  r.service = svc ∧
    ∃ issued, issued ≠ [] ∧ r.log = log ++ issued ∧ ∀ q ∈ issued, q.backend = svc.backend

/-! ## Doubles

The methods of the distance estimator compute in IEEE-754 double precision.  A double is
modelled by the rational it stands for, or it is an infinity or `NaN`; the sign of a zero is
not kept (no result below depends on it).  Every arithmetic result is rounded to the nearest
double, ties to the even one. -/

/-- A JavaScript number. -/
inductive Num where
  /-- a finite double, by its value -/
  | fin (q : ℚ)
  /-- `Infinity`, or `-Infinity` when `negative` -/
  | inf (negative : Bool)
  /-- `NaN` -/
  | nan
deriving DecidableEq, Repr

/-- The integer nearest to `x`, the even one of two. -/
def roundHalfEven (x : ℚ) : ℤ :=
  let f := Rat.floor x
  let r := x - f
  if r < 1 / 2 then f else if 1 / 2 < r then f + 1 else if f % 2 = 0 then f else f + 1

/-- The power `2 ^ k` for an integer `k`. -/
def twoPow (k : ℤ) : ℚ :=
  if 0 ≤ k then ((2 ^ k.toNat : ℕ) : ℚ) else 1 / ((2 ^ (-k).toNat : ℕ) : ℚ)

/-- The number of halvings that bring `n` below 2, at most `fuel` of them. -/
def halvings : Nat → Nat → Nat
  | 0, _ => 0
  | fuel + 1, n => if 2 ≤ n then halvings fuel (n / 2) + 1 else 0

/-- The whole part of the binary logarithm of `n`, for `n` from 1 on. -/
def floorLog2 (n : Nat) : Nat := halvings n n

/-- The exponent `e` with `2 ^ e ≤ a < 2 ^ (e + 1)`, for a positive `a`. -/
def binaryExponent (a : ℚ) : ℤ :=
  let e0 : ℤ := (floorLog2 a.num.natAbs : ℤ) - (floorLog2 a.den : ℤ)
  if a < twoPow e0 then e0 - 1 else e0

/-- The double nearest to `q`, were the exponent unbounded above: 53 significant bits, and
below `2 ^ -1022` the fixed step `2 ^ -1074`. -/
def roundFinite (q : ℚ) : ℚ :=
  if q = 0 then 0
  else
    let a := if q < 0 then -q else q
    let e := max (binaryExponent a) (-1022)
    let quantum := twoPow (e - 52)
    let m := roundHalfEven (a / quantum)
    if q < 0 then -((m : ℚ) * quantum) else (m : ℚ) * quantum

/-- From this magnitude on, half-way between the largest double and `2 ^ 1024`, a value
rounds to an infinity. -/
def overflowThreshold : ℚ := 2 ^ 1024 - 2 ^ 970

/-- The double nearest to the exact value `q`. -/
def toDouble (q : ℚ) : Num :=
  if overflowThreshold ≤ (if q < 0 then -q else q) then .inf (decide (q < 0))
  else .fin (roundFinite q)

/-- The negation `-a`. -/
def Num.neg : Num → Num
  | .fin q => .fin (-q)
  | .inf negative => .inf (!negative)
  | .nan => .nan

/-- The sum `a + b`. -/
def Num.add : Num → Num → Num
  | .fin a, .fin b => toDouble (a + b)
  | .fin _, .inf t => .inf t
  | .inf s, .fin _ => .inf s
  | .inf s, .inf t => if s = t then .inf s else .nan
  | _, _ => .nan

/-- The difference `a - b`. -/
def Num.sub (a b : Num) : Num := a.add b.neg

/-- The product `a * b`. -/
def Num.mul : Num → Num → Num
  | .fin a, .fin b => toDouble (a * b)
  | .fin a, .inf t => if a = 0 then .nan else .inf (xor (decide (a < 0)) t)
  | .inf s, .fin b => if b = 0 then .nan else .inf (xor s (decide (b < 0)))
  | .inf s, .inf t => .inf (xor s t)
  | _, _ => .nan

/-- The quotient `a / b`.  A zero divisor is taken as `+0`; the methods below divide by
constants that are not zero. -/
def Num.div : Num → Num → Num
  | .fin a, .fin b =>
    if b = 0 then (if a = 0 then .nan else .inf (decide (a < 0))) else toDouble (a / b)
  | .fin _, .inf _ => .fin 0
  | .inf s, .fin b => .inf (xor s (decide (b < 0)))
  | _, _ => .nan

/-- The comparison `a < b`; it is false when one side is `NaN`. -/
def Num.lt : Num → Num → Bool
  | .fin a, .fin b => decide (a < b)
  | .fin _, .inf t => !t
  | .inf s, .fin _ => s
  | .inf s, .inf t => s && !t
  | _, _ => false

/-- `Math.round`: the nearest integer, halves upwards; an infinity and `NaN` stay. -/
def Num.round : Num → Num
  | .fin q => .fin (mathRound q)
  | .inf negative => .inf negative
  | .nan => .nan

/-- What the engine supplies beyond arithmetic: the functions `Math.sin`, `Math.cos`,
`Math.sqrt` and `Math.atan2`, which the language leaves to the implementation up to their
values at special arguments, and the text `Number::toString` gives to a number that is not
an integer of magnitude up to `2 ^ 53`. -/
structure Engine where
  sin : Num → Num
  cos : Num → Num
  sqrt : Num → Num
  atan2 : Num → Num → Num
  numberToString : ℚ → String

/-- The text of a number in a template literal.  An integer of magnitude up to `2 ^ 53` is
printed in full. -/
def Num.text (engine : Engine) : Num → String
  | .fin q =>
    if q.den = 1 ∧ q.num.natAbs ≤ 2 ^ 53 then toString q.num else engine.numberToString q
  | .inf negative => if negative then "-Infinity" else "Infinity"
  | .nan => "NaN"

/-- `x.toFixed(1)`: below `10 ^ 21` the nearest multiple of a tenth of the exact value, the
larger one of two, with one digit after the point; from there on the text of the number. -/
def Num.toFixed (engine : Engine) : Num → String
  | .fin q =>
    if q < 0 then
      if q ≤ -(10 ^ 21) then engine.numberToString q else "-" ++ toFixed1 (-q)
    else if 10 ^ 21 ≤ q then engine.numberToString q else toFixed1 q
  | .inf negative => if negative then "-Infinity" else "Infinity"
  | .nan => "NaN"

/-- The function `parseFloat`, with its result as a double: the number read off the text,
rounded to the nearest double. -/
def Ieee.parseFloat (s : List Char) : Num :=
  match Cilok.parseFloat s with
  | some q => toDouble q
  | none => .nan

/-- The number `estimateTravelTime` reads off its argument, as a double:
`parseFloat(distanceStr.replace(/[^\d.]/g, ''))`. -/
def Ieee.parsedMagnitude (distanceStr : String) : Num :=
  Ieee.parseFloat (removeAllFrom notDigitOrDotRe 0 none distanceStr.data)

/-- The method `estimateTravelTime(distanceStr)`, computed in doubles. -/
def Ieee.estimateTravelTime (engine : Engine) (distanceStr : String) : String :=
  let distance := Ieee.parsedMagnitude distanceStr
  if distance.lt (.fin 50) then
    (((distance.div (.fin 25)).mul (.fin 60)).round).text engine ++ " menit - 1.5 jam"
  else if distance.lt (.fin 200) then
    ((distance.div (.fin 60)).round).text engine ++ " - " ++
      ((distance.div (.fin 50)).round).text engine ++ " jam"
  else
    ((distance.div (.fin 70)).round).text engine ++ " - " ++
      ((distance.div (.fin 50)).round).text engine ++ " jam"

/-- The constant `Math.PI`: the double nearest to π. -/
def mathPI : ℚ := 7074237752028440 / 2251799813685248

/-- The method `deg2rad(deg)`: `deg * (Math.PI / 180)`. -/
def Ieee.deg2rad (deg : Num) : Num := deg.mul ((Num.fin mathPI).div (.fin 180))

/-- The method `LocationService.calculateDistance(lat1, lon1, lat2, lon2)`, computed in
doubles with the `Math` functions of the engine. -/
def Ieee.calculateDistance (engine : Engine) (lat1 lon1 lat2 lon2 : Num) : String :=
  let R : Num := .fin 6371
  let dLat := Ieee.deg2rad (lat2.sub lat1)
  let dLon := Ieee.deg2rad (lon2.sub lon1)
  let a :=
    ((engine.sin (dLat.div (.fin 2))).mul (engine.sin (dLat.div (.fin 2)))).add
      ((((engine.cos (Ieee.deg2rad lat1)).mul (engine.cos (Ieee.deg2rad lat2))).mul
        (engine.sin (dLon.div (.fin 2)))).mul (engine.sin (dLon.div (.fin 2))))
  let c := (Num.fin 2).mul (engine.atan2 (engine.sqrt a) (engine.sqrt ((Num.fin 1).sub a)))
  let d := R.mul c
  if d.lt (.fin 1) then ((d.mul (.fin 1000)).round).text engine ++ "m"
  else d.toFixed engine ++ "km"

/-- A stand-in for the engine that is exact at the special values: `sin x = x`,
`cos x = 1`, `sqrt x = x` (right at 0 and 1), `atan2(y, x) = y`; numbers beyond the exact
integers are not printed. -/
def stubEngine : Engine where
  sin := fun x => x
  cos := fun _ => .fin 1
  sqrt := fun x => x
  atan2 := fun y _ => y
  numberToString := fun _ => "?"

/-! ## Theorems -/

set_option maxRecDepth 100000

variable {π : Type}

@[simp] theorem aiCount_nil : aiCount ([] : List (Event π)) = 0 := rfl
@[simp] theorem thrownEntries_nil : thrownEntries ([] : List (Event π)) = [] := rfl
@[simp] theorem lastAi_nil : lastAi ([] : List (Event π)) = none := rfl
@[simp] theorem blockTexts_nil : blockTexts ([] : List (Event π)) = [] := rfl

@[simp] theorem aiCount_snoc_ai (log : List (Event π)) (q c rc r) :
    aiCount (log ++ [Event.ai q c rc r]) = aiCount log + 1 := by
  simp [aiCount, List.countP_append, Event.isAi]

@[simp] theorem aiCount_snoc_search (log : List (Event π)) (s r) :
    aiCount (log ++ [Event.search s r]) = aiCount log := by
  simp [aiCount, List.countP_append, Event.isAi]

@[simp] theorem lastAi_snoc_ai (log : List (Event π)) (q c rc r) :
    lastAi (log ++ [Event.ai q c rc r]) = some r := by
  simp [lastAi, List.foldl_append]

@[simp] theorem lastAi_snoc_search (log : List (Event π)) (s r) :
    lastAi (log ++ [Event.search s r]) = lastAi log := by
  simp [lastAi, List.foldl_append]

@[simp] theorem blockTexts_snoc_ai (log : List (Event π)) (q c rc r) :
    blockTexts (log ++ [Event.ai q c rc r]) = [] := by
  simp [blockTexts, List.foldl_append]

@[simp] theorem blockTexts_snoc_search (log : List (Event π)) (s r) :
    blockTexts (log ++ [Event.search s r]) = blockTexts log ++ [s] := by
  simp [blockTexts, List.foldl_append]

@[simp] theorem thrownEntries_append (l₁ l₂ : List (Event π)) :
    thrownEntries (l₁ ++ l₂) = thrownEntries l₁ ++ thrownEntries l₂ := by
  simp [thrownEntries, List.filterMap_append]

@[simp] theorem thrownEntries_ai (q c rc r) :
    thrownEntries [(Event.ai q c rc r : Event π)] = [] := rfl

@[simp] theorem thrownEntries_search_failed (s m) :
    thrownEntries [(Event.search s (.failed m) : Event π)] = [⟨s, m⟩] := rfl

@[simp] theorem thrownEntries_search_nothing (s) :
    thrownEntries [(Event.search s .nothing : Event π)] = [] := rfl

@[simp] theorem thrownEntries_search_found (s p) :
    thrownEntries [(Event.search s (.found p) : Event π)] = [] := rfl

theorem noFound_snoc {log : List (Event π)} {e : Event π} (h : NoFound log)
    (he : e.isFound = false) : NoFound (log ++ [e]) := by
  intro x hx
  rcases List.mem_append.mp hx with hx | hx
  · exact h x hx
  · simp at hx; subst hx; exact he

theorem generated_nil (env : Env π) (query : String) : Generated env query [] := by
  intro pre ev post h
  simp at h

theorem generated_snoc {env : Env π} {query : String} {log : List (Event π)} {e : Event π}
    (h : Generated env query log) (he : Expected env query log e) :
    Generated env query (log ++ [e]) := by
  intro pre ev post hsplit
  rcases List.eq_nil_or_concat post with hp | ⟨post', x, hp⟩
  · subst hp
    have := List.append_inj' hsplit rfl
    simp at this
    obtain ⟨h1, h2⟩ := this
    subst h1; subst h2
    exact he
  · subst hp
    have h2 : log ++ [e] = (pre ++ ev :: post') ++ [x] := by simpa using hsplit
    have := List.append_inj' h2 rfl
    exact h pre ev post' this.1

theorem trySuggestions_spec (env : Env π) (query a : String) :
    ∀ (cs : List String) (log : List (Event π)) (results : List SearchAttempt)
      (res : Option (π × String)) (log' : List (Event π)) (results' : List SearchAttempt),
    trySuggestions env cs log results = (res, log', results') →
    Generated env query log → NoFound log → lastAi log = some (.ok a) →
    aiCount log ≤ maxRetries → blockTexts log ++ cs = extractLocationNames a query →
    results = thrownEntries log →
    Generated env query log' ∧ lastAi log' = some (.ok a) ∧ aiCount log' = aiCount log ∧
      results' = thrownEntries log' ∧
      (res = none → NoFound log' ∧ blockTexts log' = extractLocationNames a query) ∧
      (∀ p s, res = some (p, s) → ∃ pre, log' = pre ++ [.search s (.found p)]) := by
  intro cs
  induction cs with
  | nil =>
    intro log results res log' results' h hg hn hl hc hb hr
    simp only [trySuggestions, Prod.mk.injEq] at h
    obtain ⟨h1, h2, h3⟩ := h
    subst h1; subst h2; subst h3
    refine ⟨hg, hl, rfl, hr, ?_, ?_⟩
    · intro _; exact ⟨hn, by simpa using hb⟩
    · intro p s h; cases h
  | cons s rest ih =>
    intro log results res log' results' h hg hn hl hc hb hr
    have hexp : ∀ reply, reply = env.searchLocation log s →
        Expected env query log (.search s reply) := by
      intro reply hreply
      refine ⟨hn, hreply, hc, a, hl, ?_⟩
      rw [← hb]
      exact ⟨rest, by simp⟩
    rw [trySuggestions] at h
    cases hs : env.searchLocation log s with
    | found place =>
      rw [hs] at h
      simp only [Prod.mk.injEq] at h
      obtain ⟨h1, h2, h3⟩ := h
      subst h1; subst h2; subst h3
      refine ⟨generated_snoc hg (hexp _ hs.symm), by simpa using hl, by simp, by simpa using hr,
        ?_, ?_⟩
      · intro h; cases h
      · intro p s' h
        simp only [Option.some.injEq, Prod.mk.injEq] at h
        obtain ⟨h1, h2⟩ := h
        subst h1; subst h2
        exact ⟨log, rfl⟩
    | nothing =>
      rw [hs] at h
      simp only at h
      have := ih (log ++ [.search s .nothing]) results res log' results' h
        (generated_snoc hg (hexp _ hs.symm)) (noFound_snoc hn (by rfl)) (by simpa using hl)
        (by simpa using hc) (by simpa using hb) (by simpa using hr)
      simpa using this
    | failed m =>
      rw [hs] at h
      simp only at h
      have := ih (log ++ [.search s (.failed m)]) (results ++ [⟨s, m⟩]) res log' results' h
        (generated_snoc hg (hexp _ hs.symm)) (noFound_snoc hn (by rfl)) (by simpa using hl)
        (by simpa using hc) (by simpa using hb) (by simp [hr])
      simpa using this

theorem outcomeOf_snoc_found (log : List (Event π)) (s : String) (p : π) (a : String)
    (h : lastAi log = some (.ok a)) :
    outcomeOf (log ++ [.search s (.found p)]) = some (.ok (.found p a (aiCount log) s)) := by
  simp [outcomeOf, h]

theorem attemptLoop_spec (env : Env π) (query : String) :
    ∀ (n attempt : Nat) (st : LoopState π) (res : Option (Outcome π)) (st' : LoopState π),
    attemptLoop env query n attempt st = (res, st') →
    Generated env query st.log → NoFound st.log → aiCount st.log + 1 = attempt →
    attempt + n = maxRetries + 1 → st.searchResults = thrownEntries st.log →
    st.lastError = lastErrorOf query st.log →
    (∀ a, lastAi st.log = some (.ok a) → blockTexts st.log = extractLocationNames a query) →
    Generated env query st'.log ∧
      (res = none → NoFound st'.log ∧ aiCount st'.log = maxRetries ∧
        st'.searchResults = thrownEntries st'.log ∧
        (∀ a, lastAi st'.log = some (.ok a) →
          blockTexts st'.log = extractLocationNames a query)) ∧
      (∀ o, res = some o → outcomeOf st'.log = some (.ok o)) := by
  intro n
  induction n with
  | zero =>
    intro attempt st res st' h hg hn hc hk hr hl hb
    simp only [attemptLoop, Prod.mk.injEq] at h
    obtain ⟨h1, h2⟩ := h
    subst h1; subst h2
    refine ⟨hg, ?_, ?_⟩
    · intro _; exact ⟨hn, by omega, hr, hb⟩
    · intro o h; cases h
  | succ n ih =>
    intro attempt st res st' h hg hn hc hk hr hl hb
    have hexp : ∀ reply,
        reply = processLocationQuery env st.log query
          (loopContext st.lastError st.searchResults) (attempt - 1) →
        Expected env query st.log
          (.ai query (loopContext st.lastError st.searchResults) (attempt - 1) reply) := by
      intro reply hreply
      refine ⟨hn, by omega, hreply, hb, Or.inl ⟨by omega, rfl, ?_⟩⟩
      rw [hl, hr]
    rw [attemptLoop] at h
    simp only at h
    cases hp : processLocationQuery env st.log query
        (loopContext st.lastError st.searchResults) (attempt - 1) with
    | failed m =>
      rw [hp] at h
      simp only at h
      exact ih (attempt + 1) _ res st' h (generated_snoc hg (hexp _ hp.symm))
        (noFound_snoc hn (by rfl)) (by simp; omega) (by omega) (by simp [hr])
        (by simp [lastErrorOf]) (by simp)
    | ok aiResponse =>
      rw [hp] at h
      simp only at h
      rcases hts : trySuggestions env (extractLocationNames aiResponse query)
          (st.log ++ [.ai query (loopContext st.lastError st.searchResults) (attempt - 1)
            (.ok aiResponse)]) st.searchResults with ⟨r, log2, results2⟩
      rw [hts] at h
      have spec := trySuggestions_spec env query aiResponse _ _ _ r log2 results2 hts
        (generated_snoc hg (hexp _ hp.symm)) (noFound_snoc hn (by rfl)) (by simp)
        (by simp; omega) (by simp) (by simp [hr])
      obtain ⟨sg, sl, sc, sr, snone, ssome⟩ := spec
      cases r with
      | none =>
        simp only at h
        obtain ⟨sn, sb⟩ := snone rfl
        exact ih (attempt + 1) _ res st' h sg sn (by simp [sc]; omega) (by omega) sr
          (by simp [lastErrorOf, sl]) (by intro a' ha'; rw [sl] at ha'; cases ha'; exact sb)
      | some ps =>
        obtain ⟨p, s⟩ := ps
        simp only [Prod.mk.injEq] at h
        obtain ⟨h1, h2⟩ := h
        subst h1; subst h2
        refine ⟨sg, ?_, ?_⟩
        · intro h; cases h
        · intro o ho
          cases ho
          obtain ⟨pre, hpre⟩ := ssome p s rfl
          simp only
          have hl' : lastAi pre = some (.ok aiResponse) := by
            rw [hpre] at sl; simpa using sl
          have hc' : aiCount pre = attempt := by
            rw [hpre] at sc; simp at sc; omega
          rw [hpre, outcomeOf_snoc_found pre s p aiResponse hl', hc']

/-- Every call of a run is the one owed at its place, and the run ends with the result owed at
the end of its log. -/
theorem run_spec (env : Env π) (query : String) :
    Generated env query (intelligentLocationSearch env query).log ∧
      outcomeOf (intelligentLocationSearch env query).log =
        some (intelligentLocationSearch env query).outcome := by
  rcases hal : attemptLoop env query maxRetries 1
      { log := [], lastError := none, searchResults := [] } with ⟨res, st⟩
  have spec := attemptLoop_spec env query maxRetries 1 _ res st hal (generated_nil env query)
    (by intro e he; simp at he) (by simp) rfl (by simp) (by simp [lastErrorOf]) (by simp)
  obtain ⟨sg, snone, ssome⟩ := spec
  unfold intelligentLocationSearch
  rw [hal]
  cases res with
  | some o => exact ⟨sg, ssome o rfl⟩
  | none =>
    obtain ⟨sn, sc, sr, sb⟩ := snone rfl
    simp only
    have hexp : ∀ reply,
        reply = processLocationQuery env st.log (finalQuery query)
          (some (finalContext st.searchResults)) maxRetries →
        Expected env query st.log
          (.ai (finalQuery query) (some (finalContext st.searchResults)) maxRetries reply) := by
      intro reply hreply
      refine ⟨sn, sc.symm, hreply, sb, Or.inr ⟨rfl, rfl, ?_⟩⟩
      rw [sr]
    cases hp : processLocationQuery env st.log (finalQuery query)
        (some (finalContext st.searchResults)) maxRetries with
    | ok finalResponse =>
      simp only
      refine ⟨generated_snoc sg (hexp _ hp.symm), ?_⟩
      simp [outcomeOf, sr]
    | failed m =>
      simp only
      refine ⟨generated_snoc sg (hexp _ hp.symm), ?_⟩
      simp [outcomeOf]

theorem expected_noFound {env : Env π} {query : String} {pre : List (Event π)} {ev : Event π}
    (h : Expected env query pre ev) : NoFound pre := by
  cases ev with
  | ai q c rc r => exact h.1
  | search s r => exact h.1

theorem generated_found_last {env : Env π} {query : String} {log pre post : List (Event π)}
    {ev : Event π} (hg : Generated env query log) (h : log = pre ++ ev :: post)
    (hf : ev.isFound = true) : post = [] := by
  cases post with
  | nil => rfl
  | cons x rest =>
    have h2 : log = (pre ++ [ev]) ++ x :: rest := by simp [h]
    have := expected_noFound (hg _ _ _ h2) ev (by simp)
    rw [hf] at this
    cases this

theorem generated_noFound_init {env : Env π} {query : String} {log pre post : List (Event π)}
    {ev : Event π} (hg : Generated env query log) (h : log = pre ++ ev :: post) :
    NoFound pre :=
  expected_noFound (hg _ _ _ h)

theorem searchTexts_append (l₁ l₂ : List (Event π)) :
    searchTexts (l₁ ++ l₂) = searchTexts l₁ ++ searchTexts l₂ := by
  simp [searchTexts, List.filterMap_append]

theorem searchTexts_cons_ai (l : List (Event π)) (q c rc r) :
    searchTexts (Event.ai q c rc r :: l) = searchTexts l := rfl

theorem searchTexts_cons_search (l : List (Event π)) (s r) :
    searchTexts (Event.search s r :: l) = s :: searchTexts l := rfl

theorem aiCount_append (l₁ l₂ : List (Event π)) :
    aiCount (l₁ ++ l₂) = aiCount l₁ + aiCount l₂ := by
  simp [aiCount, List.countP_append]

theorem aiCount_cons_ai (l : List (Event π)) (q c rc r) :
    aiCount (Event.ai q c rc r :: l) = aiCount l + 1 := by
  simp [aiCount, Event.isAi]

theorem aiCount_of_no_ai (l : List (Event π)) (h : ∀ e ∈ l, e.isAi = false) : aiCount l = 0 := by
  simp only [aiCount, List.countP_eq_zero]
  intro e he
  simp [h e he]

theorem searchTexts_length_of_no_ai (l : List (Event π)) (h : ∀ e ∈ l, e.isAi = false) :
    (searchTexts l).length = l.length := by
  induction l with
  | nil => rfl
  | cons e rest ih =>
    cases e with
    | ai q c rc r => simpa [Event.isAi] using h _ (List.mem_cons_self _ _)
    | search s r =>
      have := ih (fun e he => h e (List.mem_cons_of_mem _ he))
      simp [searchTexts] at this ⊢
      exact this

theorem lastAi_decompose : ∀ (log : List (Event π)) (r : AiReply), lastAi log = some r →
    ∃ before q c rc tried, log = before ++ Event.ai q c rc r :: tried ∧
      (∀ e ∈ tried, e.isAi = false) ∧ blockTexts log = searchTexts tried := by
  intro log
  induction log using List.reverseRecOn with
  | nil => intro r h; simp at h
  | append_singleton l e ih =>
    intro r h
    cases e with
    | ai q c rc reply =>
      simp at h; subst h
      exact ⟨l, q, c, rc, [], rfl, by simp, by simp [searchTexts]⟩
    | search s reply =>
      simp at h
      obtain ⟨before, q, c, rc, tried, hl, ht, hb⟩ := ih r h
      refine ⟨before, q, c, rc, tried ++ [.search s reply], by simp [hl], ?_, ?_⟩
      · intro e he
        rcases List.mem_append.mp he with he | he
        · exact ht e he
        · simp at he; subst he; rfl
      · simp [hb, searchTexts_append, searchTexts]

theorem lastAi_eq_none_iff (log : List (Event π)) : lastAi log = none ↔ aiCount log = 0 := by
  induction log using List.reverseRecOn with
  | nil => simp
  | append_singleton l e ih =>
    cases e with
    | ai q c rc reply => simp
    | search s reply => simpa using ih

theorem generated_of_append {env : Env π} {query : String} {l₁ l₂ : List (Event π)}
    (hg : Generated env query (l₁ ++ l₂)) : Generated env query l₁ := by
  intro pre ev post h
  exact hg pre ev (post ++ l₂) (by simp [h])

theorem generated_aiCount_zero {env : Env π} {query : String} {log : List (Event π)}
    (hg : Generated env query log) (h : aiCount log = 0) : log = [] := by
  cases log with
  | nil => rfl
  | cons e rest =>
    have hexp := hg [] e rest rfl
    cases e with
    | ai q c rc r => simp [aiCount, Event.isAi] at h
    | search s r =>
      obtain ⟨_, _, _, a, ha, _⟩ := hexp
      simp at ha

theorem run_last_event (env : Env π) (query : String) :
    ∃ pre e, (intelligentLocationSearch env query).log = pre ++ [e] ∧
      ((∃ s p a, e = .search s (.found p) ∧ lastAi pre = some (.ok a) ∧
          (intelligentLocationSearch env query).outcome = .ok (.found p a (aiCount pre) s)) ∨
        (∃ q c final, e = .ai q c maxRetries (.ok final) ∧
          (intelligentLocationSearch env query).outcome =
            .ok (.notFound final maxRetries (thrownEntries pre))) ∨
        (∃ q c m, e = .ai q c maxRetries (.failed m) ∧
          (intelligentLocationSearch env query).outcome = .error m)) := by
  have h := (run_spec env query).2
  rcases List.eq_nil_or_concat (intelligentLocationSearch env query).log with hl | ⟨pre, e, hl⟩
  · rw [hl] at h; simp [outcomeOf] at h
  · rw [List.concat_eq_append] at hl
    refine ⟨pre, e, hl, ?_⟩
    rw [hl] at h
    cases e with
    | search s r =>
      cases r with
      | found p =>
        cases hla : lastAi pre with
        | none => simp [outcomeOf, hla] at h
        | some r =>
          cases r with
          | failed m => simp [outcomeOf, hla] at h
          | ok a =>
            rw [outcomeOf_snoc_found pre s p a hla] at h
            exact Or.inl ⟨s, p, a, rfl, rfl, by simpa using h.symm⟩
      | nothing => simp [outcomeOf] at h
      | failed m => simp [outcomeOf] at h
    | ai q c rc r =>
      cases r with
      | ok a =>
        by_cases hrc : rc = maxRetries
        · subst hrc
          refine Or.inr (Or.inl ⟨q, c, a, rfl, ?_⟩)
          simp [outcomeOf] at h
          exact h.symm
        · simp [outcomeOf, hrc] at h
      | failed m =>
        by_cases hrc : rc = maxRetries
        · subst hrc
          refine Or.inr (Or.inr ⟨q, c, m, rfl, ?_⟩)
          simp [outcomeOf] at h
          exact h.symm
        · simp [outcomeOf, hrc] at h

/-- C1 (short-circuit).  Whenever a run of `intelligentLocationSearch` contains a forward
search that returned a place, that search is the last call of the run (no later candidate, no
later iteration, no further completion call), no earlier search returned a place, and the
search was candidate number `tried.length + 1` of the narrative `a` obtained by the
completion call of iteration `aiCount before + 1`; the method returns the success object with
that place, that narrative, that iteration number and that candidate.  In the first
iteration the number of forward searches of the whole run is `tried.length + 1`. -/
theorem short_circuit (env : Env π) (query : String) (pre post : List (Event π)) (s : String)
    (place : π)
    (h : (intelligentLocationSearch env query).log = pre ++ .search s (.found place) :: post) :
    post = [] ∧ NoFound pre ∧ env.searchLocation pre s = .found place ∧
      ∃ before ctx a tried,
        pre = before ++ .ai query ctx (aiCount before) (.ok a) :: tried ∧
        aiCount before < maxRetries ∧
        (∀ e ∈ tried, e.isAi = false) ∧
        searchTexts tried ++ [s] = (extractLocationNames a query).take (tried.length + 1) ∧
        (aiCount before = 0 →
          (searchTexts (intelligentLocationSearch env query).log).length = tried.length + 1) ∧
        (intelligentLocationSearch env query).outcome =
          .ok (.found place a (aiCount before + 1) s) := by
  obtain ⟨hg, ho⟩ := run_spec env query
  have hpost : post = [] := generated_found_last hg h rfl
  subst hpost
  obtain ⟨hn, hreply, hcount, a, hla, hpre⟩ := hg _ _ _ h
  refine ⟨rfl, hn, hreply.symm, ?_⟩
  obtain ⟨before, q, c, rc, tried, hdec, htried, hblock⟩ := lastAi_decompose pre _ hla
  have hsplit : (intelligentLocationSearch env query).log =
      before ++ .ai q c rc (.ok a) :: (tried ++ [.search s (.found place)]) := by
    rw [h, hdec]; simp
  obtain ⟨_, hrc, _, _, hcase⟩ := hg _ _ _ hsplit
  have hcp : aiCount pre = aiCount before + 1 := by
    rw [hdec, aiCount_append, aiCount_cons_ai, aiCount_of_no_ai tried htried]
  have hlt : aiCount before < maxRetries := by omega
  have hq : q = query := by
    rcases hcase with ⟨_, hq, _⟩ | ⟨hrc', _, _⟩
    · exact hq
    · omega
  subst hq
  subst hrc
  refine ⟨before, c, a, tried, hdec, hlt, htried, ?_, ?_, ?_⟩
  · rw [hblock] at hpre
    have := List.prefix_iff_eq_take.mp hpre
    rw [this]
    simp [searchTexts_length_of_no_ai tried htried]
  · intro hz
    have hb : before = [] :=
      generated_aiCount_zero (generated_of_append (hsplit ▸ hg)) hz
    rw [h, hdec, hb, List.nil_append, searchTexts_append, List.length_append,
      searchTexts_cons_ai, searchTexts_length_of_no_ai tried htried]
    rfl
  · rw [h, outcomeOf_snoc_found pre s place a hla, hcp] at ho
    simpa using ho.symm

theorem append_ne_empty_left (s t : String) (h : s ≠ "") : s ++ t ≠ "" := by
  intro hst
  apply h
  have := congrArg String.data hst
  simp only [String.data_append] at this
  have h2 : s.data = [] := (List.append_eq_nil.mp this).1
  exact String.ext h2

theorem aiError_ne_empty (e : String) : "AI Service Error: " ++ e ≠ "" :=
  append_ne_empty_left _ _ (by decide)

theorem noResultsMessage_ne_empty (l : List String) : noResultsMessage l ≠ "" :=
  append_ne_empty_left _ _ (by decide)

theorem processLocationQuery_failed {env : Env π} {log : List (Event π)} {q : String}
    {c : Option String} {rc : Nat} {m : String}
    (h : processLocationQuery env log q c rc = .failed m) :
    ∃ e, env.post log (getSystemPrompt rc c) q = .error e ∧ m = "AI Service Error: " ++ e := by
  unfold processLocationQuery at h
  cases hp : env.post log (getSystemPrompt rc c) q with
  | ok content => rw [hp] at h; cases h
  | error e => rw [hp] at h; simp at h; exact ⟨e, rfl, h.symm⟩

theorem loopContext_some (e : String) (results : List SearchAttempt) (h : e ≠ "") :
    loopContext (some e) results =
      some ("Previous error: " ++ e ++ ". Results so far: " ++ jsonStringify results) := by
  simp [loopContext, h]

/-- The value of `lastError` read off a log is never the empty string. -/
theorem lastErrorOf_ne_empty {env : Env π} {query : String} {log : List (Event π)}
    (hg : Generated env query log) (e : String) (h : lastErrorOf query log = some e) :
    e ≠ "" := by
  unfold lastErrorOf at h
  cases hla : lastAi log with
  | none => rw [hla] at h; cases h
  | some r =>
    rw [hla] at h
    cases r with
    | ok a =>
      simp at h; subst h
      exact noResultsMessage_ne_empty _
    | failed m =>
      simp at h; subst h
      obtain ⟨before, q, c, rc, tried, hdec, _, _⟩ := lastAi_decompose log _ hla
      obtain ⟨_, _, hreply, _, _⟩ := hg _ _ _ hdec
      obtain ⟨e, _, he⟩ := processLocationQuery_failed hreply.symm
      rw [he]
      exact aiError_ne_empty e

/-- C7 (arguments of the completion call in the loop).  A completion call of a run with a
retry count below `maxRetries` is a call of iteration `rc + 1`: its retry count is the number
of earlier completion calls, its query is the original query, its context is null in the
first iteration and otherwise the text `Previous error: <summary>. Results so far: <JSON>`,
where the JSON renders every failure recorded so far and the summary is the error of the
previous iteration (the message of its failed completion call, or the list of its failed
suggestions). -/
theorem ai_call_arguments (env : Env π) (query : String) (pre post : List (Event π))
    (q : String) (c : Option String) (rc : Nat) (reply : AiReply)
    (h : (intelligentLocationSearch env query).log = pre ++ .ai q c rc reply :: post)
    (hrc : rc < maxRetries) :
    rc = aiCount pre ∧ q = query ∧ reply = processLocationQuery env pre query c rc ∧
      (rc = 0 → c = none) ∧
      (0 < rc → ∃ summary,
        c = some ("Previous error: " ++ summary ++ ". Results so far: " ++
              jsonStringify (thrownEntries pre)) ∧
        (lastAi pre = some (.failed summary) ∨
          ∃ a, lastAi pre = some (.ok a) ∧ blockTexts pre = extractLocationNames a query ∧
            summary = noResultsMessage (extractLocationNames a query))) := by
  obtain ⟨hg, _⟩ := run_spec env query
  obtain ⟨_, hcount, hreply, hblock, hcase⟩ := hg _ _ _ h
  have hgp : Generated env query pre := generated_of_append (h ▸ hg)
  rcases hcase with ⟨_, hq, hc⟩ | ⟨hrc', _, _⟩
  · subst hq
    refine ⟨hcount, rfl, hreply, ?_, ?_⟩
    · intro hz
      have : lastAi pre = none := (lastAi_eq_none_iff pre).mpr (by omega)
      rw [hc]
      simp [lastErrorOf, this, loopContext]
    · intro hpos
      cases hla : lastAi pre with
      | none =>
        have := (lastAi_eq_none_iff pre).mp hla
        omega
      | some r =>
        cases r with
        | ok a =>
          have hle : lastErrorOf q pre = some (noResultsMessage (extractLocationNames a q)) := by
            simp [lastErrorOf, hla]
          refine ⟨noResultsMessage (extractLocationNames a q), ?_, Or.inr ⟨a, rfl, hblock a hla, rfl⟩⟩
          rw [hc, hle, loopContext_some _ _ (noResultsMessage_ne_empty _)]
        | failed m =>
          have hle : lastErrorOf q pre = some m := by simp [lastErrorOf, hla]
          refine ⟨m, ?_, Or.inl rfl⟩
          rw [hc, hle, loopContext_some _ _ (lastErrorOf_ne_empty hgp m hle)]
  · omega

/-- C5, amended.  When the completion call of an iteration fails (its message is
`AI Service Error: ` followed by the message of the request), the very next call of the run
is again a completion call, with the retry count advanced by one: no forward search is made
in between and the error is not thrown.  If that next call belongs to the loop, its context
carries the message of the error and the unchanged history; if it is the final call, its
context is `Search attempts: <JSON>` with the unchanged history. -/
theorem ai_failure_continues (env : Env π) (query : String) (pre post : List (Event π))
    (q : String) (c : Option String) (rc : Nat) (m : String)
    (h : (intelligentLocationSearch env query).log = pre ++ .ai q c rc (.failed m) :: post)
    (hrc : rc < maxRetries) :
    (∃ e, env.post pre (getSystemPrompt rc c) q = .error e ∧ m = "AI Service Error: " ++ e) ∧
      ∃ q2 c2 r2 rest, post = .ai q2 c2 (rc + 1) r2 :: rest ∧
        ((rc + 1 < maxRetries ∧ q2 = query ∧
            c2 = some ("Previous error: " ++ m ++ ". Results so far: " ++
              jsonStringify (thrownEntries pre))) ∨
          (rc + 1 = maxRetries ∧ q2 = finalQuery query ∧
            c2 = some (finalContext (thrownEntries pre)))) := by
  obtain ⟨hg, _⟩ := run_spec env query
  obtain ⟨_, hcount, hreply, _, _⟩ := hg _ _ _ h
  have hm := processLocationQuery_failed hreply.symm
  refine ⟨hm, ?_⟩
  obtain ⟨e, _, he⟩ := hm
  cases post with
  | nil =>
    exfalso
    obtain ⟨pre', e', hl, hcases⟩ := run_last_event env query
    rw [h] at hl
    have := List.append_inj' hl rfl
    simp at this
    obtain ⟨_, he'⟩ := this
    subst he'
    rcases hcases with ⟨s, p, a, hev, _⟩ | ⟨q', c', f, hev, _⟩ | ⟨q', c', m', hev, _⟩
    · cases hev
    · cases hev
    · simp at hev; omega
  | cons next rest =>
    have h2 : (intelligentLocationSearch env query).log =
        (pre ++ [.ai q c rc (.failed m)]) ++ next :: rest := by simp [h]
    have hexp := hg _ _ _ h2
    cases next with
    | search s r =>
      obtain ⟨_, _, _, a, ha, _⟩ := hexp
      simp at ha
    | ai q2 c2 rc2 r2 =>
      obtain ⟨_, hcount2, _, _, hcase2⟩ := hexp
      simp at hcount2
      have hrc2 : rc2 = rc + 1 := by omega
      subst hrc2
      refine ⟨q2, c2, r2, rest, rfl, ?_⟩
      rcases hcase2 with ⟨hlt, hq2, hc2⟩ | ⟨heq, hq2, hc2⟩
      · refine Or.inl ⟨hlt, hq2, ?_⟩
        rw [hc2]
        simp only [lastErrorOf, lastAi_snoc_ai, thrownEntries_append, thrownEntries_ai,
          List.append_nil]
        rw [loopContext_some _ _ (he ▸ aiError_ne_empty e)]
      · refine Or.inr ⟨heq, hq2, ?_⟩
        rw [hc2]
        simp

theorem thrownEntries_cons_failed (l : List (Event π)) (s m : String) :
    thrownEntries (Event.search s (.failed m) :: l) = ⟨s, m⟩ :: thrownEntries l := rfl

/-- C4 (a failing candidate does not abort the loop).  For a forward search of a run that
threw with message `m` on candidate `s`: the adapter did throw there; the run goes on, either
with the search of the next candidate of the same narrative or, when `s` was its last
candidate, with a completion call whose context renders the history extended by exactly the
entry `{query: s, error: m}`; a failure object returned at the end carries the earlier entries,
then that entry, then the later ones; and an error thrown by the method is the error of the
final completion call, never the error of the search. -/
theorem failing_candidate_continues (env : Env π) (query : String)
    (pre post : List (Event π)) (s m : String)
    (h : (intelligentLocationSearch env query).log = pre ++ .search s (.failed m) :: post) :
    env.searchLocation pre s = .failed m ∧
      (∃ a next rest, lastAi pre = some (.ok a) ∧ post = next :: rest ∧
        ((∃ s' r, next = .search s' r ∧
            blockTexts pre ++ [s, s'] <+: extractLocationNames a query) ∨
          (∃ q c rc r, next = .ai q c rc r ∧
            blockTexts pre ++ [s] = extractLocationNames a query ∧
            (c = some ("Previous error: " ++ noResultsMessage (extractLocationNames a query) ++
                  ". Results so far: " ++ jsonStringify (thrownEntries pre ++ [⟨s, m⟩])) ∨
              c = some (finalContext (thrownEntries pre ++ [⟨s, m⟩])))))) ∧
      (∀ final n history,
        (intelligentLocationSearch env query).outcome = .ok (.notFound final n history) →
          history = thrownEntries pre ++ ⟨s, m⟩ :: thrownEntries post) ∧
      (∀ msg, (intelligentLocationSearch env query).outcome = .error msg →
        ∃ pre' q c, (intelligentLocationSearch env query).log =
          pre' ++ [.ai q c maxRetries (.failed msg)]) := by
  obtain ⟨hg, _⟩ := run_spec env query
  obtain ⟨_, hreply, _, a, hla, _⟩ := hg _ _ _ h
  obtain ⟨pre', e', hl, hcases⟩ := run_last_event env query
  refine ⟨hreply.symm, ?_, ?_, ?_⟩
  · cases post with
    | nil =>
      exfalso
      rw [h] at hl
      have := List.append_inj' hl rfl
      simp at this
      obtain ⟨_, he'⟩ := this
      subst he'
      rcases hcases with ⟨s, p, a, hev, _⟩ | ⟨q', c', f, hev, _⟩ | ⟨q', c', m', hev, _⟩ <;>
        cases hev
    | cons next rest =>
      refine ⟨a, next, rest, hla, rfl, ?_⟩
      have h2 : (intelligentLocationSearch env query).log =
          (pre ++ [.search s (.failed m)]) ++ next :: rest := by simp [h]
      have hexp := hg _ _ _ h2
      cases next with
      | search s' r =>
        obtain ⟨_, _, _, a', ha', hp'⟩ := hexp
        simp only [lastAi_snoc_search] at ha'
        rw [hla] at ha'
        cases ha'
        refine Or.inl ⟨s', r, rfl, ?_⟩
        simpa using hp'
      | ai q c rc r =>
        obtain ⟨_, _, _, hblock, hcase⟩ := hexp
        have hb := hblock a (by simpa using hla)
        simp only [blockTexts_snoc_search] at hb
        refine Or.inr ⟨q, c, rc, r, rfl, hb, ?_⟩
        rcases hcase with ⟨_, _, hc⟩ | ⟨_, _, hc⟩
        · left
          rw [hc]
          simp only [lastErrorOf, lastAi_snoc_search, hla, thrownEntries_append,
            thrownEntries_search_failed]
          rw [loopContext_some _ _ (noResultsMessage_ne_empty _)]
        · right
          rw [hc]
          simp
  · intro final n history ho
    rcases hcases with ⟨s, p, a, _, _, ho'⟩ | ⟨q', c', f, hev, ho'⟩ | ⟨q', c', m', _, ho'⟩
    · rw [ho'] at ho; cases ho
    · rw [ho'] at ho
      simp only [Except.ok.injEq, Outcome.notFound.injEq] at ho
      obtain ⟨_, _, hh⟩ := ho
      have : thrownEntries (intelligentLocationSearch env query).log = thrownEntries pre' := by
        rw [hl, hev]; simp
      rw [← hh, ← this, h, thrownEntries_append, thrownEntries_cons_failed]
    · rw [ho'] at ho; cases ho
  · intro msg ho
    rcases hcases with ⟨s, p, a, _, _, ho'⟩ | ⟨q', c', f, hev, ho'⟩ | ⟨q', c', m', hev, ho'⟩
    · rw [ho'] at ho; cases ho
    · rw [ho'] at ho; cases ho
    · rw [ho'] at ho
      cases ho
      exact ⟨pre', q', c', by rw [hl, hev]⟩

theorem noFound_of_post_error (env : Env π) (query : String)
    (hp : ∀ log prompt q, ∃ e, env.post log prompt q = .error e) :
    NoFound (intelligentLocationSearch env query).log := by
  obtain ⟨hg, _⟩ := run_spec env query
  intro ev hev
  cases hf : ev.isFound with
  | false => rfl
  | true =>
    exfalso
    obtain ⟨pre, post, hsplit⟩ := List.append_of_mem hev
    cases ev with
    | ai q c rc r => simp [Event.isFound] at hf
    | search s r =>
      obtain ⟨_, _, _, a, hla, _⟩ := hg _ _ _ hsplit
      obtain ⟨before, q, c, rc, tried, hdec, _, _⟩ := lastAi_decompose pre _ hla
      have hsplit2 : (intelligentLocationSearch env query).log =
          before ++ .ai q c rc (.ok a) :: (tried ++ .search s r :: post) := by
        rw [hsplit, hdec]; simp
      obtain ⟨_, _, hreply, _, _⟩ := hg _ _ _ hsplit2
      obtain ⟨e, he⟩ := hp before (getSystemPrompt rc c) q
      simp [processLocationQuery, he] at hreply

/-- C6 (the final call).  If no forward search of a run returned a place, the last call of
the run is the final completion call, made after the three completion calls of the loop with
the final query and the context `Search attempts: <JSON of the history>`; if it fails, the
method throws its `AI Service Error: ...` error, and if it succeeds the method returns the failure
object.  In particular, when every request of the completion client fails, the method throws. -/
theorem final_call (env : Env π) (query : String) :
    (NoFound (intelligentLocationSearch env query).log →
      ∃ pre reply,
        (intelligentLocationSearch env query).log =
          pre ++ [.ai (finalQuery query) (some (finalContext (thrownEntries pre)))
            maxRetries reply] ∧
        aiCount pre = maxRetries ∧
        reply = processLocationQuery env pre (finalQuery query)
          (some (finalContext (thrownEntries pre))) maxRetries ∧
        (∀ m, reply = .failed m →
          (intelligentLocationSearch env query).outcome = .error m ∧
            ∃ e, m = "AI Service Error: " ++ e) ∧
        (∀ final, reply = .ok final →
          (intelligentLocationSearch env query).outcome =
            .ok (.notFound final maxRetries (thrownEntries pre)))) ∧
      ((∀ log prompt q, ∃ e, env.post log prompt q = .error e) →
        ∃ e, (intelligentLocationSearch env query).outcome =
          .error ("AI Service Error: " ++ e)) := by
  have partA : NoFound (intelligentLocationSearch env query).log →
      ∃ pre reply,
        (intelligentLocationSearch env query).log =
          pre ++ [.ai (finalQuery query) (some (finalContext (thrownEntries pre)))
            maxRetries reply] ∧
        aiCount pre = maxRetries ∧
        reply = processLocationQuery env pre (finalQuery query)
          (some (finalContext (thrownEntries pre))) maxRetries ∧
        (∀ m, reply = .failed m →
          (intelligentLocationSearch env query).outcome = .error m ∧
            ∃ e, m = "AI Service Error: " ++ e) ∧
        (∀ final, reply = .ok final →
          (intelligentLocationSearch env query).outcome =
            .ok (.notFound final maxRetries (thrownEntries pre))) := by
    intro hnf
    obtain ⟨hg, _⟩ := run_spec env query
    obtain ⟨pre, e, hl, hcases⟩ := run_last_event env query
    have hexp := hg pre e [] hl
    have key : ∀ q c r, e = .ai q c maxRetries r →
        q = finalQuery query ∧ c = some (finalContext (thrownEntries pre)) ∧
          aiCount pre = maxRetries ∧ r = processLocationQuery env pre q c maxRetries := by
      intro q c r he
      subst he
      obtain ⟨_, hcount, hreply, _, hcase⟩ := hexp
      rcases hcase with ⟨hlt, _, _⟩ | ⟨_, hq, hc⟩
      · omega
      · exact ⟨hq, hc, hcount.symm, hreply⟩
    rcases hcases with ⟨s, p, a, hev, _⟩ | ⟨q, c, f, hev, ho⟩ | ⟨q, c, m, hev, ho⟩
    · exfalso
      have := hnf e (by rw [hl]; simp)
      rw [hev] at this
      cases this
    · obtain ⟨hq, hc, hcount, hreply⟩ := key q c _ hev
      subst hq; subst hc
      refine ⟨pre, .ok f, by rw [hl, hev], hcount, hreply, ?_, ?_⟩
      · intro m hm; cases hm
      · intro final hfinal; cases hfinal; exact ho
    · obtain ⟨hq, hc, hcount, hreply⟩ := key q c _ hev
      subst hq; subst hc
      refine ⟨pre, .failed m, by rw [hl, hev], hcount, hreply, ?_, ?_⟩
      · intro m' hm'
        cases hm'
        obtain ⟨e', _, he'⟩ := processLocationQuery_failed hreply.symm
        exact ⟨ho, e', he'⟩
      · intro final hfinal; cases hfinal
  refine ⟨partA, ?_⟩
  intro hp
  obtain ⟨pre, reply, _, _, hreply, hfail, _⟩ := partA (noFound_of_post_error env query hp)
  obtain ⟨e, he⟩ := hp pre (getSystemPrompt maxRetries (some (finalContext (thrownEntries pre))))
    (finalQuery query)
  have : reply = .failed ("AI Service Error: " ++ e) := by
    rw [hreply]; simp [processLocationQuery, he]
  exact ⟨e, (hfail _ this).1⟩

theorem trySuggestions_notFound (env : Env π)
    (hs : ∀ log s p, env.searchLocation log s ≠ .found p) :
    ∀ (cs : List String) (log : List (Event π)) (results : List SearchAttempt),
    ∃ evs, trySuggestions env cs log results = (none, log ++ evs, results ++ thrownEntries evs) ∧
      (∀ e ∈ evs, e.isAi = false) ∧ searchTexts evs = cs := by
  intro cs
  induction cs with
  | nil =>
    intro log results
    exact ⟨[], by simp [trySuggestions], by simp, rfl⟩
  | cons s rest ih =>
    intro log results
    rw [trySuggestions]
    cases hsl : env.searchLocation log s with
    | found p => exact absurd hsl (hs log s p)
    | nothing =>
      obtain ⟨evs, h1, h2, h3⟩ := ih (log ++ [.search s .nothing]) results
      refine ⟨.search s .nothing :: evs, ?_, ?_, ?_⟩
      · simp only [h1]
        simp [thrownEntries]
      · intro e he
        rcases List.mem_cons.mp he with he | he
        · subst he; rfl
        · exact h2 e he
      · rw [searchTexts_cons_search, h3]
    | failed m =>
      obtain ⟨evs, h1, h2, h3⟩ := ih (log ++ [.search s (.failed m)]) (results ++ [⟨s, m⟩])
      refine ⟨.search s (.failed m) :: evs, ?_, ?_, ?_⟩
      · simp only [h1]
        simp [thrownEntries_cons_failed]
      · intro e he
        rcases List.mem_cons.mp he with he | he
        · subst he; rfl
        · exact h2 e he
      · rw [searchTexts_cons_search, h3]

theorem processLocationQuery_ok_of_post {env : Env π}
    (ha : ∀ log prompt q, ∃ content, env.post log prompt q = .ok content)
    (log : List (Event π)) (q : String) (c : Option String) (rc : Nat) :
    ∃ content, processLocationQuery env log q c rc = .ok content := by
  obtain ⟨content, h⟩ := ha log (getSystemPrompt rc c) q
  exact ⟨content, by simp [processLocationQuery, h]⟩

theorem attemptLoop_zero (env : Env π) (query : String) (k : Nat) (st : LoopState π) :
    attemptLoop env query 0 k st = (none, st) := rfl

theorem attemptLoop_exhausted_step (env : Env π) (query : String)
    (hs : ∀ log s p, env.searchLocation log s ≠ .found p)
    (ha : ∀ log prompt q, ∃ content, env.post log prompt q = .ok content)
    (n k : Nat) (log : List (Event π)) (lastError : Option String)
    (results : List SearchAttempt) :
    ∃ a evs, (∀ e ∈ evs, e.isAi = false) ∧ searchTexts evs = extractLocationNames a query ∧
      attemptLoop env query (n + 1) (k + 1)
          { log := log, lastError := lastError, searchResults := results } =
        attemptLoop env query n (k + 2)
          { log := log ++ .ai query (loopContext lastError results) k (.ok a) :: evs,
            lastError := some (noResultsMessage (extractLocationNames a query)),
            searchResults := results ++ thrownEntries evs } := by
  obtain ⟨a, hp⟩ := processLocationQuery_ok_of_post ha log query
    (loopContext lastError results) k
  obtain ⟨evs, h1, h2, h3⟩ := trySuggestions_notFound env hs (extractLocationNames a query)
    (log ++ [.ai query (loopContext lastError results) k (.ok a)]) results
  refine ⟨a, evs, h2, h3, ?_⟩
  rw [attemptLoop]
  simp only [Nat.add_sub_cancel, hp, h1, List.append_assoc, List.singleton_append]

/-- The shape of a run in which no forward search returns a place and every completion call
succeeds: three rounds, each one completion call followed by the searches of its suggestions,
then the final completion call. -/
theorem exhausted_shape (env : Env π) (query : String)
    (hs : ∀ log s p, env.searchLocation log s ≠ .found p)
    (ha : ∀ log prompt q, ∃ content, env.post log prompt q = .ok content) :
    ∃ a1 a2 a3 final c2 c3 cf evs1 evs2 evs3,
      (intelligentLocationSearch env query).log =
        .ai query none 0 (.ok a1) :: evs1 ++ .ai query c2 1 (.ok a2) :: evs2 ++
          .ai query c3 2 (.ok a3) :: evs3 ++ [.ai (finalQuery query) cf 3 (.ok final)] ∧
      (∀ e ∈ evs1, e.isAi = false) ∧ (∀ e ∈ evs2, e.isAi = false) ∧
      (∀ e ∈ evs3, e.isAi = false) ∧
      searchTexts evs1 = extractLocationNames a1 query ∧
      searchTexts evs2 = extractLocationNames a2 query ∧
      searchTexts evs3 = extractLocationNames a3 query ∧
      (intelligentLocationSearch env query).outcome =
        .ok (.notFound final 3
          (thrownEntries evs1 ++ thrownEntries evs2 ++ thrownEntries evs3)) := by
  obtain ⟨a1, evs1, n1, t1, e1⟩ := attemptLoop_exhausted_step env query hs ha 2 0 [] none []
  obtain ⟨a2, evs2, n2, t2, e2⟩ := attemptLoop_exhausted_step env query hs ha 1 1
    ([] ++ .ai query (loopContext none []) 0 (.ok a1) :: evs1)
    (some (noResultsMessage (extractLocationNames a1 query))) ([] ++ thrownEntries evs1)
  obtain ⟨a3, evs3, n3, t3, e3⟩ := attemptLoop_exhausted_step env query hs ha 0 2
    (([] ++ .ai query (loopContext none []) 0 (.ok a1) :: evs1) ++
        .ai query (loopContext (some (noResultsMessage (extractLocationNames a1 query)))
          ([] ++ thrownEntries evs1)) 1 (.ok a2) :: evs2)
    (some (noResultsMessage (extractLocationNames a2 query)))
    (([] ++ thrownEntries evs1) ++ thrownEntries evs2)
  obtain ⟨final, hf⟩ := processLocationQuery_ok_of_post ha
    ((([] ++ .ai query (loopContext none []) 0 (.ok a1) :: evs1) ++
        .ai query (loopContext (some (noResultsMessage (extractLocationNames a1 query)))
          ([] ++ thrownEntries evs1)) 1 (.ok a2) :: evs2) ++
        .ai query (loopContext (some (noResultsMessage (extractLocationNames a2 query)))
          (([] ++ thrownEntries evs1) ++ thrownEntries evs2)) 2 (.ok a3) :: evs3)
    (finalQuery query)
    (some (finalContext ((([] ++ thrownEntries evs1) ++ thrownEntries evs2) ++
      thrownEntries evs3))) maxRetries
  have hrun : attemptLoop env query maxRetries 1
      { log := [], lastError := none, searchResults := [] } = _ :=
    e1.trans (e2.trans (e3.trans (attemptLoop_zero env query _ _)))
  refine ⟨a1, a2, a3, final,
    loopContext (some (noResultsMessage (extractLocationNames a1 query)))
      ([] ++ thrownEntries evs1),
    loopContext (some (noResultsMessage (extractLocationNames a2 query)))
      (([] ++ thrownEntries evs1) ++ thrownEntries evs2),
    some (finalContext ((([] ++ thrownEntries evs1) ++ thrownEntries evs2) ++
      thrownEntries evs3)),
    evs1, evs2, evs3, ?_, n1, n2, n3, t1, t2, t3, ?_⟩
  · unfold intelligentLocationSearch
    rw [hrun]
    dsimp only
    rw [hf]
    simp [loopContext, maxRetries]
  · unfold intelligentLocationSearch
    rw [hrun]
    dsimp only
    rw [hf]
    simp [maxRetries]

theorem filter_isAi_of_no_ai (l : List (Event π)) (h : ∀ e ∈ l, e.isAi = false) :
    l.filter Event.isAi = [] := by
  rw [List.filter_eq_nil_iff]
  intro e he
  simp [h e he]

theorem thrownEntries_map_query (l : List (Event π))
    (h : ∀ e ∈ l, ∀ s r, e = Event.search s r → ∃ m, r = .failed m) :
    (thrownEntries l).map (fun a => a.query) = searchTexts l := by
  induction l with
  | nil => rfl
  | cons e rest ih =>
    have ih' := ih (fun e he => h e (List.mem_cons_of_mem _ he))
    cases e with
    | ai q c rc r => simpa [thrownEntries, searchTexts] using ih'
    | search s r =>
      obtain ⟨m, hm⟩ := h _ (List.mem_cons_self _ _) s r rfl
      subst hm
      rw [thrownEntries_cons_failed, searchTexts_cons_search, List.map_cons, ih']

theorem run_search_replies (env : Env π) (query : String) :
    ∀ e ∈ (intelligentLocationSearch env query).log, ∀ s r, e = Event.search s r →
      ∃ pre, r = env.searchLocation pre s := by
  intro e he s r hsr
  subst hsr
  obtain ⟨pre, post, hsplit⟩ := List.append_of_mem he
  obtain ⟨_, hreply, _⟩ := (run_spec env query).1 _ _ _ hsplit
  exact ⟨pre, hreply⟩

/-- C2 (exhaustion).  If no forward search ever returns a place and every completion request
succeeds, the run makes exactly four completion calls: three in the loop, with the original
query and the retry counts 0, 1 and 2, then the final one, which is the last call of the run;
the method returns the failure object with `attempts = 3`, the narrative of the final call and
the history of the run. -/
theorem exhaustion (env : Env π) (query : String)
    (hs : ∀ log s p, env.searchLocation log s ≠ .found p)
    (ha : ∀ log prompt q, ∃ content, env.post log prompt q = .ok content) :
    ∃ a1 a2 a3 final c2 c3 cf,
      (intelligentLocationSearch env query).log.filter Event.isAi =
        [.ai query none 0 (.ok a1), .ai query c2 1 (.ok a2), .ai query c3 2 (.ok a3),
          .ai (finalQuery query) cf 3 (.ok final)] ∧
      (intelligentLocationSearch env query).log.getLast? =
        some (.ai (finalQuery query) cf 3 (.ok final)) ∧
      (intelligentLocationSearch env query).outcome =
        .ok (.notFound final 3 (thrownEntries (intelligentLocationSearch env query).log)) := by
  obtain ⟨a1, a2, a3, final, c2, c3, cf, evs1, evs2, evs3, hlog, n1, n2, n3, _, _, _, ho⟩ :=
    exhausted_shape env query hs ha
  refine ⟨a1, a2, a3, final, c2, c3, cf, ?_, ?_, ?_⟩
  · rw [hlog]
    simp [List.filter_append, List.filter_cons, Event.isAi, filter_isAi_of_no_ai _ n1,
      filter_isAi_of_no_ai _ n2, filter_isAi_of_no_ai _ n3]
  · rw [hlog]
    exact List.getLast?_concat _
  · rw [ho, hlog]
    simp [thrownEntries_append, thrownEntries]

/-- C3, amended.  If every forward search throws and every completion request succeeds, the
history returned lists one entry for each candidate tried, iteration after iteration: its
queries are the candidates of the first narrative, then those of the second, then those of
the third, and its length is the sum of the three numbers of candidates. -/
theorem history_length (env : Env π) (query : String)
    (hf : ∀ log s, ∃ m, env.searchLocation log s = .failed m)
    (ha : ∀ log prompt q, ∃ content, env.post log prompt q = .ok content) :
    ∃ a1 a2 a3 final c2 c3 cf history,
      (intelligentLocationSearch env query).log.filter Event.isAi =
        [.ai query none 0 (.ok a1), .ai query c2 1 (.ok a2), .ai query c3 2 (.ok a3),
          .ai (finalQuery query) cf 3 (.ok final)] ∧
      (intelligentLocationSearch env query).outcome = .ok (.notFound final 3 history) ∧
      history.map (fun a => a.query) =
        extractLocationNames a1 query ++ extractLocationNames a2 query ++
          extractLocationNames a3 query ∧
      history.length =
        (extractLocationNames a1 query).length + (extractLocationNames a2 query).length +
          (extractLocationNames a3 query).length := by
  have hs : ∀ log s p, env.searchLocation log s ≠ .found p := by
    intro log s p h
    obtain ⟨m, hm⟩ := hf log s
    rw [hm] at h
    cases h
  obtain ⟨a1, a2, a3, final, c2, c3, cf, evs1, evs2, evs3, hlog, n1, n2, n3, t1, t2, t3, ho⟩ :=
    exhausted_shape env query hs ha
  have hfail : ∀ e ∈ (intelligentLocationSearch env query).log, ∀ s r,
      e = Event.search s r → ∃ m, r = .failed m := by
    intro e he s r hsr
    obtain ⟨pre, hpre⟩ := run_search_replies env query e he s r hsr
    obtain ⟨m, hm⟩ := hf pre s
    exact ⟨m, hpre.trans hm⟩
  have hmap := thrownEntries_map_query _ hfail
  have hte : thrownEntries (intelligentLocationSearch env query).log =
      thrownEntries evs1 ++ thrownEntries evs2 ++ thrownEntries evs3 := by
    rw [hlog]
    simp [thrownEntries_append, thrownEntries]
  have hst : searchTexts (intelligentLocationSearch env query).log =
      extractLocationNames a1 query ++ extractLocationNames a2 query ++
        extractLocationNames a3 query := by
    rw [hlog]
    simp [searchTexts_append, searchTexts_cons_ai, t1, t2, t3]
    simp [searchTexts]
  have hq : (thrownEntries evs1 ++ thrownEntries evs2 ++ thrownEntries evs3).map
      (fun a => a.query) =
      extractLocationNames a1 query ++ extractLocationNames a2 query ++
        extractLocationNames a3 query := by
    rw [← hte, hmap, hst]
  refine ⟨a1, a2, a3, final, c2, c3, cf, _, ?_, ho, hq, ?_⟩
  · rw [hlog]
    simp [List.filter_append, List.filter_cons, Event.isAi, filter_isAi_of_no_ai _ n1,
      filter_isAi_of_no_ai _ n2, filter_isAi_of_no_ai _ n3]
  · have := congrArg List.length hq
    simp only [List.length_map, List.length_append] at this ⊢
    omega

/-- Counterexample to C3 as stated: with the stub that never finds anything, the query `abc`
is the only candidate of each of the three iterations; the returned history has three entries,
while only one distinct string was tried. -/
theorem history_length_counterexample :
    (intelligentLocationSearch stubNothingFound "abc").outcome =
        .ok (.notFound "maaf" 3 [⟨"abc", "not found"⟩, ⟨"abc", "not found"⟩, ⟨"abc", "not found"⟩]) ∧
      searchTexts (intelligentLocationSearch stubNothingFound "abc").log =
        ["abc", "abc", "abc"] ∧
      ([⟨"abc", "not found"⟩, ⟨"abc", "not found"⟩, ⟨"abc", "not found"⟩] : List SearchAttempt).length = 3 ∧
      (newSet (searchTexts (intelligentLocationSearch stubNothingFound "abc").log)).length =
        1 := by
  decide

/-- Witness of C2: the stub in which every forward search throws and every completion call
succeeds. -/
theorem exhaustion_witness :
    (∀ log s p, stubNothingFound.searchLocation log s ≠ .found p) ∧
      (∀ log prompt q, ∃ content, stubNothingFound.post log prompt q = .ok content) ∧
      ∃ a1 a2 a3 final c2 c3 cf,
        (intelligentLocationSearch stubNothingFound "abc").log.filter Event.isAi =
          [.ai "abc" none 0 (.ok a1), .ai "abc" c2 1 (.ok a2), .ai "abc" c3 2 (.ok a3),
            .ai (finalQuery "abc") cf 3 (.ok final)] ∧
        (intelligentLocationSearch stubNothingFound "abc").log.getLast? =
          some (.ai (finalQuery "abc") cf 3 (.ok final)) ∧
        (intelligentLocationSearch stubNothingFound "abc").outcome =
          .ok (.notFound final 3
            (thrownEntries (intelligentLocationSearch stubNothingFound "abc").log)) :=
  ⟨(fun _ _ _ h => by cases h), (fun _ _ _ => ⟨"maaf", rfl⟩),
    exhaustion stubNothingFound "abc" (fun _ _ _ h => by cases h) (fun _ _ _ => ⟨"maaf", rfl⟩)⟩

theorem newSet_fold_nodup (xs acc : List String) (h : acc.Nodup) :
    (xs.foldl (fun acc s => if s ∈ acc then acc else acc ++ [s]) acc).Nodup := by
  induction xs generalizing acc with
  | nil => simpa using h
  | cons x xs ih =>
    simp only [List.foldl_cons]
    apply ih
    split
    · exact h
    · rename_i hx
      rw [List.nodup_append]
      refine ⟨h, by simp, ?_⟩
      intro a ha hb
      simp at hb
      subst hb
      exact hx ha

theorem newSet_nodup (xs : List String) : (newSet xs).Nodup :=
  newSet_fold_nodup xs [] List.nodup_nil

/-- C8 (bounds of the candidate list).  For every narrative and every original query the
list returned by `extractLocationNames` has at most five entries, has no two equal entries,
and each entry has a `length` (in UTF-16 code units, as JavaScript counts) above two. -/
theorem extractLocationNames_bounded (aiResponse originalQuery : String) :
    (extractLocationNames aiResponse originalQuery).length ≤ 5 ∧
    (extractLocationNames aiResponse originalQuery).Nodup ∧
    ∀ s ∈ extractLocationNames aiResponse originalQuery, 2 < jsLength s := by
  refine ⟨?_, ?_, ?_⟩
  · unfold extractLocationNames
    exact List.length_take_le _ _
  · unfold extractLocationNames
    exact ((newSet_nodup _).filter _).sublist (List.take_sublist _ _)
  · intro s hs
    unfold extractLocationNames at hs
    have := List.mem_of_mem_take hs
    simpa using (List.mem_filter.mp this).2

theorem matchRe_cls_cons (p : Char → Bool) (prev : Option Char) (c : Char) (cs : List Char)
    (caps : List (Nat × List Char)) (k : MState → Option MState) :
    matchRe (.cls p) ⟨prev, c :: cs, caps⟩ k =
      if p c then k ⟨some c, cs, caps⟩ else none := by
  rw [matchRe]

theorem matchRe_cls_nil (p : Char → Bool) (prev : Option Char)
    (caps : List (Nat × List Char)) (k : MState → Option MState) :
    matchRe (.cls p) ⟨prev, [], caps⟩ k = none := by
  rw [matchRe]

theorem matchRe_seq (a b : Re) (st : MState) (k : MState → Option MState) :
    matchRe (.seq a b) st k = matchRe a st (fun st' => matchRe b st' k) := by
  rw [matchRe]

theorem matchRe_group (n : Nat) (a : Re) (st : MState) (k : MState → Option MState) :
    matchRe (.group n a) st k =
      matchRe a st (fun st' =>
        k { st' with caps := (n, st.rest.take (st.rest.length - st'.rest.length)) :: st'.caps }) := by
  rw [matchRe]

theorem matchRe_star (a : Re) (st : MState) (k : MState → Option MState) :
    matchRe (.star a) st k = iterStar (matchRe a) st.rest.length st k := by
  rw [matchRe]

theorem matchRe_eps (st : MState) (k : MState → Option MState) :
    matchRe .eps st k = k st := by
  rw [matchRe]

theorem iterStar_cls_greedy (p : Char → Bool) (k : MState → Option MState) (Q : MState → Prop)
    (rest : List Char) (caps : List (Nat × List Char))
    (hrest : ∀ c rest', rest = c :: rest' → p c = false)
    (hk : ∀ prev, ∃ r, k ⟨prev, rest, caps⟩ = some r ∧ Q r) :
    ∀ (run : List Char) (prev : Option Char) (n : Nat), (∀ c ∈ run, p c = true) →
      run.length ≤ n →
      ∃ r, iterStar (matchRe (.cls p)) n ⟨prev, run ++ rest, caps⟩ k = some r ∧ Q r := by
  intro run
  induction run with
  | nil =>
    intro prev n _ _
    obtain ⟨r, hr, hq⟩ := hk prev
    refine ⟨r, ?_, hq⟩
    cases n with
    | zero => simpa [iterStar] using hr
    | succ n =>
      cases rest with
      | nil => simpa [iterStar, matchRe_cls_nil] using hr
      | cons c rest' =>
        have := hrest c rest' rfl
        simpa [iterStar, matchRe_cls_cons, this] using hr
  | cons c run' ih =>
    intro prev n hall hlen
    cases n with
    | zero => simp at hlen
    | succ n =>
      have hc : p c = true := hall c (List.mem_cons_self _ _)
      obtain ⟨r, hr, hq⟩ := ih (some c) n (fun x hx => hall x (List.mem_cons_of_mem _ hx))
        (by simpa using hlen)
      refine ⟨r, ?_, hq⟩
      simp only [iterStar, List.cons_append, matchRe_cls_cons, hc, if_true, List.length_cons,
        Nat.lt_succ_self, hr]

theorem matchAt_quotedRe_other (prev : Option Char) (c : Char) (cs : List Char)
    (hc : c ≠ '"') : matchAt quotedRe prev (c :: cs) = none := by
  simp [matchAt, quotedRe, Re.cat, Re.chr, matchRe_seq, matchRe_cls_cons, hc]

theorem matchAt_quotedRe_phrase (prev : Option Char) (w rest : List Char)
    (hw : '"' ∉ w) (hne : w ≠ []) :
    ∃ st, matchAt quotedRe prev ('"' :: w ++ '"' :: rest) = some st ∧ st.rest = rest := by
  cases w with
  | nil => exact absurd rfl hne
  | cons c w' =>
    have hc : c ≠ '"' := fun h => hw (by simp [h])
    have hw' : ∀ x ∈ w', (!decide (x = '"')) = true := by
      intro x hx
      have : x ≠ '"' := fun h => hw (by rw [← h]; exact List.mem_cons_of_mem _ hx)
      simp [this]
    simp only [matchAt, quotedRe, Re.cat, Re.chr, Re.plus, Re.noneOf, matchRe_seq,
      matchRe_group, matchRe_star, matchRe_eps, List.cons_append, matchRe_cls_cons]
    simp [hc]
    apply iterStar_cls_greedy (fun x => !decide (x = '"')) _ (fun st => st.rest = rest)
      ('"' :: rest) [] _ _ w' (some c) _ hw' (by omega)
    · intro c' rest' h
      simp only [List.cons.injEq] at h
      simp [← h.1]
    · intro prev'
      simp [matchRe_cls_cons]

theorem matchAllFrom_skip (re : Re) (ys : List Char) :
    ∀ (xs : List Char) (prev : Option Char),
      ∃ prev', matchAllFrom re xs.length prev (xs ++ ys) = matchAllFrom re 0 prev' ys := by
  intro xs
  induction xs with
  | nil => intro prev; exact ⟨prev, rfl⟩
  | cons x xs ih =>
    intro prev
    obtain ⟨prev', h⟩ := ih (some x)
    exact ⟨prev', by simpa [matchAllFrom] using h⟩

/-- A quoted phrase after text without quotes is the next match of the quote pattern, and
the scan goes on behind its closing quote. -/
theorem matchAllFrom_quotedRe_block (w rest : List Char) (hw : '"' ∉ w) (hne : w ≠ []) :
    ∀ (g : List Char) (prev : Option Char), '"' ∉ g →
      ∃ prev', matchAllFrom quotedRe 0 prev (g ++ '"' :: w ++ '"' :: rest) =
        ('"' :: w ++ ['"']) :: matchAllFrom quotedRe 0 prev' rest := by
  intro g
  induction g with
  | nil =>
    intro prev _
    obtain ⟨st, hst, hrest⟩ := matchAt_quotedRe_phrase prev w rest hw hne
    obtain ⟨prev', hskip⟩ := matchAllFrom_skip quotedRe rest (w ++ ['"']) (some '"')
    refine ⟨prev', ?_⟩
    simp only [List.nil_append, List.cons_append] at hst ⊢
    rw [matchAllFrom, hst]
    simp only [hrest, List.length_cons, List.length_append]
    have h1 : (w.length + (rest.length + 1) + 1 - rest.length) = w.length + 2 := by omega
    have h2 : w.length + 2 - 1 = (w ++ ['"']).length := by simp
    rw [h1, h2]
    have h3 : w ++ '"' :: rest = (w ++ ['"']) ++ rest := by simp
    rw [h3, hskip]
    congr 1
    simp [List.take_append_eq_append_take]
  | cons c g ih =>
    intro prev hg
    have hc : c ≠ '"' := fun h => hg (by simp [h])
    obtain ⟨prev', h⟩ := ih (some c) (fun h => hg (List.mem_cons_of_mem _ h))
    refine ⟨prev', ?_⟩
    simp only [List.cons_append] at h ⊢
    rw [matchAllFrom, matchAt_quotedRe_other prev c _ hc]
    exact h

theorem matchAllFrom_quotedRe_blocks (tail : List Char) :
    ∀ (blocks : List (List Char × List Char)) (prev : Option Char),
      (∀ b ∈ blocks, '"' ∉ b.1 ∧ '"' ∉ b.2 ∧ b.2 ≠ []) →
      ∃ prev', matchAllFrom quotedRe 0 prev (quotedText blocks ++ tail) =
        blocks.map (fun b => '"' :: b.2 ++ ['"']) ++ matchAllFrom quotedRe 0 prev' tail := by
  intro blocks
  induction blocks with
  | nil => intro prev _; exact ⟨prev, rfl⟩
  | cons b bs ih =>
    intro prev hb
    obtain ⟨h1, h2, h3⟩ := hb b (List.mem_cons_self _ _)
    obtain ⟨p1, e1⟩ := matchAllFrom_quotedRe_block b.2 (quotedText bs ++ tail) h2 h3 b.1 prev h1
    obtain ⟨p2, e2⟩ := ih p1 (fun x hx => hb x (List.mem_cons_of_mem _ hx))
    refine ⟨p2, ?_⟩
    have : quotedText (b :: bs) ++ tail =
        b.1 ++ '"' :: b.2 ++ '"' :: (quotedText bs ++ tail) := by
      simp [quotedText]
    rw [this, e1, e2]
    simp

theorem matchAt_quoteRe (prev : Option Char) (c : Char) (cs : List Char) :
    matchAt quoteRe prev (c :: cs) = if c = '"' then some ⟨some c, cs, []⟩ else none := by
  simp [matchAt, quoteRe, Re.chr, matchRe_cls_cons]

theorem removeAllFrom_quoteRe (s : List Char) :
    ∀ prev, removeAllFrom quoteRe 0 prev s = s.filter (fun c => c != '"') := by
  induction s with
  | nil => intro prev; rfl
  | cons c cs ih =>
    intro prev
    rw [removeAllFrom, matchAt_quoteRe]
    by_cases hc : c = '"'
    · subst hc
      simp [ih]
    · simp [ih, hc]

theorem strip_quotes (w : List Char) (hw : '"' ∉ w) :
    removeAllFrom quoteRe 0 none ('"' :: w ++ ['"']) = w := by
  rw [removeAllFrom_quoteRe]
  simp only [List.cons_append, List.filter_cons, List.filter_append]
  simp only [bne_self_eq_false, Bool.false_eq_true, if_false, List.filter_nil, List.append_nil]
  rw [List.filter_eq_self]
  intro x hx
  have : x ≠ '"' := fun h => hw (h ▸ hx)
  simp [this]

theorem foldl_pushCleaned_append (ms : List (List Char)) :
    ∀ init : List String, ∃ extra, ms.foldl pushCleaned init = init ++ extra := by
  induction ms with
  | nil => intro init; exact ⟨[], by simp⟩
  | cons m ms ih =>
    intro init
    obtain ⟨extra, h⟩ := ih (pushCleaned init m)
    obtain ⟨e0, h0⟩ : ∃ e0, pushCleaned init m = init ++ e0 := by
      unfold pushCleaned
      simp only
      split
      · exact ⟨[_], rfl⟩
      · exact ⟨[], by simp⟩
    exact ⟨e0 ++ extra, by rw [List.foldl_cons, h, h0, List.append_assoc]⟩

theorem applyPattern_append (a : String) (init : List String) (pattern : Re) :
    ∃ extra, applyPattern a init pattern = init ++ extra := by
  unfold applyPattern
  split
  · exact foldl_pushCleaned_append _ init
  · exact ⟨[], by simp⟩

theorem foldl_applyPattern_append (a : String) (pats : List Re) :
    ∀ init : List String, ∃ extra, pats.foldl (applyPattern a) init = init ++ extra := by
  induction pats with
  | nil => intro init; exact ⟨[], by simp⟩
  | cons p ps ih =>
    intro init
    obtain ⟨e1, h1⟩ := applyPattern_append a init p
    obtain ⟨e2, h2⟩ := ih (applyPattern a init p)
    exact ⟨e1 ++ e2, by rw [List.foldl_cons, h2, h1, List.append_assoc]⟩

theorem newSet_fold_append (xs : List String) :
    ∀ acc : List String,
      ∃ extra, xs.foldl (fun acc s => if s ∈ acc then acc else acc ++ [s]) acc = acc ++ extra := by
  induction xs with
  | nil => intro acc; exact ⟨[], by simp⟩
  | cons x xs ih =>
    intro acc
    simp only [List.foldl_cons]
    split
    · exact ih acc
    · obtain ⟨extra, h⟩ := ih (acc ++ [x])
      exact ⟨x :: extra, by simp [h]⟩

theorem newSet_fold_mem (xs : List String) :
    ∀ (acc : List String) (x : String), x ∈ acc ∨ x ∈ xs →
      x ∈ xs.foldl (fun acc s => if s ∈ acc then acc else acc ++ [s]) acc := by
  induction xs with
  | nil => intro acc x h; simpa using h
  | cons y ys ih =>
    intro acc x h
    simp only [List.foldl_cons]
    apply ih
    rcases h with h | h
    · left
      split
      · exact h
      · exact List.mem_append_left _ h
    · rcases List.mem_cons.mp h with h | h
      · left
        subst h
        split
        · assumption
        · simp
      · right; exact h

theorem newSet_fold_length (xs : List String) :
    ∀ acc : List String,
      (xs.foldl (fun acc s => if s ∈ acc then acc else acc ++ [s]) acc).length ≤
        acc.length + xs.length := by
  induction xs with
  | nil => intro acc; simp
  | cons x xs ih =>
    intro acc
    simp only [List.foldl_cons, List.length_cons]
    split
    · have := ih acc; omega
    · have := ih (acc ++ [x]); simp at this; omega

/-- One of the first five raw suggestions, if longer than two code units, is among the
names returned. -/
theorem mem_extract_of_mem_take (a q x : String) (hx : x ∈ (rawSuggestions a q).take 5)
    (hlen : 2 < jsLength x) : x ∈ extractLocationNames a q := by
  unfold extractLocationNames
  have hsplit : rawSuggestions a q = (rawSuggestions a q).take 5 ++ (rawSuggestions a q).drop 5 :=
    (List.take_append_drop 5 _).symm
  obtain ⟨extra, hextra⟩ := newSet_fold_append ((rawSuggestions a q).drop 5)
    (newSet ((rawSuggestions a q).take 5))
  have hns : newSet (rawSuggestions a q) = newSet ((rawSuggestions a q).take 5) ++ extra := by
    conv_lhs => rw [hsplit]
    unfold newSet
    rw [List.foldl_append]
    exact hextra
  rw [hns, List.filter_append]
  have hmem : x ∈ (newSet ((rawSuggestions a q).take 5)).filter (fun s => 2 < jsLength s) := by
    rw [List.mem_filter]
    exact ⟨newSet_fold_mem _ [] x (Or.inr hx), by simpa using hlen⟩
  have hle : ((newSet ((rawSuggestions a q).take 5)).filter (fun s => 2 < jsLength s)).length
      ≤ 5 := by
    have h1 := List.length_filter_le (fun s => decide (2 < jsLength s))
      (newSet ((rawSuggestions a q).take 5))
    have h2 : (newSet ((rawSuggestions a q).take 5)).length ≤
        0 + ((rawSuggestions a q).take 5).length :=
      newSet_fold_length ((rawSuggestions a q).take 5) []
    have h3 := List.length_take_le 5 (rawSuggestions a q)
    omega
  rw [List.take_append_eq_append_take, List.take_of_length_le hle]
  exact List.mem_append_left _ hmem

theorem rawSuggestions_start (a q : String) (ms : List (List Char))
    (h : matchAll quotedRe a.data = some ms) :
    ∃ extra, rawSuggestions a q =
      (q :: ms.map (fun m => (⟨removeAllFrom quoteRe 0 none m⟩ : String))) ++ extra := by
  unfold rawSuggestions
  rw [h]
  exact foldl_applyPattern_append a locationPatterns _

/-- C9, amended.  Let the narrative consist of at most three blocks, each a quote-free
stretch followed by a non-empty quote-free phrase between double quotes, then a quote-free
stretch, then the phrase `p` between double quotes, then anything.  If `p` contains no double
quote and both `p` and the original query `q` are longer than two code units, the list
returned by `extractLocationNames` contains `p` without its quotes and contains `q`. -/
theorem quoted_phrase_extracted (narrative q p : String)
    (blocks : List (List Char × List Char)) (g post : List Char)
    (hnarr : narrative.data = quotedText blocks ++ (g ++ '"' :: p.data ++ '"' :: post))
    (hblocks : ∀ b ∈ blocks, '"' ∉ b.1 ∧ '"' ∉ b.2 ∧ b.2 ≠ [])
    (hcount : blocks.length ≤ 3) (hg : '"' ∉ g) (hp : '"' ∉ p.data)
    (hq : 2 < jsLength q) (hplen : 2 < jsLength p) :
    p ∈ extractLocationNames narrative q ∧ q ∈ extractLocationNames narrative q := by
  have hpne : p.data ≠ [] := by
    intro h
    have : jsLength p = 0 := by simp [jsLength, h]
    omega
  obtain ⟨p1, e1⟩ := matchAllFrom_quotedRe_blocks (g ++ '"' :: p.data ++ '"' :: post) blocks
    none hblocks
  obtain ⟨p2, e2⟩ := matchAllFrom_quotedRe_block p.data post hp hpne g p1 hg
  have hms : matchAll quotedRe narrative.data =
      some (blocks.map (fun b => '"' :: b.2 ++ ['"']) ++
        (('"' :: p.data ++ ['"']) :: matchAllFrom quotedRe 0 p2 post)) := by
    unfold matchAll
    rw [hnarr, e1, e2]
    cases blocks <;> simp
  obtain ⟨extra, hraw⟩ := rawSuggestions_start narrative q _ hms
  have hstrip : (⟨removeAllFrom quoteRe 0 none ('"' :: p.data ++ ['"'])⟩ : String) = p := by
    rw [strip_quotes p.data hp]
  constructor
  · apply mem_extract_of_mem_take _ _ _ _ hplen
    rw [hraw]
    simp only [List.map_append, List.map_cons, hstrip, List.map_map]
    rw [List.take_append_eq_append_take]
    apply List.mem_append_left
    rw [List.take_succ_cons, List.take_append_eq_append_take]
    apply List.mem_cons_of_mem
    apply List.mem_append_right
    have hl : 4 - (List.map ((fun m => (⟨removeAllFrom quoteRe 0 none m⟩ : String)) ∘
        fun b => '"' :: b.2 ++ ['"']) blocks).length = (3 - blocks.length) + 1 := by
      simp only [List.length_map]; omega
    rw [hl, List.take_succ_cons]
    exact List.mem_cons_self _ _
  · apply mem_extract_of_mem_take _ _ _ _ hq
    rw [hraw]
    simp

/-- Witness of C1: the stub succeeds on the second candidate of the first iteration. -/
theorem short_circuit_witness :
    (intelligentLocationSearch stubSecondCandidate "monas").log =
        [.ai "monas" none 0 (.ok "coba \"Monas Jakarta\" saja"),
          .search "monas" (.failed "Location \"monas\" not found")] ++
          .search "Monas Jakarta" (.found 7) :: [] ∧
      (([] : List (Event Nat)) = [] ∧
        NoFound [(.ai "monas" none 0 (.ok "coba \"Monas Jakarta\" saja") : Event Nat),
          .search "monas" (.failed "Location \"monas\" not found")] ∧
        stubSecondCandidate.searchLocation
          [.ai "monas" none 0 (.ok "coba \"Monas Jakarta\" saja"),
            .search "monas" (.failed "Location \"monas\" not found")] "Monas Jakarta" =
          .found 7 ∧
        ∃ before ctx a tried,
          [(.ai "monas" none 0 (.ok "coba \"Monas Jakarta\" saja") : Event Nat),
            .search "monas" (.failed "Location \"monas\" not found")] =
            before ++ .ai "monas" ctx (aiCount before) (.ok a) :: tried ∧
          aiCount before < maxRetries ∧
          (∀ e ∈ tried, e.isAi = false) ∧
          searchTexts tried ++ ["Monas Jakarta"] =
            (extractLocationNames a "monas").take (tried.length + 1) ∧
          (aiCount before = 0 →
            (searchTexts (intelligentLocationSearch stubSecondCandidate "monas").log).length =
              tried.length + 1) ∧
          (intelligentLocationSearch stubSecondCandidate "monas").outcome =
            .ok (.found 7 a (aiCount before + 1) "Monas Jakarta")) :=
  ⟨by decide, short_circuit stubSecondCandidate "monas" _ [] "Monas Jakarta" 7 (by decide)⟩

/-- Witness of the amended C3. -/
theorem history_length_witness :
    (∀ log s, ∃ m, stubNothingFound.searchLocation log s = .failed m) ∧
      (∀ log prompt q, ∃ content, stubNothingFound.post log prompt q = .ok content) ∧
      ∃ a1 a2 a3 final c2 c3 cf history,
        (intelligentLocationSearch stubNothingFound "abc").log.filter Event.isAi =
          [.ai "abc" none 0 (.ok a1), .ai "abc" c2 1 (.ok a2), .ai "abc" c3 2 (.ok a3),
            .ai (finalQuery "abc") cf 3 (.ok final)] ∧
        (intelligentLocationSearch stubNothingFound "abc").outcome =
          .ok (.notFound final 3 history) ∧
        history.map (fun a => a.query) =
          extractLocationNames a1 "abc" ++ extractLocationNames a2 "abc" ++
            extractLocationNames a3 "abc" ∧
        history.length =
          (extractLocationNames a1 "abc").length + (extractLocationNames a2 "abc").length +
            (extractLocationNames a3 "abc").length :=
  ⟨(fun _ _ => ⟨"not found", rfl⟩), (fun _ _ _ => ⟨"maaf", rfl⟩),
    history_length stubNothingFound "abc" (fun _ _ => ⟨"not found", rfl⟩) (fun _ _ _ => ⟨"maaf", rfl⟩)⟩

/-- Witness of C4: the first candidate of the stub run throws, the second is tried next. -/
theorem failing_candidate_continues_witness :
    (intelligentLocationSearch stubSecondCandidate "monas").log =
        [.ai "monas" none 0 (.ok "coba \"Monas Jakarta\" saja")] ++
          .search "monas" (.failed "Location \"monas\" not found") ::
            [.search "Monas Jakarta" (.found 7)] ∧
      (stubSecondCandidate.searchLocation
          [.ai "monas" none 0 (.ok "coba \"Monas Jakarta\" saja")] "monas" =
          .failed "Location \"monas\" not found" ∧
        (∃ a next rest,
          lastAi [(.ai "monas" none 0 (.ok "coba \"Monas Jakarta\" saja") : Event Nat)] =
            some (.ok a) ∧
          [(.search "Monas Jakarta" (.found 7) : Event Nat)] = next :: rest ∧
          ((∃ s' r, next = .search s' r ∧
              blockTexts [(.ai "monas" none 0 (.ok "coba \"Monas Jakarta\" saja") : Event Nat)] ++
                ["monas", s'] <+: extractLocationNames a "monas") ∨
            (∃ q c rc r, next = .ai q c rc r ∧
              blockTexts [(.ai "monas" none 0 (.ok "coba \"Monas Jakarta\" saja") : Event Nat)] ++
                ["monas"] = extractLocationNames a "monas" ∧
              (c = some ("Previous error: " ++ noResultsMessage (extractLocationNames a "monas") ++
                    ". Results so far: " ++
                    jsonStringify
                      (thrownEntries
                          [(.ai "monas" none 0 (.ok "coba \"Monas Jakarta\" saja") : Event Nat)] ++
                        [⟨"monas", "Location \"monas\" not found"⟩])) ∨
                c = some (finalContext
                  (thrownEntries
                      [(.ai "monas" none 0 (.ok "coba \"Monas Jakarta\" saja") : Event Nat)] ++
                    [⟨"monas", "Location \"monas\" not found"⟩])))))) ∧
        (∀ final n history,
          (intelligentLocationSearch stubSecondCandidate "monas").outcome =
              .ok (.notFound final n history) →
            history =
              thrownEntries
                  [(.ai "monas" none 0 (.ok "coba \"Monas Jakarta\" saja") : Event Nat)] ++
                ⟨"monas", "Location \"monas\" not found"⟩ ::
                  thrownEntries [(.search "Monas Jakarta" (.found 7) : Event Nat)]) ∧
        (∀ msg, (intelligentLocationSearch stubSecondCandidate "monas").outcome = .error msg →
          ∃ pre' q c, (intelligentLocationSearch stubSecondCandidate "monas").log =
            pre' ++ [.ai q c maxRetries (.failed msg)])) :=
  ⟨by decide,
    failing_candidate_continues stubSecondCandidate "monas" _ _ "monas"
      "Location \"monas\" not found" (by decide)⟩

/-- Counterexample to C5 as stated: when every completion request fails with `boom`, the call
of the third iteration fails and the call after it is the final call, whose context
`Search attempts: []` does not carry the message of that error. -/
theorem ai_failure_context_counterexample :
    (intelligentLocationSearch stubAiDown "abc").log =
        [.ai "abc" none 0 (.failed "AI Service Error: boom"),
          .ai "abc" (some "Previous error: AI Service Error: boom. Results so far: []") 1
            (.failed "AI Service Error: boom"),
          .ai "abc" (some "Previous error: AI Service Error: boom. Results so far: []") 2
            (.failed "AI Service Error: boom"),
          .ai (finalQuery "abc") (some "Search attempts: []") 3
            (.failed "AI Service Error: boom")] ∧
      jsIncludes "Search attempts: []" "AI Service Error: boom" = false ∧
      jsIncludes "Search attempts: []" "boom" = false := by
  decide

/-- Witness of the amended C5. -/
theorem ai_failure_continues_witness :
    (intelligentLocationSearch stubAiDown "abc").log =
        [] ++ .ai "abc" none 0 (.failed "AI Service Error: boom") ::
          (intelligentLocationSearch stubAiDown "abc").log.drop 1 ∧
      0 < maxRetries ∧
      ((∃ e, stubAiDown.post [] (getSystemPrompt 0 none) "abc" = .error e ∧
          "AI Service Error: boom" = "AI Service Error: " ++ e) ∧
        ∃ q2 c2 r2 rest,
          (intelligentLocationSearch stubAiDown "abc").log.drop 1 =
            .ai q2 c2 (0 + 1) r2 :: rest ∧
          ((0 + 1 < maxRetries ∧ q2 = "abc" ∧
              c2 = some ("Previous error: " ++ "AI Service Error: boom" ++
                ". Results so far: " ++ jsonStringify (thrownEntries ([] : List (Event Nat))))) ∨
            (0 + 1 = maxRetries ∧ q2 = finalQuery "abc" ∧
              c2 = some (finalContext (thrownEntries ([] : List (Event Nat))))))) :=
  ⟨by decide, by decide,
    ai_failure_continues stubAiDown "abc" [] _ "abc" none 0 "AI Service Error: boom"
      (by decide) (by decide)⟩

/-- Witness of C6. -/
theorem final_call_witness :
    NoFound (intelligentLocationSearch stubAiDown "abc").log ∧
      (∀ log prompt q, ∃ e, stubAiDown.post log prompt q = .error e) ∧
      (∃ pre reply,
        (intelligentLocationSearch stubAiDown "abc").log =
          pre ++ [.ai (finalQuery "abc") (some (finalContext (thrownEntries pre)))
            maxRetries reply] ∧
        aiCount pre = maxRetries ∧
        reply = processLocationQuery stubAiDown pre (finalQuery "abc")
          (some (finalContext (thrownEntries pre))) maxRetries ∧
        (∀ m, reply = .failed m →
          (intelligentLocationSearch stubAiDown "abc").outcome = .error m ∧
            ∃ e, m = "AI Service Error: " ++ e) ∧
        (∀ final, reply = .ok final →
          (intelligentLocationSearch stubAiDown "abc").outcome =
            .ok (.notFound final maxRetries (thrownEntries pre)))) ∧
      ∃ e, (intelligentLocationSearch stubAiDown "abc").outcome =
        .error ("AI Service Error: " ++ e) :=
  ⟨(by unfold NoFound; decide), (fun _ _ _ => ⟨"boom", rfl⟩),
    (final_call stubAiDown "abc").1 (by unfold NoFound; decide),
    (final_call stubAiDown "abc").2 (fun _ _ _ => ⟨"boom", rfl⟩)⟩

/-- Witness of C7: the second completion call of a run in which nothing is found. -/
theorem ai_call_arguments_witness :
    (intelligentLocationSearch stubNothingFound "abc").log =
        [.ai "abc" none 0 (.ok "maaf"), .search "abc" (.failed "not found")] ++
          .ai "abc"
            (some ("Previous error: No results found for suggestions: abc. Results so far: " ++
              "[\x7b\"query\":\"abc\",\"error\":\"not found\"\x7d]")) 1 (.ok "maaf") ::
          (intelligentLocationSearch stubNothingFound "abc").log.drop 3 ∧
      1 < maxRetries ∧
      (1 = aiCount [(.ai "abc" none 0 (.ok "maaf") : Event Nat), .search "abc" (.failed "not found")] ∧
        "abc" = "abc" ∧
        AiReply.ok "maaf" = processLocationQuery stubNothingFound
          [.ai "abc" none 0 (.ok "maaf"), .search "abc" (.failed "not found")] "abc"
          (some ("Previous error: No results found for suggestions: abc. Results so far: " ++
            "[\x7b\"query\":\"abc\",\"error\":\"not found\"\x7d]")) 1 ∧
        (1 = 0 →
          some ("Previous error: No results found for suggestions: abc. Results so far: " ++
            "[\x7b\"query\":\"abc\",\"error\":\"not found\"\x7d]") = none) ∧
        (0 < 1 → ∃ summary,
          some ("Previous error: No results found for suggestions: abc. Results so far: " ++
              "[\x7b\"query\":\"abc\",\"error\":\"not found\"\x7d]") =
            some ("Previous error: " ++ summary ++ ". Results so far: " ++
              jsonStringify (thrownEntries
                [(.ai "abc" none 0 (.ok "maaf") : Event Nat), .search "abc" (.failed "not found")])) ∧
          (lastAi [(.ai "abc" none 0 (.ok "maaf") : Event Nat), .search "abc" (.failed "not found")] =
              some (.failed summary) ∨
            ∃ a,
              lastAi [(.ai "abc" none 0 (.ok "maaf") : Event Nat), .search "abc" (.failed "not found")] =
                some (.ok a) ∧
              blockTexts [(.ai "abc" none 0 (.ok "maaf") : Event Nat), .search "abc" (.failed "not found")] =
                extractLocationNames a "abc" ∧
              summary = noResultsMessage (extractLocationNames a "abc")))) :=
  ⟨by decide, by decide,
    ai_call_arguments stubNothingFound "abc"
      [.ai "abc" none 0 (.ok "maaf"), .search "abc" (.failed "not found")]
      ((intelligentLocationSearch stubNothingFound "abc").log.drop 3) "abc" _ 1 (.ok "maaf")
      (by decide) (by decide)⟩

/-- Counterexample to C9 as stated: the narrative quotes `Warung Sate Pak Budi`, but the
original query `ab` has only two characters and is filtered out of the list returned. -/
theorem quoted_phrase_counterexample :
    extractLocationNames "lihat \"Warung Sate Pak Budi\" ya" "ab" = ["Warung Sate Pak Budi"] ∧
      List.elem "ab" (extractLocationNames "lihat \"Warung Sate Pak Budi\" ya" "ab") = false := by
  decide

/-- Witness of the amended C9. -/
theorem quoted_phrase_extracted_witness :
    ("lihat \"Warung Sate Pak Budi\" ya" : String).data =
        quotedText [] ++ ("lihat ".data ++ '"' :: "Warung Sate Pak Budi".data ++ '"' :: " ya".data) ∧
      ("Warung Sate Pak Budi" ∈ extractLocationNames "lihat \"Warung Sate Pak Budi\" ya" "sate" ∧
        "sate" ∈ extractLocationNames "lihat \"Warung Sate Pak Budi\" ya" "sate") :=
  ⟨by decide,
    quoted_phrase_extracted "lihat \"Warung Sate Pak Budi\" ya" "sate" "Warung Sate Pak Budi"
      [] "lihat ".data " ya".data (by decide) (by simp) (by decide) (by decide) (by decide)
      (by decide) (by decide)⟩

/-- C10 at its own example: the query `dari Jakarta ke Bandung berapa jam?` is a travel-time
query, but the first pattern does not match it (its class `[^ke]` stops at the `k` of
`Jakarta`), the second pattern does, and the origin returned is `dari Jakarta`, not
`Jakarta`; the destination is `Bandung`. -/
theorem travel_origin_keeps_dari :
    isTravelTimeQuery "dari Jakarta ke Bandung berapa jam?" = true ∧
      extractTravelLocations "dari Jakarta ke Bandung berapa jam?" =
        .ok { origin := some "dari Jakarta", destination := some "Bandung" } ∧
      (execFrom travelPattern1 0 none "dari Jakarta ke Bandung berapa jam?".data).isSome =
        false := by
  decide

/-! ### The dispatcher and the travel-time classifier -/

/-- C11 (the nearby example).  For the query `hotel terdekat di Bandung`, `isNearbyQuery` is
true and `isTravelTimeQuery` is false, and `processQuery` takes the branch of the nearby
handler. -/
theorem hotel_terdekat_is_nearby :
    isNearbyQuery "hotel terdekat di Bandung" = true ∧
      isTravelTimeQuery "hotel terdekat di Bandung" = false ∧
      processQuery "hotel terdekat di Bandung" = .nearby := by
  decide

/-! ### Soundness of the matcher: where a match ends and which groups it holds -/

/-! ### What a successful match tells -/

theorem reaches_refl (st : MState) : st.Reaches st :=
  ⟨⟨[], rfl⟩, fun _ h => h⟩

theorem reaches_trans {a b c : MState} (h1 : a.Reaches b) (h2 : b.Reaches c) : a.Reaches c := by
  obtain ⟨⟨c1, e1⟩, k1⟩ := h1
  obtain ⟨⟨c2, e2⟩, k2⟩ := h2
  exact ⟨⟨c1 ++ c2, by rw [e1, e2, List.append_assoc]⟩, fun n h => k2 n (k1 n h)⟩

theorem matchRe_cls_some {p : Char → Bool} {st : MState} {k : MState → Option MState}
    {res : MState} (h : matchRe (.cls p) st k = some res) :
    ∃ c cs, st.rest = c :: cs ∧ p c = true ∧ k ⟨some c, cs, st.caps⟩ = some res := by
  rw [matchRe] at h
  cases hr : st.rest with
  | nil => rw [hr] at h; simp at h
  | cons c cs =>
    rw [hr] at h
    by_cases hp : p c = true
    · simp only [hp, if_true] at h
      exact ⟨c, cs, rfl, hp, h⟩
    · simp [hp] at h

theorem iterStar_sound (m : MState → (MState → Option MState) → Option MState)
    (hm : ∀ st k res, m st k = some res → ∃ st', k st' = some res ∧ st.Reaches st') :
    ∀ (n : Nat) (st : MState) (k : MState → Option MState) (res : MState),
      iterStar m n st k = some res → ∃ st', k st' = some res ∧ st.Reaches st' := by
  intro n
  induction n with
  | zero =>
    intro st k res h
    exact ⟨st, by simpa [iterStar] using h, reaches_refl st⟩
  | succ n ih =>
    intro st k res h
    rw [iterStar] at h
    cases hfirst : m st (fun st' =>
        if st'.rest.length < st.rest.length then iterStar m n st' k else none) with
    | none =>
      rw [hfirst] at h
      exact ⟨st, h, reaches_refl st⟩
    | some r =>
      rw [hfirst] at h
      simp only [Option.some.injEq] at h
      subst h
      obtain ⟨st1, h1, r1⟩ := hm _ _ _ hfirst
      by_cases hlt : st1.rest.length < st.rest.length
      · simp only [hlt, if_true] at h1
        obtain ⟨st2, h2, r2⟩ := ih st1 k r h1
        exact ⟨st2, h2, reaches_trans r1 r2⟩
      · simp [hlt] at h1

theorem matchRe_sound : ∀ (r : Re) (st : MState) (k : MState → Option MState) (res : MState),
    matchRe r st k = some res → ∃ st', k st' = some res ∧ st.Reaches st' := by
  intro r
  induction r with
  | cls p =>
    intro st k res h
    obtain ⟨c, cs, hr, _, hk⟩ := matchRe_cls_some h
    exact ⟨_, hk, ⟨[c], by simp [hr]⟩, fun _ hn => hn⟩
  | seq a b iha ihb =>
    intro st k res h
    rw [matchRe] at h
    obtain ⟨st1, h1, r1⟩ := iha _ _ _ h
    obtain ⟨st2, h2, r2⟩ := ihb _ _ _ h1
    exact ⟨st2, h2, reaches_trans r1 r2⟩
  | alt a b iha ihb =>
    intro st k res h
    rw [matchRe] at h
    cases hfirst : matchRe a st k with
    | none => rw [hfirst] at h; exact ihb _ _ _ h
    | some r =>
      rw [hfirst] at h
      simp only [Option.some.injEq] at h
      subst h
      exact iha _ _ _ hfirst
  | group n a ih =>
    intro st k res h
    rw [matchRe] at h
    obtain ⟨st1, h1, r1⟩ := ih _ _ _ h
    refine ⟨_, h1, r1.1, ?_⟩
    intro m hm
    have := r1.2 m hm
    simp only [List.map_cons, List.mem_cons]
    exact Or.inr this
  | star a ih =>
    intro st k res h
    rw [matchRe] at h
    exact iterStar_sound (matchRe a) ih _ _ _ _ h
  | wordB =>
    intro st k res h
    rw [matchRe] at h
    by_cases hb : atWordBoundary st = true
    · simp only [hb, if_true] at h; exact ⟨st, h, reaches_refl st⟩
    · simp [hb] at h
  | bol =>
    intro st k res h
    rw [matchRe] at h
    by_cases hb : st.prev.isNone = true
    · simp only [hb, if_true] at h; exact ⟨st, h, reaches_refl st⟩
    · simp [hb] at h
  | eol =>
    intro st k res h
    rw [matchRe] at h
    by_cases hb : st.rest.isEmpty = true
    · simp only [hb, if_true] at h; exact ⟨st, h, reaches_refl st⟩
    · simp [hb] at h
  | eps =>
    intro st k res h
    rw [matchRe] at h
    exact ⟨st, h, reaches_refl st⟩

theorem matchRe_seq_sound {a b : Re} {st : MState} {k : MState → Option MState} {res : MState}
    (h : matchRe (.seq a b) st k = some res) :
    ∃ st1, matchRe b st1 k = some res ∧ st.Reaches st1 := by
  rw [matchRe] at h
  exact matchRe_sound a _ _ _ h

theorem matchRe_group_sound {n : Nat} {a : Re} {st : MState} {k : MState → Option MState}
    {res : MState} (h : matchRe (.group n a) st k = some res) :
    ∃ st1, k st1 = some res ∧ st.Reaches st1 ∧ n ∈ st1.caps.map Prod.fst := by
  rw [matchRe] at h
  obtain ⟨st1, h1, r1⟩ := matchRe_sound a _ _ _ h
  refine ⟨_, h1, ⟨r1.1, ?_⟩, by simp⟩
  intro m hm
  simp only [List.map_cons, List.mem_cons]
  exact Or.inr (r1.2 m hm)

theorem iterStar_cls_some (p : Char → Bool) :
    ∀ (n : Nat) (st : MState) (k : MState → Option MState) (res : MState),
      iterStar (matchRe (.cls p)) n st k = some res →
      ∃ run st', st.rest = run ++ st'.rest ∧ (∀ c ∈ run, p c = true) ∧ k st' = some res := by
  intro n
  induction n with
  | zero =>
    intro st k res h
    exact ⟨[], st, rfl, by simp, by simpa [iterStar] using h⟩
  | succ n ih =>
    intro st k res h
    rw [iterStar] at h
    cases hfirst : matchRe (.cls p) st (fun st' =>
        if st'.rest.length < st.rest.length then iterStar (matchRe (.cls p)) n st' k
        else none) with
    | none =>
      rw [hfirst] at h
      exact ⟨[], st, rfl, by simp, h⟩
    | some r =>
      rw [hfirst] at h
      simp only [Option.some.injEq] at h
      subst h
      obtain ⟨c, cs, hr, hp, hk⟩ := matchRe_cls_some hfirst
      by_cases hlt : cs.length < st.rest.length
      · simp only [hlt, if_true] at hk
        obtain ⟨run, st2, h1, h2, h3⟩ := ih _ k r hk
        refine ⟨c :: run, st2, ?_, ?_, h3⟩
        · rw [hr]; simp only at h1; rw [h1]; rfl
        · intro x hx
          rcases List.mem_cons.mp hx with hx | hx
          · rw [hx]; exact hp
          · exact h2 x hx
      · simp [hlt] at hk

theorem plus_cls_some {p : Char → Bool} {st : MState} {k : MState → Option MState}
    {res : MState} (h : matchRe (Re.plus (.cls p)) st k = some res) :
    ∃ c run st', st.rest = c :: run ++ st'.rest ∧ p c = true ∧ (∀ x ∈ run, p x = true) ∧
      k st' = some res := by
  unfold Re.plus at h
  rw [matchRe] at h
  obtain ⟨c, cs, hr, hp, hk⟩ := matchRe_cls_some h
  rw [matchRe] at hk
  obtain ⟨run, st2, h1, h2, h3⟩ := iterStar_cls_some p _ _ _ _ hk
  exact ⟨c, run, st2, by rw [hr]; simp only at h1; rw [h1]; rfl, hp, h2, h3⟩

theorem canonicalize_k (x : Char) (h : (canonicalize x == canonicalize 'k') = true) :
    (x == 'k' || x == 'K') = true := by
  have h1 : canonicalize x = 'K' := by simpa using h
  unfold canonicalize at h1
  by_cases hl : isLowerAZ x = true
  · simp only [hl, if_true] at h1
    have hx : 97 ≤ x.toNat ∧ x.toNat ≤ 122 := by simpa [isLowerAZ] using hl
    have hc := (Char.ofNat_toNat x).symm
    generalize x.toNat = m at hx h1 hc
    subst hc
    obtain ⟨lo, hi⟩ := hx
    interval_cases m <;> revert h1 <;> decide
  · simp only [hl, Bool.false_eq_true, if_false] at h1
    simp [h1]

theorem canonicalize_e (x : Char) (h : (canonicalize x == canonicalize 'e') = true) :
    (x == 'e' || x == 'E') = true := by
  have h1 : canonicalize x = 'E' := by simpa using h
  unfold canonicalize at h1
  by_cases hl : isLowerAZ x = true
  · simp only [hl, if_true] at h1
    have hx : 97 ≤ x.toNat ∧ x.toNat ≤ 122 := by simpa [isLowerAZ] using hl
    have hc := (Char.ofNat_toNat x).symm
    generalize x.toNat = m at hx h1 hc
    subst hc
    obtain ⟨lo, hi⟩ := hx
    interval_cases m <;> revert h1 <;> decide
  · simp only [hl, Bool.false_eq_true, if_false] at h1
    simp [h1]

theorem hasSpacedKe_append (front s : List Char) (h : hasSpacedKe s = true) :
    hasSpacedKe (front ++ s) = true := by
  induction front with
  | nil => exact h
  | cons c cs ih => simp [hasSpacedKe, ih]

theorem hasSpacedKe_of_run (c : Char) (run more : List Char) (kc ec b : Char)
    (hc : isSpace c = true) (hrun : ∀ x ∈ run, isSpace x = true)
    (hk : (kc == 'k' || kc == 'K') = true) (he : (ec == 'e' || ec == 'E') = true)
    (hb : isSpace b = true) :
    hasSpacedKe (c :: run ++ kc :: ec :: b :: more) = true := by
  obtain ⟨front, a, hfa⟩ : ∃ front a, c :: run = front ++ [a] := by
    rcases List.eq_nil_or_concat (c :: run) with h | ⟨front, a, h⟩
    · cases h
    · exact ⟨front, a, by rw [h, List.concat_eq_append]⟩
  have ha : isSpace a = true := by
    have hmem : a ∈ c :: run := by rw [hfa]; simp
    rcases List.mem_cons.mp hmem with h | h
    · rw [h]; exact hc
    · exact hrun a h
  have e : c :: run ++ kc :: ec :: b :: more = front ++ (a :: kc :: ec :: b :: more) := by
    rw [hfa]; simp
  rw [e]
  apply hasSpacedKe_append
  simp only [hasSpacedKe, spacedKeAt, ha, hk, he, hb, Bool.and_self, Bool.true_or]

/-- A match of `\s+ke\s+` followed by anything needs a spaced `ke` in the input ahead. -/
theorem spaced_ke_core (tail : List Re) (st : MState) (k : MState → Option MState)
    (res : MState)
    (h : matchRe (Re.cat (Re.plus (.cls isSpace) :: Re.word true "ke".data ::
      Re.plus (.cls isSpace) :: tail)) st k = some res) :
    hasSpacedKe st.rest = true := by
  simp only [Re.cat] at h
  rw [matchRe] at h
  obtain ⟨c, run, st1, hr, hc, hrun, h1⟩ := plus_cls_some h
  have hword : Re.word true "ke".data =
      .seq (Re.chr true 'k') (.seq (Re.chr true 'e') .eps) := rfl
  rw [hword] at h1
  simp only [matchRe_seq, matchRe_eps] at h1
  unfold Re.chr at h1
  obtain ⟨kc, r1, hr1, hk, h2⟩ := matchRe_cls_some h1
  obtain ⟨ec, r2, hr2, he, h3⟩ := matchRe_cls_some h2
  simp only [if_true] at hk he
  obtain ⟨b, run2, st3, hr3, hb, _, _⟩ := plus_cls_some h3
  simp only at hr2 hr3
  rw [hr, hr1, hr2, hr3]
  simp only [List.cons_append]
  exact hasSpacedKe_of_run c run _ kc ec b hc hrun (canonicalize_k kc hk)
    (canonicalize_e ec he) hb

theorem hasSpacedKe_of_reaches {st st' : MState} (h : st.Reaches st')
    (hk : hasSpacedKe st'.rest = true) : hasSpacedKe st.rest = true := by
  obtain ⟨⟨consumed, e⟩, _⟩ := h
  rw [e]
  exact hasSpacedKe_append consumed _ hk

theorem travelPattern1_needs_ke (prev : Option Char) (s : List Char) (res : MState)
    (h : matchAt travelPattern1 prev s = some res) : hasSpacedKe s = true := by
  unfold matchAt travelPattern1 at h
  simp only [Re.cat] at h
  obtain ⟨st1, h1, r1⟩ := matchRe_seq_sound h
  obtain ⟨st2, h2, r2⟩ := matchRe_seq_sound h1
  obtain ⟨st3, h3, r3⟩ := matchRe_seq_sound h2
  have := spaced_ke_core [.group 2 (Re.plus (.cls isDot))] st3 some res
    (by simpa only [Re.cat] using h3)
  exact hasSpacedKe_of_reaches (reaches_trans r1 (reaches_trans r2 r3)) this

theorem travelPattern2_needs_ke (prev : Option Char) (s : List Char) (res : MState)
    (h : matchAt travelPattern2 prev s = some res) : hasSpacedKe s = true := by
  unfold matchAt travelPattern2 at h
  simp only [Re.cat] at h
  obtain ⟨st1, h1, r1⟩ := matchRe_seq_sound h
  obtain ⟨st2, h2, r2⟩ := matchRe_seq_sound h1
  have := spaced_ke_core [.group 2 (Re.plus (.cls isLetterOrSpace))] st2 some res
    (by simpa only [Re.cat] using h2)
  exact hasSpacedKe_of_reaches (reaches_trans r1 r2) this

theorem execFrom_some (re : Re) :
    ∀ (s : List Char) (i : Nat) (prev : Option Char) (m : MatchResult),
      execFrom re i prev s = some m →
      ∃ skipped s' prev' st, s = skipped ++ s' ∧ matchAt re prev' s' = some st ∧
        m.caps = st.caps := by
  intro s
  induction s with
  | nil =>
    intro i prev m h
    rw [execFrom] at h
    cases hm : matchAt re prev [] with
    | none => rw [hm] at h; cases h
    | some st =>
      rw [hm] at h
      simp only [Option.some.injEq] at h
      subst h
      exact ⟨[], [], prev, st, rfl, hm, rfl⟩
  | cons c cs ih =>
    intro i prev m h
    rw [execFrom] at h
    cases hm : matchAt re prev (c :: cs) with
    | none =>
      rw [hm] at h
      obtain ⟨skipped, s', prev', st, e, h1, h2⟩ := ih _ _ _ h
      exact ⟨c :: skipped, s', prev', st, by rw [e]; rfl, h1, h2⟩
    | some st =>
      rw [hm] at h
      simp only [Option.some.injEq] at h
      subst h
      exact ⟨[], c :: cs, prev, st, rfl, hm, rfl⟩

theorem execFrom_none_of_no_ke (re : Re)
    (hre : ∀ prev s res, matchAt re prev s = some res → hasSpacedKe s = true)
    (s : List Char) (hs : hasSpacedKe s = false) : execFrom re 0 none s = none := by
  cases h : execFrom re 0 none s with
  | none => rfl
  | some m =>
    exfalso
    obtain ⟨skipped, s', prev', st, e, h1, _⟩ := execFrom_some re s 0 none m h
    have := hasSpacedKe_append skipped s' (hre prev' s' st h1)
    rw [← e, hs] at this
    cases this

theorem cap_of_mem (m : MatchResult) (n : Nat) (h : n ∈ m.caps.map Prod.fst) :
    ∃ g, m.cap n = some g := by
  unfold MatchResult.cap
  generalize m.caps = caps at h
  induction caps with
  | nil => simp at h
  | cons p ps ih =>
    by_cases hp : p.1 = n
    · exact ⟨p.2, by simp [List.find?_cons, hp]⟩
    · have h' : n ∈ ps.map Prod.fst := by
        simp only [List.map_cons, List.mem_cons] at h
        rcases h with h | h
        · exact absurd h.symm hp
        · exact h
      obtain ⟨g, hg⟩ := ih h'
      have hb : (p.1 == n) = false := by simpa using hp
      exact ⟨g, by rw [List.find?_cons, hb]; exact hg⟩

theorem travelPattern1_caps (prev : Option Char) (s : List Char) (res : MState)
    (h : matchAt travelPattern1 prev s = some res) :
    1 ∈ res.caps.map Prod.fst ∧ 2 ∈ res.caps.map Prod.fst := by
  unfold matchAt travelPattern1 at h
  simp only [Re.cat] at h
  obtain ⟨st1, h1, _⟩ := matchRe_seq_sound h
  obtain ⟨st2, h2, _⟩ := matchRe_seq_sound h1
  rw [matchRe] at h2
  obtain ⟨st3, h3, _, k3⟩ := matchRe_group_sound h2
  obtain ⟨st4, h4, r4⟩ := matchRe_seq_sound h3
  obtain ⟨st5, h5, r5⟩ := matchRe_seq_sound h4
  obtain ⟨st6, h6, r6⟩ := matchRe_seq_sound h5
  rw [matchRe] at h6
  obtain ⟨st7, h7, r7, k7⟩ := matchRe_group_sound h6
  rw [matchRe] at h7
  simp only [Option.some.injEq] at h7
  subst h7
  exact ⟨r7.2 1 (r6.2 1 (r5.2 1 (r4.2 1 k3))), k7⟩

theorem travelPattern2_caps (prev : Option Char) (s : List Char) (res : MState)
    (h : matchAt travelPattern2 prev s = some res) :
    1 ∈ res.caps.map Prod.fst ∧ 2 ∈ res.caps.map Prod.fst := by
  unfold matchAt travelPattern2 at h
  simp only [Re.cat] at h
  obtain ⟨st1, h1, _⟩ := matchRe_seq_sound h
  rw [matchRe] at h1
  obtain ⟨st3, h3, _, k3⟩ := matchRe_group_sound h1
  obtain ⟨st4, h4, r4⟩ := matchRe_seq_sound h3
  obtain ⟨st5, h5, r5⟩ := matchRe_seq_sound h4
  obtain ⟨st6, h6, r6⟩ := matchRe_seq_sound h5
  rw [matchRe] at h6
  obtain ⟨st7, h7, r7, k7⟩ := matchRe_group_sound h6
  rw [matchRe] at h7
  simp only [Option.some.injEq] at h7
  subst h7
  exact ⟨r7.2 1 (r6.2 1 (r5.2 1 (r4.2 1 k3))), k7⟩

theorem extractWith_ok (patterns : List Re)
    (hcaps : ∀ re ∈ patterns, ∀ prev s res, matchAt re prev s = some res →
      1 ∈ res.caps.map Prod.fst ∧ 2 ∈ res.caps.map Prod.fst)
    (query : List Char) : ∃ t, extractWith patterns query = .ok t := by
  induction patterns with
  | nil => exact ⟨_, rfl⟩
  | cons re more ih =>
    rw [extractWith]
    cases hm : execFrom re 0 none query with
    | none => exact ih (fun re' hre' => hcaps re' (List.mem_cons_of_mem _ hre'))
    | some m =>
      obtain ⟨_, s', prev', st, _, hst, hc⟩ := execFrom_some re query 0 none m hm
      obtain ⟨c1, c2⟩ := hcaps re (List.mem_cons_self _ _) prev' s' st hst
      rw [← hc] at c1 c2
      obtain ⟨g1, hg1⟩ := cap_of_mem m 1 c1
      obtain ⟨g2, hg2⟩ := cap_of_mem m 2 c2
      simp only [hg1, hg2]
      exact ⟨_, rfl⟩

/-- C12 (no match is a normal outcome).  `extractTravelLocations` returns for every query
and never raises; when neither pattern matches it returns `{origin: null, destination: null}`;
and neither pattern matches a query that nowhere holds the letters `ke` (in either case)
with a white space character right before and right after. -/
theorem extractTravelLocations_total (query : String) :
    (∃ t, extractTravelLocations query = .ok t) ∧
      (execFrom travelPattern1 0 none query.data = none →
        execFrom travelPattern2 0 none query.data = none →
        extractTravelLocations query = .ok { origin := none, destination := none }) ∧
      (hasSpacedKe query.data = false →
        execFrom travelPattern1 0 none query.data = none ∧
          execFrom travelPattern2 0 none query.data = none ∧
          extractTravelLocations query = .ok { origin := none, destination := none }) := by
  have hnone : execFrom travelPattern1 0 none query.data = none →
      execFrom travelPattern2 0 none query.data = none →
      extractTravelLocations query = .ok { origin := none, destination := none } := by
    intro h1 h2
    simp [extractTravelLocations, extractWith, h1, h2]
  refine ⟨?_, hnone, ?_⟩
  · apply extractWith_ok
    intro re hre
    simp only [List.mem_cons, List.mem_singleton, List.not_mem_nil, or_false] at hre
    rcases hre with h | h
    · subst h; exact travelPattern1_caps
    · subst h; exact travelPattern2_caps
  · intro hke
    have h1 := execFrom_none_of_no_ke travelPattern1 travelPattern1_needs_ke query.data hke
    have h2 := execFrom_none_of_no_ke travelPattern2 travelPattern2_needs_ke query.data hke
    exact ⟨h1, h2, hnone h1 h2⟩

/-- Witness of C12: `hotel terdekat di Bandung` holds no spaced `ke`. -/
theorem extractTravelLocations_total_witness :
    hasSpacedKe "hotel terdekat di Bandung".data = false ∧
      (execFrom travelPattern1 0 none "hotel terdekat di Bandung".data = none ∧
        execFrom travelPattern2 0 none "hotel terdekat di Bandung".data = none ∧
        extractTravelLocations "hotel terdekat di Bandung" =
          .ok { origin := none, destination := none }) :=
  ⟨by decide, (extractTravelLocations_total "hotel terdekat di Bandung").2.2 (by decide)⟩

/-- C13 (priority order of the dispatcher).  A query whose lower-case form is `exit`, `quit`,
`help`, `clear` or `status` takes the control branch of that name, which calls no service;
any other query goes to the travel-time handler when `isTravelTimeQuery` holds, whatever
`isNearbyQuery` says; otherwise to the nearby handler when `isNearbyQuery` holds; otherwise to
the general conversation.  The session hands every input that is not blank to `processQuery`
after trimming it. -/
theorem processQuery_priority (query : String) :
    ((toLowerCase query = "exit" ∨ toLowerCase query = "quit") →
        processQuery query = .goodbye) ∧
      (toLowerCase query = "help" → processQuery query = .help) ∧
      (toLowerCase query = "clear" → processQuery query = .clear) ∧
      (toLowerCase query = "status" → processQuery query = .status) ∧
      (toLowerCase query ∈ ["exit", "quit", "help", "clear", "status"] →
        (processQuery query).callsServices = false) ∧
      (toLowerCase query ∉ ["exit", "quit", "help", "clear", "status"] →
        (isTravelTimeQuery query = true → processQuery query = .travelTime) ∧
        (isTravelTimeQuery query = false → isNearbyQuery query = true →
          processQuery query = .nearby) ∧
        (isTravelTimeQuery query = false → isNearbyQuery query = false →
          processQuery query = .general)) ∧
      (jsTrim query ≠ "" → sessionTurn query = some (processQuery (jsTrim query))) := by
  refine ⟨?_, ?_, ?_, ?_, ?_, ?_, ?_⟩
  · intro h
    simp only [processQuery, h, if_true]
  · intro h
    simp [processQuery, h]
  · intro h
    simp [processQuery, h]
  · intro h
    simp [processQuery, h]
  · intro h
    simp only [List.mem_cons, List.mem_singleton, List.not_mem_nil, or_false] at h
    rcases h with h | h | h | h | h <;> simp [processQuery, h, Route.callsServices]
  · intro h
    simp only [List.mem_cons, List.mem_singleton, List.not_mem_nil, or_false, not_or] at h
    obtain ⟨h1, h2, h3, h4, h5⟩ := h
    refine ⟨?_, ?_, ?_⟩
    · intro ht
      simp [processQuery, h1, h2, h3, h4, h5, ht]
    · intro ht hn
      simp [processQuery, h1, h2, h3, h4, h5, ht, hn]
    · intro ht hn
      simp [processQuery, h1, h2, h3, h4, h5, ht, hn]
  · intro h
    simp [sessionTurn, h]

/-- Witness of C13: `hotel terdekat di Kendari` satisfies both classifiers (`Kendari` holds
`ke`) and goes to the travel-time handler. -/
theorem processQuery_priority_witness :
    toLowerCase "hotel terdekat di Kendari" ∉ ["exit", "quit", "help", "clear", "status"] ∧
      isNearbyQuery "hotel terdekat di Kendari" = true ∧
      isTravelTimeQuery "hotel terdekat di Kendari" = true ∧
      processQuery "hotel terdekat di Kendari" = .travelTime :=
  ⟨by decide, by decide, by decide,
    ((processQuery_priority "hotel terdekat di Kendari").2.2.2.2.2.1 (by decide)).1 (by decide)⟩

/-! ### The travel-time handler and the estimate -/

/-- C14 (the travel block is never shown).  When `extractTravelLocations` recovers an origin
and a destination, both not empty, and both geocode, `handleTravelTimeQuery` does not report
distance and estimated time: the call `this.calculateDistance(...)` throws, because the agent
has no such method; the handler shows `Gagal menghitung rute` with the message of the type
error and asks the completion client instead. -/
theorem handleTravelTimeQuery_falls_back (env : AgentEnv) (query origin destination : String)
    (originCoords destCoords : Coordinates)
    (hloc : extractTravelLocations query =
      .ok { origin := some origin, destination := some destination })
    (ho : origin ≠ "") (hd : destination ≠ "")
    (hgo : env.getCoordinates origin = .ok originCoords)
    (hgd : env.getCoordinates destination = .ok destCoords) :
    handleTravelTimeQuery env query =
        .failed "this.calculateDistance is not a function" (env.ask 0 query) ∧
      ∀ distance estimatedTime,
        handleTravelTimeQuery env query ≠ .route origin destination distance estimatedTime := by
  have h : handleTravelTimeQuery env query =
      .failed "this.calculateDistance is not a function" (env.ask 0 query) := by
    simp [handleTravelTimeQuery, tryTravelTime, hloc, ho, hd, hgo, hgd, agentCalculateDistance]
  refine ⟨h, ?_⟩
  intro distance estimatedTime
  rw [h]
  exact fun hne => TravelOutcome.noConfusion hne

/-- Witness of C14: `dari Solo ke Bandung berapa jam?` with a geocoder that finds both
places. -/
theorem handleTravelTimeQuery_falls_back_witness :
    extractTravelLocations "dari Solo ke Bandung berapa jam?" =
        .ok { origin := some "Solo", destination := some "Bandung" } ∧
      handleTravelTimeQuery stubAgentEnv "dari Solo ke Bandung berapa jam?" =
        .failed "this.calculateDistance is not a function" (.ok "sekitar 8 jam") :=
  ⟨by decide,
    (handleTravelTimeQuery_falls_back stubAgentEnv "dari Solo ke Bandung berapa jam?"
      "Solo" "Bandung" { lat := -757 / 100, lng := 11082 / 100 }
      { lat := -69 / 10, lng := 1076 / 10 } (by decide) (by decide) (by decide) rfl rfl).1⟩

theorem mathRound_eq (x : ℚ) (n : ℤ) (h1 : (n : ℚ) - 1 / 2 ≤ x) (h2 : x < (n : ℚ) + 1 / 2) :
    mathRound x = n := by
  have : Int.floor (x + 1 / 2) = n := by
    rw [Int.floor_eq_iff]
    constructor <;> linarith
  exact this

/-! ### The distance of a point from itself -/

theorem toDouble_zero : toDouble 0 = .fin 0 := by decide!

theorem toDouble_one : toDouble 1 = .fin 1 := by decide!

theorem toDouble_fin (q : ℚ) (h1 : -(2 ^ 1000 : ℚ) ≤ q) (h2 : q ≤ 2 ^ 1000) :
    toDouble q = .fin (roundFinite q) := by
  unfold toDouble
  have hlt : ¬ overflowThreshold ≤ (if q < 0 then -q else q) := by
    unfold overflowThreshold
    split
    · have : -q ≤ 2 ^ 1000 := by linarith
      intro h
      have h3 : (2 : ℚ) ^ 1024 - 2 ^ 970 ≤ 2 ^ 1000 := le_trans h this
      norm_num at h3
    · intro h
      have h3 : (2 : ℚ) ^ 1024 - 2 ^ 970 ≤ 2 ^ 1000 := le_trans h h2
      norm_num at h3
  rw [if_neg hlt]

theorem mul_fin_zero_right (x : ℚ) : (Num.fin x).mul (.fin 0) = .fin 0 := by
  simp [Num.mul, toDouble_zero]

theorem mul_fin_zero_left (x : ℚ) : (Num.fin 0).mul (.fin x) = .fin 0 := by
  simp [Num.mul, toDouble_zero]

theorem sub_fin_self (x : ℚ) : (Num.fin x).sub (.fin x) = .fin 0 := by
  simp [Num.sub, Num.neg, Num.add, toDouble_zero]

theorem radiansPerDegree_eq :
    (Num.fin mathPI).div (.fin 180) = .fin (5030569068109113 / 288230376151711744) := by
  decide!

theorem deg2rad_zero : Ieee.deg2rad (.fin 0) = .fin 0 := by
  rw [Ieee.deg2rad, radiansPerDegree_eq, mul_fin_zero_left]

theorem deg2rad_fin (lat : ℚ) (h1 : -90 ≤ lat) (h2 : lat ≤ 90) :
    ∃ r, Ieee.deg2rad (.fin lat) = .fin r := by
  rw [Ieee.deg2rad, radiansPerDegree_eq]
  have hlo : -(2 ^ 1000 : ℚ) ≤ lat * (5030569068109113 / 288230376151711744) := by
    have : (-90 : ℚ) * (5030569068109113 / 288230376151711744) ≤
        lat * (5030569068109113 / 288230376151711744) :=
      mul_le_mul_of_nonneg_right h1 (by norm_num)
    refine le_trans ?_ this
    norm_num
  have hhi : lat * (5030569068109113 / 288230376151711744) ≤ 2 ^ 1000 := by
    have : lat * (5030569068109113 / 288230376151711744) ≤
        (90 : ℚ) * (5030569068109113 / 288230376151711744) :=
      mul_le_mul_of_nonneg_right h2 (by norm_num)
    refine le_trans this ?_
    norm_num
  exact ⟨_, toDouble_fin _ hlo hhi⟩

/-- C15 (a point is at distance zero from itself).  For every coordinate pair in range,
`calculateDistance(lat, lng, lat, lng)` is the text `0m`, whatever the engine's `Math`
functions return elsewhere, as long as they have the values the language fixes at the
special arguments (`sin 0 = 0`, `sqrt 0 = 0`, `atan2(0, x) = 0` for positive `x`), the cosine
of a finite number lies between -1 and 1, and the square root of 1 is positive. -/
theorem calculateDistance_same_point (engine : Engine) (lat lng : ℚ)
    (hlat : -90 ≤ lat ∧ lat ≤ 90) (hlng : -180 ≤ lng ∧ lng ≤ 180)
    (hsin : engine.sin (.fin 0) = .fin 0)
    (hcos : ∀ x, ∃ y, engine.cos (.fin x) = .fin y ∧ -1 ≤ y ∧ y ≤ 1)
    (hsqrt0 : engine.sqrt (.fin 0) = .fin 0)
    (hsqrt1 : ∃ s, 0 < s ∧ engine.sqrt (.fin 1) = .fin s)
    (hatan : ∀ x, 0 < x → engine.atan2 (.fin 0) (.fin x) = .fin 0) :
    Ieee.calculateDistance engine (.fin lat) (.fin lng) (.fin lat) (.fin lng) = "0m" := by
  have _ := hlng
  obtain ⟨r, hr⟩ := deg2rad_fin lat hlat.1 hlat.2
  obtain ⟨y, hy, hy1, hy2⟩ := hcos r
  obtain ⟨s, hs, hs1⟩ := hsqrt1
  have hhalf : (Num.fin 0).div (.fin 2) = .fin 0 := by decide!
  have hyy : ∃ z, (Num.fin y).mul (.fin y) = .fin z := by
    have hlo : -(2 ^ 1000 : ℚ) ≤ y * y := by
      have : 0 ≤ y * y := mul_self_nonneg y
      refine le_trans ?_ this
      norm_num
    have hhi : y * y ≤ 2 ^ 1000 := by
      have : y * y ≤ 1 := by nlinarith
      refine le_trans this ?_
      norm_num
    exact ⟨_, toDouble_fin _ hlo hhi⟩
  obtain ⟨z, hz⟩ := hyy
  have hadd : (Num.fin 0).add (.fin 0) = .fin 0 := by decide!
  have hone : (Num.fin 1).sub (.fin 0) = .fin 1 := by decide!
  have hlt : (Num.fin 0).lt (.fin 1) = true := by decide!
  have hround : (Num.fin 0).round = .fin 0 := by decide!
  have htext : (Num.fin 0).text engine = "0" := by
    simp [Num.text]
    decide
  unfold Ieee.calculateDistance
  simp only [sub_fin_self, deg2rad_zero, hhalf, hsin, mul_fin_zero_left, hr, hy, hz,
    mul_fin_zero_right, hadd, hsqrt0, hone, hs1, hatan s hs, hlt, if_true, hround, htext]
  decide

/-- Witness of C15: the stand-in engine and the point (-6.2, 106.8). -/
theorem calculateDistance_same_point_witness :
    Ieee.calculateDistance stubEngine (.fin (-62 / 10)) (.fin (1068 / 10)) (.fin (-62 / 10))
      (.fin (1068 / 10)) = "0m" :=
  calculateDistance_same_point stubEngine (-62 / 10) (1068 / 10) (by norm_num) (by norm_num)
    rfl (fun _ => ⟨1, rfl, by norm_num, by norm_num⟩) rfl ⟨1, by norm_num, rfl⟩
    (fun _ _ => rfl)

/-! ### The bands of the estimate -/

/-- C18 (the three bands of the estimate).  Let `x` be the double `estimateTravelTime` reads
off its argument.  For `x` under 50 the result is `round(x/25·60) menit - 1.5 jam`; for `x`
from 50 to 200, both included, it is `round(x/60) - round(x/50) jam`; for `x` above 200 it is
`round(x/70) - round(x/50) jam`, each quotient and product taken in doubles.  (At 200 itself
the code takes its last branch, whose result `3 - 4 jam` is also the one of the middle
formula.)  The magnitudes 49, 50, 200 and 201 give `118 menit - 1.5 jam`, `1 - 1 jam`,
`3 - 4 jam` and `3 - 4 jam`. -/
theorem estimateTravelTime_bands (engine : Engine) (distanceStr : String) (x : ℚ)
    (hx : Ieee.parsedMagnitude distanceStr = .fin x) :
    (x < 50 → Ieee.estimateTravelTime engine distanceStr =
        ((((Num.fin x).div (.fin 25)).mul (.fin 60)).round).text engine ++
          " menit - 1.5 jam") ∧
      (50 ≤ x → x ≤ 200 → Ieee.estimateTravelTime engine distanceStr =
        (((Num.fin x).div (.fin 60)).round).text engine ++ " - " ++
          (((Num.fin x).div (.fin 50)).round).text engine ++ " jam") ∧
      (200 < x → Ieee.estimateTravelTime engine distanceStr =
        (((Num.fin x).div (.fin 70)).round).text engine ++ " - " ++
          (((Num.fin x).div (.fin 50)).round).text engine ++ " jam") ∧
      (x = 49 → Ieee.estimateTravelTime engine distanceStr = "118 menit - 1.5 jam") ∧
      (x = 50 → Ieee.estimateTravelTime engine distanceStr = "1 - 1 jam") ∧
      (x = 200 → Ieee.estimateTravelTime engine distanceStr = "3 - 4 jam") ∧
      (x = 201 → Ieee.estimateTravelTime engine distanceStr = "3 - 4 jam") := by
  have t3 : (Num.fin ((3 : ℤ) : ℚ)).text engine = "3" := by
    simp only [Num.text, Rat.intCast_den, Rat.intCast_num, true_and]
    rw [if_pos (by decide)]
    decide
  have t4 : (Num.fin ((4 : ℤ) : ℚ)).text engine = "4" := by
    simp only [Num.text, Rat.intCast_den, Rat.intCast_num, true_and]
    rw [if_pos (by decide)]
    decide
  have t1 : (Num.fin ((1 : ℤ) : ℚ)).text engine = "1" := by
    simp only [Num.text, Rat.intCast_den, Rat.intCast_num, true_and]
    rw [if_pos (by decide)]
    decide
  have t118 : (Num.fin ((118 : ℤ) : ℚ)).text engine = "118" := by
    simp only [Num.text, Rat.intCast_den, Rat.intCast_num, true_and]
    rw [if_pos (by decide)]
    decide
  have r200a : ((Num.fin 200).div (.fin 70)).round = .fin ((3 : ℤ) : ℚ) := by decide!
  have r200b : ((Num.fin 200).div (.fin 60)).round = .fin ((3 : ℤ) : ℚ) := by decide!
  have r200c : ((Num.fin 200).div (.fin 50)).round = .fin ((4 : ℤ) : ℚ) := by decide!
  have r201a : ((Num.fin 201).div (.fin 70)).round = .fin ((3 : ℤ) : ℚ) := by decide!
  have r201c : ((Num.fin 201).div (.fin 50)).round = .fin ((4 : ℤ) : ℚ) := by decide!
  have r50b : ((Num.fin 50).div (.fin 60)).round = .fin ((1 : ℤ) : ℚ) := by decide!
  have r50c : ((Num.fin 50).div (.fin 50)).round = .fin ((1 : ℤ) : ℚ) := by decide!
  have r49 : (((Num.fin 49).div (.fin 25)).mul (.fin 60)).round = .fin ((118 : ℤ) : ℚ) := by
    decide!
  have short : x < 50 → Ieee.estimateTravelTime engine distanceStr =
      ((((Num.fin x).div (.fin 25)).mul (.fin 60)).round).text engine ++
        " menit - 1.5 jam" := by
    intro h
    simp only [Ieee.estimateTravelTime, hx, Num.lt, h, decide_True, if_true]
  have middle : 50 ≤ x → x < 200 → Ieee.estimateTravelTime engine distanceStr =
      (((Num.fin x).div (.fin 60)).round).text engine ++ " - " ++
        (((Num.fin x).div (.fin 50)).round).text engine ++ " jam" := by
    intro h1 h2
    simp only [Ieee.estimateTravelTime, hx, Num.lt, not_lt.mpr h1, h2, decide_True,
      decide_False, if_true, Bool.false_eq_true, if_false]
  have long : 200 ≤ x → Ieee.estimateTravelTime engine distanceStr =
      (((Num.fin x).div (.fin 70)).round).text engine ++ " - " ++
        (((Num.fin x).div (.fin 50)).round).text engine ++ " jam" := by
    intro h
    have h1 : ¬ x < 50 := by linarith
    have h2 : ¬ x < 200 := by linarith
    simp only [Ieee.estimateTravelTime, hx, Num.lt, h1, h2, decide_False,
      Bool.false_eq_true, if_false]
  refine ⟨short, ?_, fun h => long (le_of_lt h), ?_, ?_, ?_, ?_⟩
  · intro h1 h2
    rcases lt_or_eq_of_le h2 with h | h
    · exact middle h1 h
    · subst h
      rw [long (le_refl _), r200a, r200b]
  · intro h
    subst h
    rw [short (by norm_num), r49, t118]
    decide
  · intro h
    subst h
    rw [middle (le_refl _) (by norm_num), r50b, r50c, t1]
    decide
  · intro h
    subst h
    rw [long (le_refl _), r200a, r200c, t3, t4]
    decide
  · intro h
    subst h
    rw [long (by norm_num), r201a, r201c, t3, t4]
    decide

/-- Witness of C18: the label `49km`. -/
theorem estimateTravelTime_bands_witness :
    Ieee.parsedMagnitude "49km" = .fin 49 ∧
      Ieee.estimateTravelTime stubEngine "49km" = "118 menit - 1.5 jam" :=
  ⟨by decide!, (estimateTravelTime_bands stubEngine "49km" 49 (by decide!)).2.2.2.1 rfl⟩

/-- A label whose digits lie just under 50 is read as the double 50 and falls in the middle
band; a label of more than 308 digits is read as `Infinity`, and one without a digit as
`NaN`; both take the last branch. -/
theorem estimateTravelTime_edges (engine : Engine) :
    Ieee.parsedMagnitude "49.99999999999999999km" = .fin 50 ∧
      Ieee.estimateTravelTime engine "49.99999999999999999km" = "1 - 1 jam" ∧
      (∀ distanceStr, Ieee.parsedMagnitude distanceStr = .inf false →
        Ieee.estimateTravelTime engine distanceStr = "Infinity - Infinity jam") ∧
      (∀ distanceStr, Ieee.parsedMagnitude distanceStr = .nan →
        Ieee.estimateTravelTime engine distanceStr = "NaN - NaN jam") := by
  refine ⟨by decide!, ?_, ?_, ?_⟩
  · have hx : Ieee.parsedMagnitude "49.99999999999999999km" = .fin 50 := by decide!
    have r50b : ((Num.fin 50).div (.fin 60)).round = .fin ((1 : ℤ) : ℚ) := by decide!
    have r50c : ((Num.fin 50).div (.fin 50)).round = .fin ((1 : ℤ) : ℚ) := by decide!
    have t1 : (Num.fin ((1 : ℤ) : ℚ)).text engine = "1" := by
      simp only [Num.text, Rat.intCast_den, Rat.intCast_num, true_and]
      rw [if_pos (by decide)]
      decide
    simp only [Ieee.estimateTravelTime, hx, Num.lt]
    rw [if_neg (by decide), if_pos (by decide), r50b, r50c, t1]
    decide
  · intro distanceStr h
    have h70 : (Num.inf false).div (.fin 70) = .inf false := by decide!
    have h50 : (Num.inf false).div (.fin 50) = .inf false := by decide!
    simp only [Ieee.estimateTravelTime, h, Num.lt, Bool.false_eq_true, if_false, h70, h50,
      Num.round, Num.text]
    decide
  · intro distanceStr h
    simp only [Ieee.estimateTravelTime, h, Num.lt, Bool.false_eq_true, if_false, Num.div,
      Num.round, Num.text]
    decide

/-! ### Nearby places of the free backend -/

/-- C19 (the sort is not by distance).  With the centre at (-6.2, 106.8), a node 851 m away
and a node 1.2 km away, `getNearbyPlacesOverpass` returns the farther place first: the
comparator reads the key 851 off `851m` and, because `replace('m', '')` has already turned
`1.2km` into `1.2k`, the key 1.2 off `1.2km`. -/
theorem nearby_sort_puts_farther_first :
    (getNearbyPlacesOverpass stubHaversine (-62 / 10) (1068 / 10)
        (.ok (some [nearElement, farElement]))).map (fun place => (place.name, place.distance)) =
      [("Warung Jauh", some "1.2km"), ("Warung Dekat", some "851m")] ∧
      sortKey "851m" = some 851 ∧ sortKey "1.2km" = some (12 / 10) := by
  decide!

theorem formatDistance_ne_empty (d : Option ℚ) : formatDistance d ≠ "" := by
  have key : ∀ a b : String, b ≠ "" → a ++ b ≠ "" := by
    intro a b hb h
    have h2 := congrArg String.length h
    simp only [String.length_append] at h2
    have h3 : b.length = 0 := by
      have : "".length = 0 := rfl
      omega
    have h4 : b.data = [] := List.length_eq_zero.mp h3
    exact hb (String.ext h4)
  cases d with
  | none => decide
  | some d =>
    simp only [formatDistance]
    split
    · exact key _ _ (by decide)
    · exact key _ _ (by decide)

theorem elementToPlace_distance (haversine : ℚ → ℚ → ℚ → ℚ → Option ℚ) (lat lng : ℚ)
    (element : Element) (tags : Tags) :
    truthyText (elementToPlace haversine lat lng element tags).distance =
      (truthyNumber (orElseNumber element.lat (element.center.bind (fun c => c.lat))) &&
        truthyNumber (orElseNumber element.lon (element.center.bind (fun c => c.lon)))) := by
  unfold elementToPlace
  simp only
  generalize orElseNumber element.lat (element.center.bind (fun c => c.lat)) = a
  generalize orElseNumber element.lon (element.center.bind (fun c => c.lon)) = b
  cases a with
  | none => simp [truthyText, truthyNumber]
  | some la =>
    cases b with
    | none => simp [truthyText, truthyNumber]
    | some lo =>
      by_cases h1 : la = 0
      · simp [truthyText, truthyNumber, h1]
      · by_cases h2 : lo = 0
        · simp [truthyText, truthyNumber, h2]
        · have e1 : (formatDistance (haversine lat lng la lo) != "") = true :=
            bne_iff_ne.mpr (formatDistance_ne_empty _)
          have e2 : (la != 0) = true := bne_iff_ne.mpr h1
          have e3 : (lo != 0) = true := bne_iff_ne.mpr h2
          simp [truthyText, truthyNumber, h1, h2, calculateDistance, e1, e2, e3]

theorem mem_placesFromElements (haversine : ℚ → ℚ → ℚ → ℚ → Option ℚ) (lat lng : ℚ)
    (elements : List Element) (place : NearbyPlace) :
    place ∈ placesFromElements haversine lat lng elements ↔
      ∃ element ∈ elements, ∃ tags, element.tags = some tags ∧ truthyText tags.name = true ∧
        truthyNumber (orElseNumber element.lat (element.center.bind (fun c => c.lat))) = true ∧
        truthyNumber (orElseNumber element.lon (element.center.bind (fun c => c.lon))) = true ∧
        place = elementToPlace haversine lat lng element tags := by
  unfold placesFromElements
  simp only
  rw [(List.perm_insertionSort _ _).mem_iff, List.mem_filter, List.mem_map]
  constructor
  · rintro ⟨⟨⟨element, tags⟩, hmem, rfl⟩, hd⟩
    rw [List.mem_filterMap] at hmem
    obtain ⟨e, he, hsome⟩ := hmem
    cases ht : e.tags with
    | none => simp [ht] at hsome
    | some t =>
      simp only [ht] at hsome
      split at hsome
      · rename_i hname
        simp only [Option.some.injEq, Prod.mk.injEq] at hsome
        obtain ⟨rfl, rfl⟩ := hsome
        rw [elementToPlace_distance, Bool.and_eq_true] at hd
        exact ⟨e, he, t, ht, hname, hd.1, hd.2, rfl⟩
      · simp at hsome
  · rintro ⟨element, he, tags, ht, hname, hla, hlo, rfl⟩
    refine ⟨⟨(element, tags), ?_, rfl⟩, ?_⟩
    · rw [List.mem_filterMap]
      exact ⟨element, he, by simp [ht, hname]⟩
    · rw [elementToPlace_distance, hla, hlo]
      rfl

/-- C20 (which elements come back).  A place is returned exactly for the elements that have
a name tag that is not empty and whose latitude and longitude, their own or else those of
their centre, are both present and not zero; every returned place has a name that is not
empty and a distance that is not null.  An element at latitude 0 or longitude 0 is left out
although it has a coordinate: for the named node on the equator the result is empty. -/
theorem nearby_leaves_out_zero_coordinate (haversine : ℚ → ℚ → ℚ → ℚ → Option ℚ)
    (lat lng : ℚ) :
    (∀ elements place,
      place ∈ getNearbyPlacesOverpass haversine lat lng (.ok (some elements)) ↔
        ∃ element ∈ elements, ∃ tags, element.tags = some tags ∧
          truthyText tags.name = true ∧
          truthyNumber (orElseNumber element.lat (element.center.bind (fun c => c.lat))) =
            true ∧
          truthyNumber (orElseNumber element.lon (element.center.bind (fun c => c.lon))) =
            true ∧
          place = elementToPlace haversine lat lng element tags) ∧
      (∀ elements place,
        place ∈ getNearbyPlacesOverpass haversine lat lng (.ok (some elements)) →
          place.name ≠ "" ∧ ∃ label, place.distance = some label ∧ label ≠ "") ∧
      equatorElement.lat = some 0 ∧
      getNearbyPlacesOverpass haversine lat lng (.ok (some [equatorElement])) = [] := by
  have hmem : ∀ elements place,
      place ∈ getNearbyPlacesOverpass haversine lat lng (.ok (some elements)) ↔
        ∃ element ∈ elements, ∃ tags, element.tags = some tags ∧
          truthyText tags.name = true ∧
          truthyNumber (orElseNumber element.lat (element.center.bind (fun c => c.lat))) =
            true ∧
          truthyNumber (orElseNumber element.lon (element.center.bind (fun c => c.lon))) =
            true ∧
          place = elementToPlace haversine lat lng element tags := by
    intro elements place
    simp only [getNearbyPlacesOverpass, Option.getD_some]
    exact mem_placesFromElements haversine lat lng elements place
  refine ⟨hmem, ?_, rfl, ?_⟩
  · intro elements place hp
    obtain ⟨element, _, tags, _, hname, hla, hlo, rfl⟩ := (hmem elements place).1 hp
    constructor
    · cases hn : tags.name with
      | none => simp [hn, truthyText] at hname
      | some n =>
        simp only [hn, truthyText, bne_iff_ne, ne_eq] at hname
        simpa [elementToPlace, hn] using hname
    · have hd := elementToPlace_distance haversine lat lng element tags
      rw [hla, hlo] at hd
      cases hdist : (elementToPlace haversine lat lng element tags).distance with
      | none => simp [hdist, truthyText] at hd
      | some label =>
        simp only [hdist, truthyText, Bool.and_self, bne_iff_ne, ne_eq] at hd
        exact ⟨label, rfl, by simpa using hd⟩
  · apply List.eq_nil_iff_forall_not_mem.mpr
    intro place hp
    obtain ⟨element, he, tags, _, _, hla, _, _⟩ := (hmem [equatorElement] place).1 hp
    simp only [List.mem_singleton] at he
    subst he
    revert hla
    decide!

/-! ### The provider adapter -/

/-- C21 (the category table).  `convertTypeToOSM` returns the entry of the table for each of
the seven known categories, and the default set
`restaurant|cafe|fast_food|bank|hospital|school|fuel` for null and for every other category.
A category is a text other than the names of the built-in properties of objects
(`objectPrototypeKeys`); no caller hands such a name to the method. -/
theorem convertTypeToOSM_table :
    convertTypeToOSM (some "restaurant") = .tags "restaurant|cafe|fast_food|food_court" ∧
      convertTypeToOSM (some "food") = .tags "restaurant|cafe|fast_food|food_court" ∧
      convertTypeToOSM (some "hospital") = .tags "hospital|clinic|pharmacy" ∧
      convertTypeToOSM (some "school") = .tags "school|university|college" ∧
      convertTypeToOSM (some "bank") = .tags "bank|atm" ∧
      convertTypeToOSM (some "gas_station") = .tags "fuel" ∧
      convertTypeToOSM (some "shopping") = .tags "marketplace|mall|shop" ∧
      convertTypeToOSM none = .tags "restaurant|cafe|fast_food|bank|hospital|school|fuel" ∧
      (∀ type : String,
        type ∉ ["restaurant", "food", "hospital", "school", "bank", "gas_station",
          "shopping"] →
        type ∉ objectPrototypeKeys →
        convertTypeToOSM (some type) =
          .tags "restaurant|cafe|fast_food|bank|hospital|school|fuel") := by
  refine ⟨by decide, by decide, by decide, by decide, by decide, by decide, by decide,
    by decide, ?_⟩
  intro type h1 h2
  simp only [List.mem_cons, List.mem_singleton, List.not_mem_nil, or_false, not_or] at h1
  obtain ⟨a1, a2, a3, a4, a5, a6, a7⟩ := h1
  have b1 : (type == "restaurant") = false := beq_eq_false_iff_ne.mpr a1
  have b2 : (type == "food") = false := beq_eq_false_iff_ne.mpr a2
  have b3 : (type == "hospital") = false := beq_eq_false_iff_ne.mpr a3
  have b4 : (type == "school") = false := beq_eq_false_iff_ne.mpr a4
  have b5 : (type == "bank") = false := beq_eq_false_iff_ne.mpr a5
  have b6 : (type == "gas_station") = false := beq_eq_false_iff_ne.mpr a6
  have b7 : (type == "shopping") = false := beq_eq_false_iff_ne.mpr a7
  simp only [convertTypeToOSM, typeMapping, List.lookup, Option.getD_some, b1, b2, b3, b4, b5,
    b6, b7, h2, if_false, defaultOsmTypes]

/-- Witness of C21: the category `park` is not in the table. -/
theorem convertTypeToOSM_table_witness :
    "park" ∉ ["restaurant", "food", "hospital", "school", "bank", "gas_station",
        "shopping"] ∧
      "park" ∉ objectPrototypeKeys ∧
      convertTypeToOSM (some "park") =
        .tags "restaurant|cafe|fast_food|bank|hospital|school|fuel" :=
  ⟨by decide, by decide, convertTypeToOSM_table.2.2.2.2.2.2.2.2 "park" (by decide) (by decide)⟩

/-- The lookup `typeMapping[type]` also finds the properties every object inherits: for such
a name the method returns the inherited property. -/
theorem convertTypeToOSM_inherited_name :
    ∀ type ∈ objectPrototypeKeys, convertTypeToOSM (some type) = .inherited type := by
  decide

theorem shapeNominatim_value (w : World) (svc : LocationService) (log : List Request)
    (place : NominatimResult) :
    (∃ shaped, (shapeNominatim w svc log place).value = .ok shaped) ∧
      (shapeNominatim w svc log place).service = svc ∧
      (shapeNominatim w svc log place).log =
        log ++ [.overpass (convertTypeToOSM none) (parseFloat place.lat.data)
          (parseFloat place.lon.data)] :=
  ⟨⟨_, rfl⟩, rfl, rfl⟩

/-- C22 (the two stages of the free forward search).  When the query restricted to the
country returns a result, the place is shaped from the first one and no query without the
restriction is issued.  When it returns none, one query without the restriction is issued; if
that one returns a result the place is shaped from its first result by the same lines
(`shapeNominatim`), and if it returns none the method throws the not-found error.  The method
throws only when a request raised an error or both stages returned nothing. -/
theorem searchLocationNominatim_two_stage (w : World) (svc : LocationService)
    (log : List Request) (locationName : String) :
    (∀ place rest,
      w.nominatimSearch log locationName 5 (some "id") = .ok (place :: rest) →
        searchLocationNominatim w svc log locationName =
            shapeNominatim w svc (log ++ [.nominatimSearch locationName 5 (some "id")]) place ∧
          (∃ shaped, (searchLocationNominatim w svc log locationName).value = .ok shaped) ∧
          (searchLocationNominatim w svc log locationName).log =
            log ++ [.nominatimSearch locationName 5 (some "id"),
              .overpass (convertTypeToOSM none) (parseFloat place.lat.data)
                (parseFloat place.lon.data)]) ∧
      (w.nominatimSearch log locationName 5 (some "id") = .ok [] →
        (∀ place rest,
          w.nominatimSearch (log ++ [.nominatimSearch locationName 5 (some "id")])
              locationName 5 none = .ok (place :: rest) →
            searchLocationNominatim w svc log locationName =
                shapeNominatim w svc
                  (log ++ [.nominatimSearch locationName 5 (some "id"),
                    .nominatimSearch locationName 5 none]) place ∧
              (∃ shaped, (searchLocationNominatim w svc log locationName).value = .ok shaped) ∧
              (searchLocationNominatim w svc log locationName).log =
                log ++ [.nominatimSearch locationName 5 (some "id"),
                  .nominatimSearch locationName 5 none,
                  .overpass (convertTypeToOSM none) (parseFloat place.lat.data)
                    (parseFloat place.lon.data)]) ∧
        (w.nominatimSearch (log ++ [.nominatimSearch locationName 5 (some "id")])
              locationName 5 none = .ok [] →
            (searchLocationNominatim w svc log locationName).value =
                .error ("Location search failed: " ++ notFoundMessage locationName) ∧
              (searchLocationNominatim w svc log locationName).log =
                log ++ [.nominatimSearch locationName 5 (some "id"),
                  .nominatimSearch locationName 5 none])) ∧
      (∀ e, (searchLocationNominatim w svc log locationName).value = .error e →
        (∃ m, w.nominatimSearch log locationName 5 (some "id") = .error m ∧
            e = "Location search failed: " ++ m) ∨
          (w.nominatimSearch log locationName 5 (some "id") = .ok [] ∧
            ∃ m, w.nominatimSearch (log ++ [.nominatimSearch locationName 5 (some "id")])
                locationName 5 none = .error m ∧
              e = "Location search failed: " ++ m) ∨
          (w.nominatimSearch log locationName 5 (some "id") = .ok [] ∧
            w.nominatimSearch (log ++ [.nominatimSearch locationName 5 (some "id")])
                locationName 5 none = .ok [] ∧
            e = "Location search failed: " ++ notFoundMessage locationName)) := by
  refine ⟨?_, ?_, ?_⟩
  · intro place rest h
    have e : searchLocationNominatim w svc log locationName =
        shapeNominatim w svc (log ++ [.nominatimSearch locationName 5 (some "id")]) place := by
      simp only [searchLocationNominatim, h]
    rw [e]
    obtain ⟨h1, _, h3⟩ := shapeNominatim_value w svc
      (log ++ [.nominatimSearch locationName 5 (some "id")]) place
    refine ⟨rfl, h1, ?_⟩
    rw [h3]
    simp
  · intro h
    refine ⟨?_, ?_⟩
    · intro place rest h2
      have e : searchLocationNominatim w svc log locationName =
          shapeNominatim w svc
            (log ++ [.nominatimSearch locationName 5 (some "id"),
              .nominatimSearch locationName 5 none]) place := by
        simp only [searchLocationNominatim, h, h2]
        simp
      rw [e]
      obtain ⟨h1, _, h3⟩ := shapeNominatim_value w svc
        (log ++ [.nominatimSearch locationName 5 (some "id"),
          .nominatimSearch locationName 5 none]) place
      refine ⟨rfl, h1, ?_⟩
      rw [h3]
      simp
    · intro h2
      simp [searchLocationNominatim, h, h2]
  · intro e he
    cases h : w.nominatimSearch log locationName 5 (some "id") with
    | error m =>
      simp only [searchLocationNominatim, h, Except.error.injEq] at he
      exact Or.inl ⟨m, rfl, he.symm⟩
    | ok first =>
      cases first with
      | cons place rest =>
        simp only [searchLocationNominatim, h] at he
        obtain ⟨⟨shaped, hs⟩, _, _⟩ := shapeNominatim_value w svc
          (log ++ [.nominatimSearch locationName 5 (some "id")]) place
        rw [hs] at he
        cases he
      | nil =>
        cases h2 : w.nominatimSearch (log ++ [.nominatimSearch locationName 5 (some "id")])
            locationName 5 none with
        | error m =>
          simp only [searchLocationNominatim, h, h2, Except.error.injEq] at he
          exact Or.inr (Or.inl ⟨rfl, m, rfl, he.symm⟩)
        | ok second =>
          cases second with
          | cons place rest =>
            simp only [searchLocationNominatim, h, h2] at he
            obtain ⟨⟨shaped, hs⟩, _, _⟩ := shapeNominatim_value w svc
              (log ++ [.nominatimSearch locationName 5 (some "id")] ++
                [.nominatimSearch locationName 5 none]) place
            rw [hs] at he
            cases he
          | nil =>
            simp only [searchLocationNominatim, h, h2, Except.error.injEq] at he
            exact Or.inr (Or.inr ⟨rfl, rfl, he.symm⟩)

/-- Witness of C22: nothing inside the country, one result without the restriction. -/
theorem searchLocationNominatim_two_stage_witness :
    stubWorldAbroad.nominatimSearch [] "Eiffel" 5 (some "id") = .ok [] ∧
      stubWorldAbroad.nominatimSearch [.nominatimSearch "Eiffel" 5 (some "id")] "Eiffel" 5
        none = .ok [monasResult] ∧
      (searchLocationNominatim stubWorldAbroad freeService [] "Eiffel").log =
        [.nominatimSearch "Eiffel" 5 (some "id"), .nominatimSearch "Eiffel" 5 none,
          .overpass (convertTypeToOSM none) (parseFloat monasResult.lat.data)
            (parseFloat monasResult.lon.data)] :=
  ⟨rfl, rfl,
    (((searchLocationNominatim_two_stage stubWorldAbroad freeService [] "Eiffel").2.1 rfl).1
      monasResult [] rfl).2.2⟩

/-- C23 (a failed details fetch is swallowed).  When the text search returns at least one
result and the place-details request raises an error, `searchLocationGoogle` returns a place
with the name, address, coordinates, types and rating of the first result of the text search
and with `details` null. -/
theorem searchLocationGoogle_details_null (w : World) (svc : LocationService)
    (log : List Request) (locationName : String) (place : GoogleResult)
    (rest : List GoogleResult) (m : String)
    (hsearch : w.textSearch log locationName = .ok (place :: rest))
    (hdetails : w.placeDetails (log ++ [.textSearch locationName svc.googleMapsKey])
      place.place_id = .error m) :
    ∃ returned, (searchLocationGoogle w svc log locationName).value = .ok returned ∧
      returned.name = place.name ∧
      returned.formatted_address = place.formatted_address ∧
      returned.coordinates = { lat := place.lat, lng := place.lng } ∧
      returned.types = place.types ∧
      returned.rating = place.rating ∧
      returned.details = .null := by
  simp only [searchLocationGoogle, hsearch, getPlaceDetails, hdetails]
  exact ⟨_, rfl, rfl, rfl, rfl, rfl, rfl, rfl⟩

/-- Witness of C23: the place-details request of `stubWorld` times out. -/
theorem searchLocationGoogle_details_null_witness :
    ∃ returned, (searchLocationGoogle stubWorld googleService [] "Monas").value = .ok returned ∧
      returned.name = monasGoogle.name ∧
      returned.formatted_address = monasGoogle.formatted_address ∧
      returned.coordinates = { lat := monasGoogle.lat, lng := monasGoogle.lng } ∧
      returned.types = monasGoogle.types ∧
      returned.rating = monasGoogle.rating ∧
      returned.details = .null :=
  searchLocationGoogle_details_null stubWorld googleService [] "Monas" monasGoogle [] "timeout"
    rfl rfl

/-- C24 as stated fails: no method of the adapter checks its input.  With a provider that
answers every request with a result, `searchLocation` returns a place for the empty text and
for a text of blanks, on either backend, and `reverseGeocode` returns a place for the
latitude 999 and for a latitude that is not finite; the coordinates of the place are the ones
handed in, so they are out of range. -/
theorem adapter_accepts_malformed_input :
    jsTrim "" = "" ∧ jsTrim "   " = "" ∧
      (∃ place, (searchLocation stubWorld freeService [] "").value = .ok place) ∧
      (∃ place, (searchLocation stubWorld freeService [] "   ").value = .ok place) ∧
      (∃ place, (searchLocation stubWorld googleService [] "").value = .ok place) ∧
      (∃ place, (reverseGeocode stubWorld freeService [] (some 999) (some 999)).value =
          .ok place ∧
        place.coordinates = { lat := some 999, lng := some 999 } ∧
        ¬ place.coordinates.inRange) ∧
      (∃ place, (reverseGeocode stubWorld googleService [] (some 999) (some 999)).value =
          .ok place ∧
        place.coordinates = { lat := some 999, lng := some 999 } ∧
        ¬ place.coordinates.inRange) ∧
      (∃ place, (reverseGeocode stubWorld freeService [] none (some 0)).value = .ok place ∧
        ¬ place.coordinates.inRange) := by
  refine ⟨by decide, by decide, ⟨_, rfl⟩, ⟨_, rfl⟩, ⟨_, rfl⟩, ⟨_, rfl, rfl, by decide!⟩,
    ⟨_, rfl, rfl, by decide!⟩, ⟨_, rfl, by decide!⟩⟩

/-- C24 as amended: the adapter hands its input to the provider unchecked.  `searchLocation`
returns a place for a text, empty or not, exactly when the provider answers with at least
one result (on the free backend: at the first stage, or at the second after an empty first
stage); `reverseGeocode` never returns a place with other coordinates than the ones it was
given, so the coordinates of the place are in range exactly when the input was. -/
theorem adapter_passes_input_unchecked (w : World) (svc : LocationService)
    (log : List Request) :
    (∀ text, truthyText svc.googleMapsKey = true →
      ((∃ place, (searchLocation w svc log text).value = .ok place) ↔
        ∃ first rest, w.textSearch log text = .ok (first :: rest))) ∧
      (∀ text, truthyText svc.googleMapsKey = false →
        ((∃ place, (searchLocation w svc log text).value = .ok place) ↔
          (∃ first rest, w.nominatimSearch log text 5 (some "id") = .ok (first :: rest)) ∨
            (w.nominatimSearch log text 5 (some "id") = .ok [] ∧
              ∃ first rest,
                w.nominatimSearch (log ++ [.nominatimSearch text 5 (some "id")]) text 5 none =
                  .ok (first :: rest)))) ∧
      (∀ lat lng place, (reverseGeocode w svc log lat lng).value = .ok place →
        place.coordinates = { lat := lat, lng := lng } ∧
          (place.coordinates.inRange ↔ (LatLng.mk lat lng).inRange)) := by
  refine ⟨?_, ?_, ?_⟩
  · intro text hkey
    simp only [searchLocation, hkey, if_true]
    cases h : w.textSearch log text with
    | error m => simp [searchLocationGoogle, h]
    | ok results =>
      cases results with
      | nil => simp [searchLocationGoogle, h]
      | cons first rest => simp [searchLocationGoogle, h]
  · intro text hkey
    simp only [searchLocation, hkey, Bool.false_eq_true, if_false]
    cases h : w.nominatimSearch log text 5 (some "id") with
    | error m => simp [searchLocationNominatim, h]
    | ok results =>
      cases results with
      | cons first rest => simp [searchLocationNominatim, h, shapeNominatim]
      | nil =>
        cases h2 : w.nominatimSearch (log ++ [.nominatimSearch text 5 (some "id")]) text 5
            none with
        | error m => simp [searchLocationNominatim, h, h2]
        | ok results2 =>
          cases results2 with
          | nil => simp [searchLocationNominatim, h, h2]
          | cons first rest => simp [searchLocationNominatim, h, h2, shapeNominatim]
  · intro lat lng place hplace
    have hc : place.coordinates = { lat := lat, lng := lng } := by
      unfold reverseGeocode at hplace
      split at hplace
      · unfold reverseGeocodeGoogle at hplace
        split at hplace
        · simp at hplace
        · simp at hplace
        · simp only [Except.ok.injEq] at hplace
          rw [← hplace]
      · unfold reverseGeocodeNominatim at hplace
        split at hplace
        · simp at hplace
        · simp at hplace
        · split at hplace
          · simp at hplace
          · simp only [Except.ok.injEq] at hplace
            rw [← hplace]
    exact ⟨hc, by rw [hc]⟩

/-- Witness of C24 as amended: the empty text on the free backend. -/
theorem adapter_passes_input_unchecked_witness :
    truthyText freeService.googleMapsKey = false ∧
      ((∃ place, (searchLocation stubWorld freeService [] "").value = .ok place) ↔
        (∃ first rest, stubWorld.nominatimSearch [] "" 5 (some "id") = .ok (first :: rest)) ∨
          (stubWorld.nominatimSearch [] "" 5 (some "id") = .ok [] ∧
            ∃ first rest,
              stubWorld.nominatimSearch ([] ++ [.nominatimSearch "" 5 (some "id")]) "" 5 none =
                .ok (first :: rest))) :=
  ⟨rfl, (adapter_passes_input_unchecked stubWorld freeService []).2.1 "" rfl⟩

theorem routed_backend_free (svc : LocationService) (h : truthyText svc.googleMapsKey = false) :
    svc.backend = .free := by
  simp [LocationService.backend, h]

theorem routed_backend_commercial (svc : LocationService)
    (h : truthyText svc.googleMapsKey = true) : svc.backend = .commercial := by
  simp [LocationService.backend, h]

theorem routed_of_log {α : Type} (svc : LocationService) (log issued : List Request)
    (r : Ret α) (hs : r.service = svc) (hl : r.log = log ++ issued) (hne : issued ≠ [])
    (hb : ∀ q ∈ issued, q.backend = svc.backend) : Routed svc log r :=
  ⟨hs, issued, hne, hl, hb⟩

theorem searchLocationGoogle_routed (w : World) (svc : LocationService) (log : List Request)
    (text : String) (h : truthyText svc.googleMapsKey = true) :
    Routed svc log (searchLocationGoogle w svc log text) := by
  have hb := routed_backend_commercial svc h
  unfold searchLocationGoogle
  simp only
  split
  · exact routed_of_log svc log [.textSearch text svc.googleMapsKey] _ rfl rfl (by simp)
      (by simp [Request.backend, hb])
  · exact routed_of_log svc log [.textSearch text svc.googleMapsKey] _ rfl rfl (by simp)
      (by simp [Request.backend, hb])
  · rename_i place _ _
    exact routed_of_log svc log
      [.textSearch text svc.googleMapsKey, .placeDetails place.place_id svc.googleMapsKey,
        .nearbySearch place.lat place.lng 500 none svc.googleMapsKey] _ rfl
      (by simp [getNearbyPlaces, getPlaceDetails, truthyText]) (by simp)
      (by simp [Request.backend, hb])

theorem searchLocationNominatim_routed (w : World) (svc : LocationService)
    (log : List Request) (text : String) (h : truthyText svc.googleMapsKey = false) :
    Routed svc log (searchLocationNominatim w svc log text) := by
  have hb := routed_backend_free svc h
  unfold searchLocationNominatim
  simp only
  split
  · exact routed_of_log svc log [.nominatimSearch text 5 (some "id")] _ rfl rfl (by simp)
      (by simp [Request.backend, hb])
  · rename_i place _ _
    exact routed_of_log svc log
      [.nominatimSearch text 5 (some "id"),
        .overpass (convertTypeToOSM none) (parseFloat place.lat.data)
          (parseFloat place.lon.data)] _ rfl
      (by simp [shapeNominatim, fetchNearbyPlacesOverpass]) (by simp)
      (by simp [Request.backend, hb])
  · split
    · exact routed_of_log svc log
        [.nominatimSearch text 5 (some "id"), .nominatimSearch text 5 none] _ rfl
        (by simp) (by simp) (by simp [Request.backend, hb])
    · exact routed_of_log svc log
        [.nominatimSearch text 5 (some "id"), .nominatimSearch text 5 none] _ rfl
        (by simp) (by simp) (by simp [Request.backend, hb])
    · rename_i place _ _
      exact routed_of_log svc log
        [.nominatimSearch text 5 (some "id"), .nominatimSearch text 5 none,
          .overpass (convertTypeToOSM none) (parseFloat place.lat.data)
            (parseFloat place.lon.data)] _ rfl
        (by simp [shapeNominatim, fetchNearbyPlacesOverpass]) (by simp)
        (by simp [Request.backend, hb])

theorem searchLocation_routed (w : World) (svc : LocationService) (log : List Request)
    (text : String) : Routed svc log (searchLocation w svc log text) := by
  unfold searchLocation
  cases h : truthyText svc.googleMapsKey with
  | true => simpa using searchLocationGoogle_routed w svc log text h
  | false => simpa using searchLocationNominatim_routed w svc log text h

theorem getCoordinates_routed (w : World) (svc : LocationService) (log : List Request)
    (address : String) :
    Routed svc log (getCoordinates w svc log address) ∧
      ∃ q, (getCoordinates w svc log address).log = log ++ [q] := by
  unfold getCoordinates
  cases h : truthyText svc.googleMapsKey with
  | true =>
    have hb := routed_backend_commercial svc h
    simp only [if_true]
    unfold getCoordinatesGoogle
    simp only
    split <;>
      exact ⟨routed_of_log svc log [.geocode address svc.googleMapsKey] _ rfl rfl (by simp)
        (by simp [Request.backend, hb]), _, rfl⟩
  | false =>
    have hb := routed_backend_free svc h
    simp only [Bool.false_eq_true, if_false]
    unfold getCoordinatesNominatim
    simp only
    split <;>
      exact ⟨routed_of_log svc log [.nominatimSearch address 1 (some "id")] _ rfl rfl (by simp)
        (by simp [Request.backend, hb]), _, rfl⟩

theorem reverseGeocode_routed (w : World) (svc : LocationService) (log : List Request)
    (lat lng : Option ℚ) : Routed svc log (reverseGeocode w svc log lat lng) := by
  unfold reverseGeocode
  cases h : truthyText svc.googleMapsKey with
  | true =>
    have hb := routed_backend_commercial svc h
    simp only [if_true]
    unfold reverseGeocodeGoogle
    simp only
    split
    · exact routed_of_log svc log [.geocodeLatLng lat lng svc.googleMapsKey] _ rfl rfl
        (by simp) (by simp [Request.backend, hb])
    · exact routed_of_log svc log [.geocodeLatLng lat lng svc.googleMapsKey] _ rfl rfl
        (by simp) (by simp [Request.backend, hb])
    · exact routed_of_log svc log
        [.geocodeLatLng lat lng svc.googleMapsKey,
          .nearbySearch lat lng 500 none svc.googleMapsKey] _ rfl
        (by simp [getNearbyPlaces, truthyText]) (by simp) (by simp [Request.backend, hb])
  | false =>
    have hb := routed_backend_free svc h
    simp only [Bool.false_eq_true, if_false]
    unfold reverseGeocodeNominatim
    simp only
    split
    · exact routed_of_log svc log [.nominatimReverse lat lng] _ rfl rfl
        (by simp) (by simp [Request.backend, hb])
    · exact routed_of_log svc log [.nominatimReverse lat lng] _ rfl rfl
        (by simp) (by simp [Request.backend, hb])
    · split
      · exact routed_of_log svc log [.nominatimReverse lat lng] _ rfl rfl
          (by simp) (by simp [Request.backend, hb])
      · exact routed_of_log svc log
          [.nominatimReverse lat lng, .overpass (convertTypeToOSM none) lat lng] _ rfl
          (by simp [fetchNearbyPlacesOverpass]) (by simp) (by simp [Request.backend, hb])

theorem searchNearby_routed (w : World) (svc : LocationService) (log : List Request)
    (location : String) (type : Option String) :
    Routed svc log (searchNearby w svc log location type) := by
  obtain ⟨⟨hs, issued, hne, hl, hb⟩, q, hq⟩ := getCoordinates_routed w svc log location
  unfold searchNearby
  simp only
  split
  · exact ⟨hs, issued, hne, hl, hb⟩
  · rename_i c _
    rw [hs]
    cases h : truthyText svc.googleMapsKey with
    | true =>
      simp only [if_true]
      refine routed_of_log svc log
        (issued ++ [.nearbySearch c.lat c.lng 1000 (if truthyText type then type else none)
          svc.googleMapsKey]) _ rfl ?_ (by simp) ?_
      · simp [getNearbyPlaces, hl]
      · intro r hr
        rw [List.mem_append] at hr
        rcases hr with hr | hr
        · exact hb r hr
        · simp only [List.mem_singleton] at hr
          rw [hr, routed_backend_commercial svc h]
          rfl
    | false =>
      simp only [Bool.false_eq_true, if_false]
      refine routed_of_log svc log
        (issued ++ [.overpass (convertTypeToOSM type) c.lat c.lng]) _ rfl ?_ (by simp) ?_
      · simp [fetchNearbyPlacesOverpass, hl]
      · intro r hr
        rw [List.mem_append] at hr
        rcases hr with hr | hr
        · exact hb r hr
        · simp only [List.mem_singleton] at hr
          rw [hr, routed_backend_free svc h]
          rfl

/-- C25 (the provider is fixed per service).  The backend of a service is the commercial one
exactly when `googleMapsKey` is set (and not empty).  Each of `searchLocation`,
`getCoordinates`, `reverseGeocode` and `searchNearby` leaves the fields of the service as they
were and sends every request of the call, at least one, to that backend; so `searchNearby`
sends its geocoding request and its nearby request to one backend, and two forward searches
for the same text, one after the other, send all their requests to one backend. -/
theorem provider_selection_fixed (w : World) (svc : LocationService) (log : List Request) :
    (svc.backend = .commercial ↔ truthyText svc.googleMapsKey = true) ∧
      (∀ text, Routed svc log (searchLocation w svc log text)) ∧
      (∀ address, Routed svc log (getCoordinates w svc log address)) ∧
      (∀ lat lng, Routed svc log (reverseGeocode w svc log lat lng)) ∧
      (∀ location type, Routed svc log (searchNearby w svc log location type)) ∧
      (∀ location type c, (getCoordinates w svc log location).value = .ok c →
        ∃ geocoding nearby,
          (searchNearby w svc log location type).log = log ++ [geocoding, nearby] ∧
            geocoding.backend = svc.backend ∧ nearby.backend = svc.backend) ∧
      (∀ text,
        (searchLocation w (searchLocation w svc log text).service
            (searchLocation w svc log text).log text).service = svc ∧
          ∃ issued,
            (searchLocation w (searchLocation w svc log text).service
              (searchLocation w svc log text).log text).log = log ++ issued ∧
            ∀ q ∈ issued, q.backend = svc.backend) := by
  refine ⟨?_, searchLocation_routed w svc log, fun a => (getCoordinates_routed w svc log a).1,
    reverseGeocode_routed w svc log, searchNearby_routed w svc log, ?_, ?_⟩
  · cases h : truthyText svc.googleMapsKey <;> simp [LocationService.backend, h]
  · intro location type c hc
    obtain ⟨hs, issued, hne, hl, hb⟩ := searchNearby_routed w svc log location type
    obtain ⟨⟨hs1, _⟩, q, hq⟩ := getCoordinates_routed w svc log location
    cases h : truthyText svc.googleMapsKey with
    | true =>
      have hlog : (searchNearby w svc log location type).log =
          log ++ [q, .nearbySearch c.lat c.lng 1000 (if truthyText type then type else none)
            svc.googleMapsKey] := by
        simp [searchNearby, hc, hs1, h, getNearbyPlaces, hq]
      refine ⟨_, _, hlog, ?_, ?_⟩
      · apply hb
        have := hl.symm.trans hlog
        rw [List.append_cancel_left this]
        simp
      · rw [routed_backend_commercial svc h]
        rfl
    | false =>
      have hlog : (searchNearby w svc log location type).log =
          log ++ [q, .overpass (convertTypeToOSM type) c.lat c.lng] := by
        simp [searchNearby, hc, hs1, h, fetchNearbyPlacesOverpass, hq]
      refine ⟨_, _, hlog, ?_, ?_⟩
      · apply hb
        have := hl.symm.trans hlog
        rw [List.append_cancel_left this]
        simp
      · rw [routed_backend_free svc h]
        rfl
  · intro text
    obtain ⟨hs, issued, _, hl, hb⟩ := searchLocation_routed w svc log text
    rw [hs, hl]
    obtain ⟨hs2, issued2, _, hl2, hb2⟩ := searchLocation_routed w svc (log ++ issued) text
    refine ⟨hs2, issued ++ issued2, by rw [hl2, List.append_assoc], ?_⟩
    intro q hq
    rw [List.mem_append] at hq
    rcases hq with hq | hq
    · exact hb q hq
    · exact hb2 q hq

/-! ### The unit of a distance label and the raw keyword search -/

theorem matchAt_notDigitOrDotRe (prev : Option Char) (c : Char) (cs : List Char) :
    matchAt notDigitOrDotRe prev (c :: cs) =
      if (isDigit09 c || c == '.') = true then none else some ⟨some c, cs, []⟩ := by
  simp only [matchAt, notDigitOrDotRe, matchRe_cls_cons]
  by_cases h : (isDigit09 c || c == '.') = true
  · simp [h]
  · simp [h]

theorem removeAllFrom_notDigitOrDotRe (s : List Char) :
    ∀ prev, removeAllFrom notDigitOrDotRe 0 prev s =
      s.filter (fun c => isDigit09 c || c == '.') := by
  induction s with
  | nil => intro prev; rfl
  | cons c cs ih =>
    intro prev
    rw [removeAllFrom, matchAt_notDigitOrDotRe]
    by_cases h : (isDigit09 c || c == '.') = true
    · simp only [h, if_true, List.filter_cons]
      rw [ih]
    · simp only [h, if_false, List.filter_cons]
      simp [ih]

theorem parsedMagnitude_append (magnitude unit : String)
    (hunit : unit.data.filter (fun c => isDigit09 c || c == '.') = []) :
    parsedMagnitude (magnitude ++ unit) =
      parseFloat (magnitude.data.filter (fun c => isDigit09 c || c == '.')) := by
  unfold parsedMagnitude
  rw [removeAllFrom_notDigitOrDotRe, String.data_append, List.filter_append, hunit,
    List.append_nil]

/-- C26 (the unit of the label is ignored).  For every text `N` the labels `Nm` and `Nkm`
give the same estimate: the number read is the one of the digits and points of `N` alone, and
it is `N` itself when `N` consists of digits and points.  So a label in metres is banded by
its count of metres: `500m` gives `7 - 10 jam` like `500km` (the band above 200), and `49m`
gives `118 menit - 1.5 jam` like `49km` (the band under 50). -/
theorem estimateTravelTime_ignores_unit (magnitude : String) :
    estimateTravelTime (magnitude ++ "m") = estimateTravelTime (magnitude ++ "km") ∧
      parsedMagnitude (magnitude ++ "m") = parsedMagnitude (magnitude ++ "km") ∧
      ((∀ c ∈ magnitude.data, (isDigit09 c || c == '.') = true) →
        parsedMagnitude (magnitude ++ "m") = parseFloat magnitude.data ∧
          parsedMagnitude (magnitude ++ "km") = parseFloat magnitude.data) ∧
      parsedMagnitude "500m" = some 500 ∧
      estimateTravelTime "500m" = "7 - 10 jam" ∧ estimateTravelTime "500km" = "7 - 10 jam" ∧
      parsedMagnitude "49m" = some 49 ∧
      estimateTravelTime "49m" = "118 menit - 1.5 jam" ∧
      estimateTravelTime "49km" = "118 menit - 1.5 jam" := by
  have hm := parsedMagnitude_append magnitude "m" (by decide)
  have hkm := parsedMagnitude_append magnitude "km" (by decide)
  refine ⟨?_, by rw [hm, hkm], ?_, by decide!, by decide!, by decide!, by decide!, by decide!,
    by decide!⟩
  · unfold estimateTravelTime
    rw [hm, hkm]
  · intro hall
    have hf : magnitude.data.filter (fun c => isDigit09 c || c == '.') = magnitude.data :=
      List.filter_eq_self.mpr hall
    rw [hm, hkm, hf]
    exact ⟨rfl, rfl⟩

/-- Witness of C26: the magnitude `12.5`. -/
theorem estimateTravelTime_ignores_unit_witness :
    (∀ c ∈ "12.5".data, (isDigit09 c || c == '.') = true) ∧
      parsedMagnitude ("12.5" ++ "m") = parseFloat "12.5".data ∧
      parsedMagnitude ("12.5" ++ "km") = parseFloat "12.5".data :=
  ⟨by decide, (estimateTravelTime_ignores_unit "12.5").2.2.1 (by decide)⟩

/-- The same in doubles: the unit of the label does not reach `parseFloat`, so `Nm` and
`Nkm` give the same estimate, and `500m` is read as 500, `49m` as 49. -/
theorem ieee_estimate_ignores_unit (engine : Engine) (magnitude : String) :
    Ieee.estimateTravelTime engine (magnitude ++ "m") =
        Ieee.estimateTravelTime engine (magnitude ++ "km") ∧
      Ieee.parsedMagnitude "500m" = .fin 500 ∧ Ieee.parsedMagnitude "500km" = .fin 500 ∧
      Ieee.parsedMagnitude "49m" = .fin 49 ∧ Ieee.parsedMagnitude "49km" = .fin 49 := by
  refine ⟨?_, by decide!, by decide!, by decide!, by decide!⟩
  have h : Ieee.parsedMagnitude (magnitude ++ "m") =
      Ieee.parsedMagnitude (magnitude ++ "km") := by
    unfold Ieee.parsedMagnitude
    rw [removeAllFrom_notDigitOrDotRe, removeAllFrom_notDigitOrDotRe, String.data_append,
      String.data_append, List.filter_append, List.filter_append]
    have h1 : "m".data.filter (fun c => isDigit09 c || c == '.') = [] := by decide
    have h2 : "km".data.filter (fun c => isDigit09 c || c == '.') = [] := by decide
    rw [h1, h2]
  unfold Ieee.estimateTravelTime
  rw [h]

theorem includesChars_iff (sub : List Char) :
    ∀ s : List Char, includesChars sub s = true ↔ ∃ before after, s = before ++ sub ++ after := by
  intro s
  induction s with
  | nil =>
    simp only [includesChars, List.isEmpty_iff]
    constructor
    · intro h
      exact ⟨[], [], by simp [h]⟩
    · rintro ⟨before, after, h⟩
      have h' := congrArg List.length h
      simp only [List.length_nil, List.length_append] at h'
      exact List.length_eq_zero.mp (by omega)
  | cons c cs ih =>
    simp only [includesChars, Bool.or_eq_true, List.isPrefixOf_iff_prefix, ih]
    constructor
    · rintro (⟨after, h⟩ | ⟨before, after, h⟩)
      · exact ⟨[], after, by simp [h]⟩
      · exact ⟨c :: before, after, by simp [h]⟩
    · rintro ⟨before, after, h⟩
      cases before with
      | nil => exact Or.inl ⟨after, by simpa using h.symm⟩
      | cons b before =>
        simp only [List.cons_append, List.cons.injEq] at h
        exact Or.inr ⟨before, after, h.2⟩

theorem toLowerCase_keeps (q : String) (keyword before after : List Char)
    (hk : (keyword.map lowerChar).flatten = keyword)
    (hq : q.data = before ++ keyword ++ after) :
    ∃ before' after', (toLowerCase q).data = before' ++ keyword ++ after' := by
  refine ⟨(before.map lowerChar).flatten, (after.map lowerChar).flatten, ?_⟩
  simp only [toLowerCase, hq, List.map_append, List.flatten_append, hk]

theorem processQuery_of_travel (q : String) (keyword : String)
    (hcontrol : ∀ command ∈ ["exit", "quit", "help", "clear", "status"],
      jsIncludes command keyword = false)
    (hmem : keyword ∈ travelKeywords)
    (h : jsIncludes (toLowerCase q) keyword = true) :
    isTravelTimeQuery q = true ∧ processQuery q = .travelTime := by
  have ht : isTravelTimeQuery q = true := by
    unfold isTravelTimeQuery
    rw [List.any_eq_true]
    exact ⟨keyword, hmem, h⟩
  have hne : ∀ command ∈ ["exit", "quit", "help", "clear", "status"],
      toLowerCase q ≠ command := by
    intro command hc heq
    rw [heq, hcontrol command hc] at h
    exact Bool.false_ne_true h
  have h1 := hne "exit" (by simp)
  have h2 := hne "quit" (by simp)
  have h3 := hne "help" (by simp)
  have h4 := hne "clear" (by simp)
  have h5 := hne "status" (by simp)
  refine ⟨ht, ?_⟩
  simp [processQuery, h1, h2, h3, h4, h5, ht]

/-- C27 (the travel classifier is a raw substring search).  `isTravelTimeQuery(q)` is true
exactly when the lower-case form of `q` holds one of the six keywords as a substring.  So
every query whose lower-case form holds `ke` or `dari` anywhere, also inside a word, and in
particular every query that holds these small letters itself, is classified as travel-time
and `processQuery` hands it to the travel-time handler, not to the nearby handler:
`hotel terdekat di Kendari` is such a query. -/
theorem isTravelTimeQuery_raw_substring (q : String) :
    (isTravelTimeQuery q = true ↔
        ∃ keyword ∈ ["berapa jam", "berapa lama", "jarak", "waktu tempuh", "dari", "ke"],
          ∃ before after, (toLowerCase q).data = before ++ keyword.data ++ after) ∧
      ((∃ before after, (toLowerCase q).data = before ++ "ke".data ++ after ∨
          (toLowerCase q).data = before ++ "dari".data ++ after) →
        isTravelTimeQuery q = true ∧ processQuery q = .travelTime ∧
          processQuery q ≠ .nearby) ∧
      ((∃ before after, q.data = before ++ "ke".data ++ after ∨
          q.data = before ++ "dari".data ++ after) →
        isTravelTimeQuery q = true ∧ processQuery q = .travelTime ∧
          processQuery q ≠ .nearby) ∧
      (isNearbyQuery "hotel terdekat di Kendari" = true ∧
        isTravelTimeQuery "hotel terdekat di Kendari" = true ∧
        processQuery "hotel terdekat di Kendari" = .travelTime) := by
  have key : (∃ before after, (toLowerCase q).data = before ++ "ke".data ++ after ∨
      (toLowerCase q).data = before ++ "dari".data ++ after) →
      isTravelTimeQuery q = true ∧ processQuery q = .travelTime ∧
        processQuery q ≠ .nearby := by
    rintro ⟨b, a, hl | hl⟩
    · have hin : jsIncludes (toLowerCase q) "ke" = true :=
        (includesChars_iff _ _).mpr ⟨b, a, hl⟩
      obtain ⟨h1, h2⟩ := processQuery_of_travel q "ke" (by decide) (by decide) hin
      exact ⟨h1, h2, by rw [h2]; decide⟩
    · have hin : jsIncludes (toLowerCase q) "dari" = true :=
        (includesChars_iff _ _).mpr ⟨b, a, hl⟩
      obtain ⟨h1, h2⟩ := processQuery_of_travel q "dari" (by decide) (by decide) hin
      exact ⟨h1, h2, by rw [h2]; decide⟩
  refine ⟨?_, key, ?_, by decide⟩
  · unfold isTravelTimeQuery
    rw [List.any_eq_true]
    constructor
    · rintro ⟨keyword, hmem, h⟩
      exact ⟨keyword, hmem, (includesChars_iff _ _).mp h⟩
    · rintro ⟨keyword, hmem, h⟩
      exact ⟨keyword, hmem, (includesChars_iff _ _).mpr h⟩
  · rintro ⟨before, after, h | h⟩
    · obtain ⟨b, a, hl⟩ := toLowerCase_keeps q "ke".data before after (by decide) h
      exact key ⟨b, a, Or.inl hl⟩
    · obtain ⟨b, a, hl⟩ := toLowerCase_keeps q "dari".data before after (by decide) h
      exact key ⟨b, a, Or.inr hl⟩

/-- Witness of C27: the lower-case form of `hotel terdekat di Kendari` holds `ke`, from
`Kendari`. -/
theorem isTravelTimeQuery_raw_substring_witness :
    (toLowerCase "hotel terdekat di Kendari").data =
        "hotel terdekat di ".data ++ "ke".data ++ "ndari".data ∧
      isTravelTimeQuery "hotel terdekat di Kendari" = true ∧
      processQuery "hotel terdekat di Kendari" = .travelTime ∧
      processQuery "hotel terdekat di Kendari" ≠ .nearby :=
  ⟨by decide, (isTravelTimeQuery_raw_substring "hotel terdekat di Kendari").2.1
    ⟨"hotel terdekat di ".data, "ndari".data, Or.inl (by decide)⟩⟩

/-! ### Bounds on the calls of a run -/

theorem extractLocationNames_length (aiResponse originalQuery : String) :
    (extractLocationNames aiResponse originalQuery).length ≤ 5 := by
  unfold extractLocationNames
  exact List.length_take_le _ _

theorem searchTexts_snoc_ai (log : List (Event π)) (q c rc r) :
    searchTexts (log ++ [Event.ai q c rc r]) = searchTexts log := by
  rw [searchTexts_append]
  simp [searchTexts]

theorem searchTexts_snoc_search (log : List (Event π)) (s r) :
    searchTexts (log ++ [Event.search s r]) = searchTexts log ++ [s] := by
  rw [searchTexts_append]
  simp [searchTexts]

theorem trySuggestions_counts (env : Env π) :
    ∀ (suggestions : List String) (log : List (Event π)) (results : List SearchAttempt),
      aiCount (trySuggestions env suggestions log results).2.1 = aiCount log ∧
        (searchTexts (trySuggestions env suggestions log results).2.1).length ≤
          (searchTexts log).length + suggestions.length := by
  intro suggestions
  induction suggestions with
  | nil =>
    intro log results
    simp [trySuggestions]
  | cons s rest ih =>
    intro log results
    rw [trySuggestions]
    cases h : env.searchLocation log s with
    | found place =>
      simp only [aiCount_snoc_search, searchTexts_snoc_search, List.length_append,
        List.length_cons, List.length_nil]
      exact ⟨trivial, by omega⟩
    | nothing =>
      simp only
      obtain ⟨h1, h2⟩ := ih (log ++ [.search s .nothing]) results
      rw [h1, aiCount_snoc_search]
      refine ⟨rfl, le_trans h2 ?_⟩
      simp only [searchTexts_snoc_search, List.length_append, List.length_cons, List.length_nil]
      omega
    | failed m =>
      simp only
      obtain ⟨h1, h2⟩ := ih (log ++ [.search s (.failed m)]) (results ++ [⟨s, m⟩])
      rw [h1, aiCount_snoc_search]
      refine ⟨rfl, le_trans h2 ?_⟩
      simp only [searchTexts_snoc_search, List.length_append, List.length_cons, List.length_nil]
      omega

theorem attemptLoop_counts (env : Env π) (query : String) :
    ∀ (n attempt : Nat) (st : LoopState π),
      aiCount (attemptLoop env query n attempt st).2.log ≤ aiCount st.log + n ∧
        (searchTexts (attemptLoop env query n attempt st).2.log).length ≤
          (searchTexts st.log).length + 5 * n ∧
        ∀ o, (attemptLoop env query n attempt st).1 = some o →
          ∃ result aiResponse k searchQuery,
            o = .found result aiResponse k searchQuery ∧ attempt ≤ k ∧ k < attempt + n := by
  intro n
  induction n with
  | zero =>
    intro attempt st
    simp [attemptLoop]
  | succ n ih =>
    intro attempt st
    rw [attemptLoop]
    simp only
    cases hai : processLocationQuery env st.log query
        (loopContext st.lastError st.searchResults) (attempt - 1) with
    | failed m =>
      simp only
      obtain ⟨h1, h2, h3⟩ := ih (attempt + 1)
        { log := st.log ++ [.ai query (loopContext st.lastError st.searchResults)
            (attempt - 1) (.failed m)],
          lastError := some m, searchResults := st.searchResults }
      simp only [aiCount_snoc_ai, searchTexts_snoc_ai] at h1 h2
      refine ⟨by omega, by omega, ?_⟩
      · intro o ho
        obtain ⟨r, a, k, s, e, hk1, hk2⟩ := h3 o ho
        exact ⟨r, a, k, s, e, by omega, by omega⟩
    | ok aiResponse =>
      simp only
      have hlen := extractLocationNames_length aiResponse query
      obtain ⟨t1, t2⟩ := trySuggestions_counts env (extractLocationNames aiResponse query)
        (st.log ++ [.ai query (loopContext st.lastError st.searchResults)
          (attempt - 1) (.ok aiResponse)]) st.searchResults
      simp only [aiCount_snoc_ai, searchTexts_snoc_ai] at t1 t2
      have t2' : (searchTexts (trySuggestions env (extractLocationNames aiResponse query)
          (st.log ++ [.ai query (loopContext st.lastError st.searchResults)
            (attempt - 1) (.ok aiResponse)]) st.searchResults).2.1).length ≤
          (searchTexts st.log).length + 5 := by
        omega
      rcases htry : trySuggestions env (extractLocationNames aiResponse query)
        (st.log ++ [.ai query (loopContext st.lastError st.searchResults)
          (attempt - 1) (.ok aiResponse)]) st.searchResults with ⟨found, log, results⟩
      rw [htry] at t1 t2'
      simp only at t1 t2'
      rw [htry]
      cases found with
      | some ps =>
        obtain ⟨place, s⟩ := ps
        simp only
        refine ⟨by omega, by omega, ?_⟩
        intro o ho
        simp only [Option.some.injEq] at ho
        exact ⟨place, aiResponse, attempt, s, ho.symm, le_refl _, by omega⟩
      | none =>
        simp only
        obtain ⟨h1, h2, h3⟩ := ih (attempt + 1)
          { log := log,
            lastError := some (noResultsMessage (extractLocationNames aiResponse query)),
            searchResults := results }
        simp only at h1 h2
        refine ⟨by omega, by omega, ?_⟩
        intro o ho
        obtain ⟨r, a, k, s, e, hk1, hk2⟩ := h3 o ho
        exact ⟨r, a, k, s, e, by omega, by omega⟩

/-- C28 (bounds of a run).  For every query and whatever the completion client and the
forward search do, a call of `intelligentLocationSearch` makes at most 4 calls of the
completion client and at most 15 forward searches, and a success object carries an attempt
number from 1 to 3. -/
theorem intelligentLocationSearch_bounded (env : Env π) (query : String) :
    aiCount (intelligentLocationSearch env query).log ≤ 4 ∧
      (searchTexts (intelligentLocationSearch env query).log).length ≤ 15 ∧
      ∀ result aiResponse attempt searchQuery,
        (intelligentLocationSearch env query).outcome =
            .ok (.found result aiResponse attempt searchQuery) →
          1 ≤ attempt ∧ attempt ≤ 3 := by
  obtain ⟨h1, h2, h3⟩ := attemptLoop_counts env query maxRetries 1
    { log := [], lastError := none, searchResults := [] }
  unfold intelligentLocationSearch
  rcases hloop : attemptLoop env query maxRetries 1
    { log := [], lastError := none, searchResults := [] } with ⟨o, st⟩
  rw [hloop] at h1 h2 h3
  simp only [aiCount_nil, maxRetries] at h1 h2 h3
  have h2' : (searchTexts st.log).length ≤ 15 := by
    have h0 : (searchTexts ([] : List (Event π))).length = 0 := rfl
    rw [h0] at h2
    omega
  cases o with
  | some o =>
    simp only
    refine ⟨by omega, h2', ?_⟩
    intro result aiResponse attempt searchQuery ho
    simp only [Except.ok.injEq] at ho
    obtain ⟨r, a, k, s, e, hk1, hk2⟩ := h3 o rfl
    rw [ho] at e
    simp only [Outcome.found.injEq] at e
    obtain ⟨_, _, rfl, _⟩ := e
    exact ⟨hk1, by omega⟩
  | none =>
    simp only
    cases hfin : processLocationQuery env st.log (finalQuery query)
        (some (finalContext st.searchResults)) maxRetries with
    | ok finalResponse =>
      simp only [aiCount_snoc_ai, searchTexts_snoc_ai]
      refine ⟨by omega, h2', ?_⟩
      intro result aiResponse attempt searchQuery ho
      simp at ho
    | failed m =>
      simp only [aiCount_snoc_ai, searchTexts_snoc_ai]
      refine ⟨by omega, h2', ?_⟩
      intro result aiResponse attempt searchQuery ho
      simp at ho

end Cilok
